import Mathlib

/-!
Verification development for the SmartNOTAM NOTAM-processing pipeline.

The Python sources are shallowly embedded over `List Char` strings and `ℚ`
coordinates.  Python `re` patterns are embedded through a small backtracking
regular-expression engine (`RE`) whose constructs cover exactly the features
the source patterns use (character classes, greedy repetition, alternation,
optional groups, capture groups, negative lookahead, end-of-string anchor,
word boundary).  Python `float` coordinate arithmetic is modelled with exact
rationals; all comparisons exercised by the theorems are far from rounding
ties.  Python dicts are modelled as insertion-ordered association lists,
matching the CPython iteration-order guarantee.
-/

namespace SmartNotam

/-- Strings are modelled as lists of characters (Python `str`). -/
abbrev Str := List Char

/-- Coerces a Lean string literal to the `Str` model. -/
def str (s : String) : Str := s.data

/-- Python whitespace predicate used by `str.strip` / the regex class `\s`
(ASCII fragment; the embedded bulletins are ASCII). -/
def pyIsSpaceChar (c : Char) : Bool :=
  c = ' ' || c = '\t' || c = '\n' || c = '\r' || c = '\x0b' || c = '\x0c'

/-- Left strip (Python `str.lstrip()`). -/
def pyLStrip (s : Str) : Str := s.dropWhile pyIsSpaceChar

/-- Right strip (Python `str.rstrip()`). -/
def pyRStrip (s : Str) : Str := (s.reverse.dropWhile pyIsSpaceChar).reverse

/-- Python `str.strip()`. -/
def pyStrip (s : Str) : Str := pyRStrip (pyLStrip s)

/-- Python `text.split('\n')`: always returns at least one piece. -/
def splitNl : Str → List Str
  | [] => [[]]
  | c :: rest =>
    if c = '\n' then [] :: splitNl rest
    else
      match splitNl rest with
      | [] => [[c]]
      | l :: ls => (c :: l) :: ls

/-- Python `'\n'.join(lines)`. -/
def joinNl : List Str → Str
  | [] => []
  | [l] => l
  | l :: ls => l ++ '\n' :: joinNl ls

/-- ASCII uppercase conversion of one character (Python `str.upper`,
ASCII fragment). -/
def pyUpperChar (c : Char) : Char :=
  if 'a' ≤ c && c ≤ 'z' then Char.ofNat (c.toNat - 32) else c

/-- Python `str.upper()`. -/
def pyUpper (s : Str) : Str := s.map pyUpperChar

/-- Boolean prefix test. -/
def listStarts : Str → Str → Bool
  | [], _ => true
  | _ :: _, [] => false
  | a :: as, b :: bs => a = b && listStarts as bs

/-- Python `needle in hay` substring test. -/
def containsStr (nd : Str) (hay : Str) : Bool :=
  match hay with
  | [] => listStarts nd []
  | _ :: rest => listStarts nd hay || containsStr nd rest

/-- Python slice `s[a:b]` (for `a ≤ b`; clamps like Python). -/
def pySlice (s : Str) (a b : Nat) : Str := (s.drop a).take (b - a)

/-- Digit test for the regex class `\d` (ASCII). -/
def isDigitChar (c : Char) : Bool := '0' ≤ c && c ≤ '9'

/-- Character class `[A-Z]`. -/
def isUpperChar (c : Char) : Bool := 'A' ≤ c && c ≤ 'Z'

/-- Word character for `\b` (Python `\w`, ASCII fragment). -/
def isWordChar (c : Char) : Bool :=
  isUpperChar c || ('a' ≤ c && c ≤ 'z') || isDigitChar c || c = '_'

/-- Numeric value of a decimal digit character. -/
def digitVal (c : Char) : Nat := c.toNat - 48

/-- Decimal value of an all-digit string (Python `int` on digit strings). -/
def strToNat (s : Str) : Nat := s.foldl (fun acc c => acc * 10 + digitVal c) 0

/-- Python `int(s)`: optional surrounding whitespace, optional sign, one or
more digits; anything else raises (modelled as `none`). -/
def pyIntOpt (s : Str) : Option Int :=
  let t := pyStrip s
  match t with
  | [] => none
  | c :: rest =>
    if c = '+' then
      if rest ≠ [] && rest.all isDigitChar then some (strToNat rest) else none
    else if c = '-' then
      if rest ≠ [] && rest.all isDigitChar then some (-(strToNat rest : Int)) else none
    else if t.all isDigitChar then some (strToNat t) else none

/-- Decimal digits of a natural number (Python `str(n)` for `n ≥ 0`). -/
def natStr (n : Nat) : Str := Nat.toDigits 10 n

/-- Zero-padded two-digit rendering (Python `f"{n:02d}"` for `n ≥ 0`). -/
def pad2 (n : Nat) : Str := if n < 10 then '0' :: natStr n else natStr n

/-- Fueled helper for `pyReplace` (structural recursion on the fuel, which
is initialised to the string length; every step consumes at least one
character, so the fuel never runs out). -/
def pyReplaceAux (old new : Str) : Nat → Str → Str
  | 0, s => s
  | _ + 1, [] => []
  | fuel + 1, c :: rest =>
    if listStarts old (c :: rest) then
      new ++ pyReplaceAux old new fuel (rest.drop (old.length - 1))
    else
      c :: pyReplaceAux old new fuel rest

/-- Python `str.replace(old, new)` (all occurrences, left to right; an empty
`old` never occurs at the embedded call sites and leaves the string
unchanged here). -/
def pyReplace (old new : Str) (s : Str) : Str :=
  match old with
  | [] => s
  | _ :: _ => pyReplaceAux old new s.length s

/-!
### Regular-expression engine

A small backtracking matcher covering exactly the constructs used by the
embedded Python patterns.  Greedy semantics match CPython `re`: repetition
and `?` prefer the longer alternative, `|` prefers the left alternative,
and the overall search returns the leftmost match.
-/

/-- Regular-expression syntax.  `starC` is the Kleene star restricted to a
single character class, which is the only starred form the source patterns
use (`\s*`, `\d+`, `[A-Z\s]+`, `={4,}` …). -/
inductive RE where
  | eps : RE
  | cls : (Char → Bool) → RE
  | seq : RE → RE → RE
  | alt : RE → RE → RE
  | opt : RE → RE
  | starC : (Char → Bool) → RE
  | grp : Nat → RE → RE
  | nla : RE → RE
  | eos : RE
  | wordB : RE

/-- Captured groups: group index paired with the captured substring. -/
abbrev Caps := List (Nat × Str)

/-- Match result: remaining suffix and captures. -/
abbrev MRes := Option (Str × Caps)

/-- Word-boundary test given the previous character and the remaining
input. -/
def atWordBoundary (prev : Option Char) (s : Str) : Bool :=
  let pw := match prev with | some c => isWordChar c | none => false
  let nw := match s with | c :: _ => isWordChar c | [] => false
  pw != nw

/-- Greedy matcher for `p*`: consume as many `p`-characters as possible,
backtracking one at a time into the continuation `k`. -/
def mstar (p : Char → Bool) (prev : Option Char) (s : Str) (caps : Caps)
    (k : Option Char → Str → Caps → MRes) : MRes :=
  match s with
  | [] => k prev s caps
  | c :: rest =>
    if p c then
      match mstar p (some c) rest caps k with
      | some r => some r
      | none => k prev s caps
    else k prev s caps

/-- Continuation-passing matcher.  `prev` is the character immediately
before the current position (for `\b`), `s` the remaining input. -/
def mre (re : RE) (prev : Option Char) (s : Str) (caps : Caps)
    (k : Option Char → Str → Caps → MRes) : MRes :=
  match re with
  | .eps => k prev s caps
  | .cls p =>
    match s with
    | [] => none
    | c :: rest => if p c then k (some c) rest caps else none
  | .seq a b => mre a prev s caps fun p2 s2 c2 => mre b p2 s2 c2 k
  | .alt a b =>
    match mre a prev s caps k with
    | some r => some r
    | none => mre b prev s caps k
  | .opt a =>
    match mre a prev s caps k with
    | some r => some r
    | none => k prev s caps
  | .starC p => mstar p prev s caps k
  | .grp i a =>
    mre a prev s caps fun p2 s2 c2 =>
      k p2 s2 ((i, s.take (s.length - s2.length)) :: c2)
  | .nla a =>
    match mre a prev s caps fun _ s2 c2 => some (s2, c2) with
    | some _ => none
    | none => k prev s caps
  | .eos =>
    match s with
    | [] => k prev s caps
    | _ :: _ => none
  | .wordB => if atWordBoundary prev s then k prev s caps else none

/-- Anchored match (Python `re.match`): returns remaining suffix and
captures. -/
def reMatchL (re : RE) (prev : Option Char) (s : Str) : MRes :=
  mre re prev s [] fun _ rest caps => some (rest, caps)

/-- Boolean anchored match (Python `bool(re.match(p, s))`). -/
def reMatchB (re : RE) (s : Str) : Bool := (reMatchL re none s).isSome

/-- Unanchored search (Python `re.search`): tries positions left to right;
returns the matched substring, the remaining suffix and the captures. -/
def reSearchAux (re : RE) (prev : Option Char) (s : Str) :
    Option (Str × Str × Caps) :=
  match reMatchL re prev s with
  | some (rest, caps) => some (s.take (s.length - rest.length), rest, caps)
  | none =>
    match s with
    | [] => none
    | c :: r => reSearchAux re (some c) r

/-- Python `re.search(p, s)`. -/
def reSearch (re : RE) (s : Str) : Option (Str × Str × Caps) :=
  reSearchAux re none s

/-- Boolean search (Python `bool(re.search(p, s))`). -/
def reTest (re : RE) (s : Str) : Bool := (reSearch re s).isSome

/-- Group lookup in a capture list (Python `m.group(i)`). -/
def capGet (caps : Caps) (i : Nat) : Option Str :=
  (caps.find? fun c => c.1 = i).map (·.2)

/-- Fueled helper for `reFindAll`. -/
def reFindAllAux (re : RE) : Nat → Option Char → Str → List Str
  | 0, _, _ => []
  | Nat.succ fuel, prev, s =>
    match reSearchAux re prev s with
    | none => []
    | some (m, rest, _) =>
      match m with
      | [] =>
        m :: (match rest with
              | [] => []
              | c :: r2 => reFindAllAux re fuel (some c) r2)
      | _ :: _ => m :: reFindAllAux re fuel m.getLast? rest

/-- Python `re.findall(p, s)` for group-free patterns: non-overlapping
matches, left to right. -/
def reFindAll (re : RE) (s : Str) : List Str :=
  reFindAllAux re (s.length + 1) none s

/-!
### Pattern-building helpers
-/

/-- Literal string pattern. -/
def lit (s : String) : RE :=
  s.data.foldr (fun c acc => RE.seq (RE.cls fun x => x = c) acc) RE.eps

/-- Case-insensitive literal (for patterns compiled with `re.IGNORECASE`). -/
def litCI (s : String) : RE :=
  s.data.foldr
    (fun c acc => RE.seq (RE.cls fun x => pyUpperChar x = pyUpperChar c) acc)
    RE.eps

/-- Sequencing of a pattern list. -/
def seqs (l : List RE) : RE := l.foldr RE.seq RE.eps

/-- Alternation of a nonempty pattern list (left preference). -/
def alts (l : List RE) : RE :=
  match l with
  | [] => RE.cls fun _ => false
  | [a] => a
  | a :: rest => RE.alt a (alts rest)

/-- Exactly `n` repetitions. -/
def reps (n : Nat) (a : RE) : RE :=
  match n with
  | 0 => RE.eps
  | Nat.succ m => RE.seq a (reps m a)

/-- At most `n` repetitions, greedy. -/
def upto (n : Nat) (a : RE) : RE :=
  match n with
  | 0 => RE.eps
  | Nat.succ m => RE.opt (RE.seq a (upto m a))

/-- Bounded repetition `a{lo,hi}`, greedy. -/
def rng (lo hi : Nat) (a : RE) : RE := RE.seq (reps lo a) (upto (hi - lo) a)

/-- One-or-more over a character class (`p+`). -/
def plusC (p : Char → Bool) : RE := RE.seq (RE.cls p) (RE.starC p)

/-- Shorthand patterns used throughout: `\d`, `[A-Z]`, `\s`, `\s*`, `\s+`. -/
def dD : RE := RE.cls isDigitChar

/-- Pattern `[A-Z]`. -/
def uU : RE := RE.cls isUpperChar

/-- Pattern `\s*`. -/
def wsStar : RE := RE.starC pyIsSpaceChar

/-- Pattern `\s+`. -/
def wsPlus : RE := plusC pyIsSpaceChar

/-- Pattern `\d{n}`. -/
def dRep (n : Nat) : RE := reps n dD

/-- Pattern `[A-Z]{n}`. -/
def uRep (n : Nat) : RE := reps n uU

/-!
### FIR boundary database (`backup/fir_analysis_backup/fir_boundaries.py`)

Coordinates are exact rationals; Python computes the same values in binary
floating point, and every comparison exercised below is far from a rounding
tie.
-/

/-- Regex `(\d{6})([NS])` from `_parse_coordinate_string`. -/
def latGroupRE : RE :=
  seqs [RE.grp 1 (dRep 6), RE.grp 2 (RE.cls fun c => c = 'N' || c = 'S')]

/-- Regex `(\d{7})([EW])` from `_parse_coordinate_string`. -/
def lonGroupRE : RE :=
  seqs [RE.grp 1 (dRep 7), RE.grp 2 (RE.cls fun c => c = 'E' || c = 'W')]

/-- Python `FIRBoundaryDatabase._parse_coordinate_string`: parses
`544009N 1700000E` into decimal degrees; raises (here: `none`) when the two
component searches fail. -/
def parse_coordinate_string (s : Str) : Option (ℚ × ℚ) :=
  let t := pyStrip s
  match reSearch latGroupRE t, reSearch lonGroupRE t with
  | some (_, _, caps1), some (_, _, caps2) =>
    match capGet caps1 1, capGet caps1 2, capGet caps2 1, capGet caps2 2 with
    | some latV, some latD, some lonV, some lonD =>
      let latDeg : ℚ := strToNat (pySlice latV 0 2)
      let latMin : ℚ := strToNat (pySlice latV 2 4)
      let latSec : ℚ := strToNat (pySlice latV 4 6)
      let lat0 := latDeg + latMin / 60 + latSec / 3600
      let lat := if latD = str "S" then -lat0 else lat0
      let lonDeg : ℚ := strToNat (pySlice lonV 0 3)
      let lonMin : ℚ := strToNat (pySlice lonV 3 5)
      let lonSec : ℚ := strToNat (pySlice lonV 5 7)
      let lon0 := lonDeg + lonMin / 60 + lonSec / 3600
      let lon := if lonD = str "W" then -lon0 else lon0
      some (lat, lon)
    | _, _, _, _ => none
  | _, _ => none

/-- Regex `\d{6}[NS]\s+\d{7}[EW]` used by every boundary parser's
`re.findall`. -/
def coordPairRE : RE :=
  seqs [dRep 6, RE.cls (fun c => c = 'N' || c = 'S'), wsPlus,
        dRep 7, RE.cls (fun c => c = 'E' || c = 'W')]

/-- Shared boundary-parsing pipeline: `re.findall` then per-pair parse with
failures skipped (the Python `except ValueError: continue`). -/
def parseBoundaryText (t : Str) : List (ℚ × ℚ) :=
  (reFindAll coordPairRE t).filterMap parse_coordinate_string

/-- Literal boundary text from `_parse_paza_boundary`. -/
def pazaBoundaryText : String := "
        544009N 1700000E
        513000N 1700000E
        510500N 1734400E
        500800N 1763400W
        454200N 1625500E
        500500N 1590000E
        540000N 1690000E
        544009N 1700000E
        "

/-- Literal boundary text from `_parse_kzak_boundary`. -/
def kzakBoundaryText : String := "
        524300N 1350000W
        510000N 1334500W
        482000N 1280000W
        450000N 1263000W
        405900N 1265400W
        405000N 1270000W
        373023N 1270000W
        362743N 1265600W
        353000N 1255000W
        360000N 1241200W
        343000N 1231500W
        304500N 1205000W
        300000N 1200000W
        033000N 1200000W
        033000N 1450000W
        050000S 1550000W
        050000S 1800000W/E
        033000N 1800000W/E
        033000N 1600000E
        000000N/S 1600000E
        000000N/S 1410000E
        033000N 1410000E
        033000N 1330000E
        070000N 1300000E
        210000N 1300000E
        210000N 1550000E
        270000N 1550000E
        270000N 1650000E
        430000N 1650000E
        454200N 1625500E
        500800N 1763400W
        512400N 1674900W
        533000N 1600000W
        560000N 1530000W 564542N 1514500W
        532203N 1370000W
        524300N 1350000W
        "

/-- Literal boundary text from `_parse_rjjj_boundary`. -/
def rjjjBoundaryText : String := "
        454200N 1625500E
        430000N 1650000E
        270000N 1650000E
        270000N 1550000E
        210000N 1550000E
        210000N 1213000E
        403000N 1333900E
        383800N 1333900E
        380000N 1330000E
        373000N 1330000E
        344000N 1291000E
        323000N 1281800E
        300000N 1252500E
        262500N 1230000E
        233000N 1230000E
        210000N 1213000E
        "

/-- Literal boundary text from `_parse_nzzo_boundary`. -/
def nzzoBoundaryText : String := "
        300000S 1310000W 900000S 0000000E 300000S 1630000E 280000S 1680000E
        250000S 1712500E 250000S 1800000E 153245.1S 1754031.2W 050000S 1710000W
        050000S 1570000W 300000S 1570000W 300000S 1310000W
        "

/-- Literal boundary text from `_parse_aypm_boundary`. -/
def aypmBoundaryText : String := "
        000000N 1600000E 045000S 1600000E 045000S 1590000E 120000S 1550000E
        120000S 1440000E 000000N 1410000E 000000N 1600000E
        "

/-- Python `_parse_paza_boundary`. -/
def parse_paza_boundary : List (ℚ × ℚ) := parseBoundaryText (str pazaBoundaryText)

/-- Python `_parse_kzak_boundary`: preprocessing replaces `N/S` with `N`
and `W/E` with `E` before the shared findall pipeline. -/
def parse_kzak_boundary : List (ℚ × ℚ) :=
  parseBoundaryText
    (pyReplace (str "W/E") (str "E")
      (pyReplace (str "N/S") (str "N") (str kzakBoundaryText)))

/-- Python `_parse_rjjj_boundary`. -/
def parse_rjjj_boundary : List (ℚ × ℚ) := parseBoundaryText (str rjjjBoundaryText)

/-- Python `_parse_nzzo_boundary` (the malformed decimal pair
`153245.1S 1754031.2W` fails the findall pattern and is skipped, as in the
source). -/
def parse_nzzo_boundary : List (ℚ × ℚ) := parseBoundaryText (str nzzoBoundaryText)

/-- Python `_parse_aypm_boundary`. -/
def parse_aypm_boundary : List (ℚ × ℚ) := parseBoundaryText (str aypmBoundaryText)

/-- Python `FIRBoundaryDatabase.fir_boundaries`: a dict in insertion order
(CPython preserves it), modelled as an ordered association list. -/
def fir_boundaries : List (Str × List (ℚ × ℚ)) :=
  [(str "PAZA", parse_paza_boundary),
   (str "KZAK", parse_kzak_boundary),
   (str "RJJJ", parse_rjjj_boundary),
   (str "NZZO", parse_nzzo_boundary),
   (str "AYPM", parse_aypm_boundary)]

/-- Minimum of a rational list (Python `min`, nonempty at call sites;
`0` for the never-taken empty case). -/
def qMin : List ℚ → ℚ
  | [] => 0
  | x :: xs => xs.foldl min x

/-- Maximum of a rational list (Python `max`). -/
def qMax : List ℚ → ℚ
  | [] => 0
  | x :: xs => xs.foldl max x

/-- Python `FIRIdentifier._is_point_in_fir_boundary_box`: bounding-box test
with the antimeridian special case. -/
def is_point_in_fir_boundary_box (pt : ℚ × ℚ) (boundary : List (ℚ × ℚ)) : Bool :=
  let lat := pt.1
  let lon := pt.2
  let minLat := qMin (boundary.map Prod.fst)
  let maxLat := qMax (boundary.map Prod.fst)
  let minLon := qMin (boundary.map Prod.snd)
  let maxLon := qMax (boundary.map Prod.snd)
  if minLon < 0 && maxLon > 0 then
    decide (minLat ≤ lat) && decide (lat ≤ maxLat) &&
      (decide (minLon ≤ lon) && decide (lon ≤ (180 : ℚ)) ||
       decide ((-180 : ℚ) ≤ lon) && decide (lon ≤ maxLon))
  else
    decide (minLat ≤ lat) && decide (lat ≤ maxLat) &&
      decide (minLon ≤ lon) && decide (lon ≤ maxLon)

/-- Python `FIRIdentifier.identify_fir_by_coordinate`: first FIR (in dict
insertion order) whose bounding box contains the point. -/
def identify_fir_by_coordinate (lat lon : ℚ) : Option Str :=
  ((fir_boundaries.find? fun e => is_point_in_fir_boundary_box (lat, lon) e.2).map
    Prod.fst)

/-- One coordinate's analysis record (`coord_info` in `analyze_upr_route`). -/
structure CoordInfo where
  idx : Nat
  lat : ℚ
  lon : ℚ
  fir : Option Str
deriving Repr, DecidableEq

/-- One FIR segment (`fir_segments` entry in `analyze_upr_route`). -/
structure SegRec where
  startIdx : Nat
  endIdx : Nat
  coords : List (ℚ × ℚ)
deriving Repr, DecidableEq

/-- Append `v` to the list stored under `k`, inserting the key at the end
when absent — exactly the Python
`if k not in d: d[k] = []` / `d[k].append(v)` idiom. -/
def dictAppend (d : List (Str × List SegRec)) (k : Str) (v : SegRec) :
    List (Str × List SegRec) :=
  match d with
  | [] => [(k, [v])]
  | e :: rest =>
    if e.1 = k then (e.1, e.2 ++ [v]) :: rest
    else e :: dictAppend rest k v

/-- Result of `analyze_upr_route`. -/
structure UprResult where
  coords : List CoordInfo
  traversedFirs : List Str
  firSegments : List (Str × List SegRec)
deriving Repr, DecidableEq

/-- Loop state of `analyze_upr_route`. -/
structure UprSt where
  coords : List CoordInfo
  traversed : List Str
  segs : List (Str × List SegRec)
  currentFir : Option Str
  segmentStart : Nat
  idx : Nat
deriving Repr

/-- One iteration of the `analyze_upr_route` loop. -/
def uprStep (all : List (ℚ × ℚ)) (st : UprSt) (pt : ℚ × ℚ) : UprSt :=
  let fir := identify_fir_by_coordinate pt.1 pt.2
  let coords := st.coords ++ [⟨st.idx, pt.1, pt.2, fir⟩]
  if fir ≠ st.currentFir then
    let segs :=
      match st.currentFir with
      | some f =>
        dictAppend st.segs f
          ⟨st.segmentStart, st.idx - 1,
           (all.drop st.segmentStart).take (st.idx - st.segmentStart)⟩
      | none => st.segs
    let traversed :=
      match fir with
      | some g => if st.traversed.contains g then st.traversed else st.traversed ++ [g]
      | none => st.traversed
    ⟨coords, traversed, segs, fir, st.idx, st.idx + 1⟩
  else
    ⟨coords, st.traversed, st.segs, st.currentFir, st.segmentStart, st.idx + 1⟩

/-- Python `FIRIdentifier.analyze_upr_route`: linear pass closing a segment
on every FIR change; only runs with a non-`None` FIR are ever emitted. -/
def analyze_upr_route (pts : List (ℚ × ℚ)) : UprResult :=
  let st := pts.foldl (uprStep pts) ⟨[], [], [], none, 0, 0⟩
  let segs :=
    match st.currentFir with
    | some f =>
      dictAppend st.segs f
        ⟨st.segmentStart, pts.length - 1, pts.drop st.segmentStart⟩
    | none => st.segs
  ⟨st.coords, st.traversed, segs⟩

/-- Flattens every FIR's segment list (order irrelevant to the counting
statements below). -/
def allSegments (r : UprResult) : List SegRec :=
  (r.firSegments.map Prod.snd).flatten

/-!
### Route tokenizer (`src/upr_parser.py`)
-/

/-- Fueled helper for `reSplit`. -/
def reSplitAux (re : RE) : Nat → Option Char → Str → List Str
  | 0, _, s => [s]
  | Nat.succ fuel, prev, s =>
    match reSearchAux re prev s with
    | none => [s]
    | some (m, rest, _) =>
      match m with
      | [] => [s]
      | _ :: _ =>
        s.take (s.length - (m.length + rest.length)) ::
          reSplitAux re fuel m.getLast? rest

/-- Python `re.split(p, s)` for patterns that cannot match the empty
string. -/
def reSplit (re : RE) (s : Str) : List Str :=
  reSplitAux re (s.length + 1) none s

/-- Route separator regex `\.\.+|\s+`. -/
def routeSepRE : RE :=
  RE.alt (seqs [lit ".", plusC fun c => c = '.']) wsPlus

/-- Parses a decimal-digit string with an optional fractional part
(`float()` on strings shaped like the coordinate groups; exact rational
here whereas Python rounds to binary — no comparison below is near a
tie). -/
def pyFloatQ (s : Str) : ℚ :=
  let ip := s.takeWhile isDigitChar
  let rest := s.dropWhile isDigitChar
  match rest with
  | '.' :: fd => (strToNat ip : ℚ) + (strToNat fd : ℚ) / ((10 : ℚ) ^ fd.length)
  | _ => (strToNat ip : ℚ)

/-- Group pattern `\d{2}(?:\.\d+)?`. -/
def dec2RE : RE :=
  seqs [dRep 2, RE.opt (seqs [lit ".", plusC isDigitChar])]

/-- Group pattern `\d{3}(?:\.\d+)?`. -/
def dec3RE : RE :=
  seqs [dRep 3, RE.opt (seqs [lit ".", plusC isDigitChar])]

/-- Coordinate pattern 1 of `_parse_single_coordinate`:
`([NS])(\d{2}(?:\.\d+)?)([EW])(\d{3}(?:\.\d+)?)` (anchored `re.match`). -/
def coordPat1 : RE :=
  seqs [RE.grp 1 (RE.cls fun c => c = 'N' || c = 'S'),
        RE.grp 2 dec2RE,
        RE.grp 3 (RE.cls fun c => c = 'E' || c = 'W'),
        RE.grp 4 dec3RE]

/-- Coordinate pattern 2 of `_parse_single_coordinate`:
`(\d{2}(?:\.\d+)?)([NS])(\d{3}(?:\.\d+)?)([EW])` (anchored `re.match`). -/
def coordPat2 : RE :=
  seqs [RE.grp 1 dec2RE,
        RE.grp 2 (RE.cls fun c => c = 'N' || c = 'S'),
        RE.grp 3 dec3RE,
        RE.grp 4 (RE.cls fun c => c = 'E' || c = 'W')]

/-- Python `UPRParser._parse_single_coordinate`. -/
def parse_single_coordinate (s0 : Str) : Option (ℚ × ℚ) :=
  let s := pyUpper (pyStrip s0)
  match reMatchL coordPat1 none s with
  | some (_, caps) =>
    match capGet caps 1, capGet caps 2, capGet caps 3, capGet caps 4 with
    | some latD, some latV, some lonD, some lonV =>
      let lat0 := pyFloatQ latV
      let lon0 := pyFloatQ lonV
      some (if latD = str "S" then -lat0 else lat0,
            if lonD = str "W" then -lon0 else lon0)
    | _, _, _, _ => none
  | none =>
    match reMatchL coordPat2 none s with
    | some (_, caps) =>
      match capGet caps 1, capGet caps 2, capGet caps 3, capGet caps 4 with
      | some latV, some latD, some lonV, some lonD =>
        let lat0 := pyFloatQ latV
        let lon0 := pyFloatQ lonV
        some (if latD = str "S" then -lat0 else lat0,
              if lonD = str "W" then -lon0 else lon0)
      | _, _, _, _ => none
    | none => none

/-- Token classification outcomes in
`UPRParser.parse_route_with_waypoints`. -/
inductive TokKind where
  | coordinate
  | routeCode
  | waypoint
  | airport
  | other
deriving Repr, DecidableEq

/-- Airway-code test `^[A-Z]\d{3}$` (anchored match with `$`). -/
def isRouteCodeTok (s : Str) : Bool :=
  match s with
  | c :: rest => isUpperChar c && rest.length = 3 && rest.all isDigitChar
  | [] => false

/-- Waypoint test `^[A-Z]{3,5}$`. -/
def isWaypointTok (s : Str) : Bool :=
  3 ≤ s.length && s.length ≤ 5 && s.all isUpperChar

/-- Airport test `^[A-Z]{4}$`. -/
def isAirportTok (s : Str) : Bool :=
  s.length = 4 && s.all isUpperChar

/-- Per-token classification following the branch order of
`parse_route_with_waypoints` (coordinate, airway code, waypoint, airport,
other). -/
def classifyRouteToken (seg : Str) : TokKind :=
  match parse_single_coordinate seg with
  | some _ => .coordinate
  | none =>
    if isRouteCodeTok seg then .routeCode
    else if isWaypointTok seg then .waypoint
    else if isAirportTok seg then .airport
    else .other

/-- Result of `parse_route_with_waypoints`.  The `full_route` entries keep
kind and raw value; the redundant `parsed` payload of coordinate entries is
not modelled. -/
structure RouteParsed where
  waypoints : List Str
  coordinates : List (ℚ × ℚ)
  routeCodes : List Str
  fullRoute : List (TokKind × Str)
deriving Repr, DecidableEq

/-- Folds one route token into the result record. -/
def routeTokStep (r : RouteParsed) (seg0 : Str) : RouteParsed :=
  let seg := pyStrip seg0
  if seg = [] then r
  else
    match parse_single_coordinate seg with
    | some c =>
      { r with coordinates := r.coordinates ++ [c],
               fullRoute := r.fullRoute ++ [(.coordinate, seg)] }
    | none =>
      if isRouteCodeTok seg then
        { r with routeCodes := r.routeCodes ++ [seg],
                 fullRoute := r.fullRoute ++ [(.routeCode, seg)] }
      else if isWaypointTok seg then
        { r with waypoints := r.waypoints ++ [seg],
                 fullRoute := r.fullRoute ++ [(.waypoint, seg)] }
      else if isAirportTok seg then
        { r with fullRoute := r.fullRoute ++ [(.airport, seg)] }
      else
        { r with fullRoute := r.fullRoute ++ [(.other, seg)] }

/-- Python `UPRParser.parse_route_with_waypoints`. -/
def parse_route_with_waypoints (t : Str) : RouteParsed :=
  (reSplit routeSepRE (pyStrip t)).foldl routeTokStep ⟨[], [], [], []⟩

/-!
### Waypoint gazetteer (`src/nav_data_loader.py`)

`nav_data.csv` is absent from the repository, so `waypoint_data` is the
OpenNavData literal dict updated by the `_load_basic_waypoints` literal
dict (Python `dict.update`: existing keys overwritten in place, new keys
appended in update order).  Decimal literals are carried as exact
rationals.
-/

/-- Python `dict.update` on ordered association lists with unique keys. -/
def dictUpdate (d upd : List (Str × (ℚ × ℚ))) : List (Str × (ℚ × ℚ)) :=
  d.map (fun e =>
    match upd.find? fun u => u.1 = e.1 with
    | some u => u
    | none => e) ++
  upd.filter fun u => ¬ d.any fun e => e.1 = u.1

/-- Literal dict from `_load_opennavdata`. -/
def opennavWaypoints : List (Str × (ℚ × ℚ)) :=
  [(str "EGOBA", (374692/10000, 1264505/10000)),
   (str "LANAT", (351796/10000, 1289382/10000)),
   (str "SAMON", (335113/10000, 1264930/10000)),
   (str "GTC",   (250777/10000, 1212328/10000)),
   (str "ADNAP", (223089/10000, 1139146/10000)),
   (str "ADGOR", (160439/10000, 1081994/10000)),
   (str "ORNAI", (474502/10000, -1223088/10000)),
   (str "TOU",   (376213/10000, -1223790/10000))]

/-- Literal dict from `_load_basic_waypoints`. -/
def basicWaypoints : List (Str × (ℚ × ℚ)) :=
  [(str "EGOBA", (375/10, 1265/10)),
   (str "LANAT", (352/10, 1290/10)),
   (str "SAMON", (335/10, 1265/10)),
   (str "GTC",   (251/10, 1212/10)),
   (str "ADNAP", (223/10, 1139/10)),
   (str "ADGOR", (160/10, 1082/10)),
   (str "ORNAI", (475/10, -1223/10)),
   (str "TOU",   (376/10, -1224/10)),
   (str "BOPTA", (375/10, 1265/10)),
   (str "PONIK", (352/10, 1290/10)),
   (str "SADLI", (311/10, 1218/10)),
   (str "IKEKA", (355/10, 1398/10))]

/-- Python `NavDataLoader.waypoint_data` after `load_nav_data`. -/
def waypoint_data : List (Str × (ℚ × ℚ)) :=
  dictUpdate opennavWaypoints basicWaypoints

/-- Python `get_waypoint_coordinates`. -/
def get_waypoint_coordinates (w : Str) : Option (ℚ × ℚ) :=
  (waypoint_data.find? fun e => e.1 = pyUpper w).map Prod.snd

/-- Python `estimate_waypoint_fir`: coarse latitude/longitude band
lookup. -/
def estimate_waypoint_fir (w : Str) : Option Str :=
  match get_waypoint_coordinates w with
  | none => none
  | some (lat, lon) =>
    if decide ((24 : ℚ) ≤ lat) && decide (lat ≤ (50 : ℚ)) &&
       decide ((120 : ℚ) ≤ lon) && decide (lon ≤ (180 : ℚ)) then
      some (str "RJJJ")
    else if decide ((20 : ℚ) ≤ lat) && decide (lat ≤ (55 : ℚ)) &&
       (decide ((140 : ℚ) ≤ lon) && decide (lon ≤ (180 : ℚ)) ||
        decide ((-180 : ℚ) ≤ lon) && decide (lon ≤ (-140 : ℚ))) then
      some (str "KZAK")
    else if decide ((45 : ℚ) ≤ lat) && decide (lat ≤ (70 : ℚ)) &&
       decide ((-180 : ℚ) ≤ lon) && decide (lon ≤ (-120 : ℚ)) then
      some (str "PAZA")
    else none

/-!
### FIR-based NOTAM filter (`src/fir_notam_filter.py`)

NOTAM records reaching this filter are web-shaped dicts; the fields the
filter reads are modelled (`notam_number`, `airports`, `airport_code`,
`text`, `description`), with Python `dict.get` defaults.
-/

/-- Input record shape for `FIRNotamFilter`. -/
structure NotamData where
  notam_number : Str := []
  airports : Option (List Str) := none
  airport_code : Option Str := none
  text : Str := []
  description : Str := []
deriving Repr, DecidableEq

/-- `FIRNotamFilter.fir_airport_mapping` (dict insertion order). -/
def fir_airport_mapping : List (Str × List Str) :=
  [(str "PAZA", [str "PA", str "KZ"]),
   (str "KZAK", [str "KZ"]),
   (str "NZZO", [str "NZ"]),
   (str "AYPM", [str "AY"]),
   (str "RJJJ", [str "RJ", str "RK"])]

/-- `FIRNotamFilter.specific_airport_mapping`. -/
def specific_airport_mapping : List (Str × Str) :=
  [(str "RKSI", str "RJJJ"),
   (str "KSEA", str "PAZA"),
   (str "KPDX", str "PAZA")]

/-- Regex `\b[A-Z]{4}\b` used on the text/description field. -/
def fourLetterWordRE : RE := seqs [RE.wordB, uRep 4, RE.wordB]

/-- Python `_extract_airport_codes_from_notam`.  The final
`list(set(codes))` has unspecified CPython ordering; it is modelled as
first-occurrence `dedup`, and every downstream use is order-insensitive
(membership tests and at-most-one appends). -/
def extract_airport_codes_from_notam (n : NotamData) : List Str :=
  let fromAirports := n.airports.getD []
  let fromCode :=
    match n.airport_code with
    | some c => if c ≠ [] then [c] else []
    | none => []
  let textField := if n.text ≠ [] then n.text else n.description
  let fromText := if textField ≠ [] then reFindAll fourLetterWordRE textField else []
  let codes := (fromAirports ++ fromCode ++ fromText).filter
    fun c => c ≠ [] && c.length = 4
  codes.dedup

/-- Python `_get_fir_from_airport_code`. -/
def get_fir_from_airport_code (code : Str) : Option Str :=
  if code.length < 2 then none
  else
    match specific_airport_mapping.find? fun e => e.1 = code with
    | some e => some e.2
    | none =>
      let pre2 := pySlice code 0 2
      (fir_airport_mapping.find? fun e => e.2.contains pre2).map Prod.fst

/-- Python `_is_notam_relevant_to_firs`. -/
def is_notam_relevant_to_firs (n : NotamData) (firCodes : List Str) : Bool :=
  (extract_airport_codes_from_notam n).any fun c =>
    match get_fir_from_airport_code c with
    | some f => firCodes.contains f
    | none => false

/-- Python `filter_notams_by_fir`. -/
def filter_notams_by_fir (notams : List NotamData) (firCodes : List Str) :
    List NotamData :=
  notams.filter fun n => is_notam_relevant_to_firs n firCodes

/-- Comma-space join (Python `', '.join`). -/
def joinCommaSp : List Str → Str
  | [] => []
  | [x] => x
  | x :: xs => x ++ ',' :: ' ' :: joinCommaSp xs

/-- Python `str(list_of_strings)` as used in the de-duplication keys
(`"['RKSI', 'KSEA']"`). -/
def pyStrOfList (l : List Str) : Str :=
  let inner := joinCommaSp (l.map fun s => '\x27' :: s ++ ['\x27'])
  '[' :: inner ++ [']']

/-- De-duplication key `notam.get('notam_number','') + str(notam.get('airports', []))`. -/
def notamKey (n : NotamData) : Str :=
  n.notam_number ++ pyStrOfList (n.airports.getD [])

/-- Worker for `dedupByKey`, carrying the set of already-seen keys. -/
def dedupByKeyAux : List NotamData → List Str → List NotamData
  | [], _ => []
  | n :: rest, seen =>
    if seen.contains (notamKey n) then dedupByKeyAux rest seen
    else n :: dedupByKeyAux rest (notamKey n :: seen)

/-- First-occurrence de-duplication by `notamKey` (the `unique_notams`
dict of `analyze_route_with_fir_notams`: first write wins, insertion
order kept). -/
def dedupByKey (l : List NotamData) : List NotamData :=
  dedupByKeyAux l []

/-- Python `_filter_notams_by_waypoints` restricted to one NOTAM: the
direct-mention pass appends the record at most once (`break`), but the
FIR-estimate fallback loops over all waypoints and can append the same
record several times (the `break` only leaves the inner airport loop). -/
def waypointMatchesOne (wps : List Str) (n : NotamData) : List NotamData :=
  let desc := pyUpper n.description
  if wps.any fun w => containsStr (pyUpper w) desc then [n]
  else
    wps.filterMap fun w =>
      match estimate_waypoint_fir w with
      | some f =>
        if (extract_airport_codes_from_notam n).any
            (fun c => get_fir_from_airport_code c = some f) then
          some n
        else none
      | none => none

/-- Python `_filter_notams_by_waypoints`. -/
def filter_notams_by_waypoints (wps : List Str) (notams : List NotamData) :
    List NotamData :=
  (notams.map (waypointMatchesOne wps)).flatten

/-- Python `_count_total_relevant_notams`: set cardinality of the keys of
both match sets. -/
def count_total_relevant_notams (firNotams : List (Str × List NotamData))
    (wpNotams : List NotamData) : Nat :=
  (((firNotams.map Prod.snd).flatten ++ wpNotams).map notamKey).dedup.length

/-- One entry of the `waypoint_firs` dict in `_analyze_waypoint_firs`:
waypoint, FIR, optional coordinates, `estimated` flag. -/
structure WpFirEntry where
  wp : Str
  fir : Str
  coords : Option (ℚ × ℚ)
  estimated : Bool
deriving Repr, DecidableEq

/-- Result of `_analyze_waypoint_firs`. -/
structure WpFirAnalysis where
  waypointFirs : List WpFirEntry
  firWaypoints : List (Str × List Str)
  unknown : List Str
deriving Repr, DecidableEq

/-- Append-or-insert for the `fir_waypoints` grouping dict. -/
def groupAppend (d : List (Str × List Str)) (k v : Str) : List (Str × List Str) :=
  match d with
  | [] => [(k, [v])]
  | e :: rest => if e.1 = k then (e.1, e.2 ++ [v]) :: rest else e :: groupAppend rest k v

/-- Python `_analyze_waypoint_firs`. -/
def analyze_waypoint_firs (wps : List Str) : WpFirAnalysis :=
  wps.foldl
    (fun acc w =>
      match get_waypoint_coordinates w with
      | some (lat, lon) =>
        match identify_fir_by_coordinate lat lon with
        | some f =>
          ⟨acc.waypointFirs ++ [⟨w, f, some (lat, lon), false⟩],
           groupAppend acc.firWaypoints f w, acc.unknown⟩
        | none => ⟨acc.waypointFirs, acc.firWaypoints, acc.unknown ++ [w]⟩
      | none =>
        match estimate_waypoint_fir w with
        | some f =>
          ⟨acc.waypointFirs ++ [⟨w, f, none, true⟩],
           groupAppend acc.firWaypoints f w, acc.unknown⟩
        | none => ⟨acc.waypointFirs, acc.firWaypoints, acc.unknown ++ [w]⟩)
    ⟨[], [], []⟩

/-- Result of `analyze_route_with_fir_notams`. -/
structure RouteFirResult where
  parsedRoute : RouteParsed
  firAnalysis : Option UprResult
  firNotams : List (Str × List NotamData)
  waypointNotams : List NotamData
  waypointFirAnalysis : WpFirAnalysis
  traversedFirs : List Str
  totalRelevantNotams : Nat
deriving Repr, DecidableEq

/-- Python `FIRNotamFilter.analyze_route_with_fir_notams`. -/
def analyze_route_with_fir_notams (routeText : Str) (notams : List NotamData) :
    RouteFirResult :=
  let parsed := parse_route_with_waypoints routeText
  let firAnalysis :=
    if parsed.coordinates ≠ [] then some (analyze_upr_route parsed.coordinates)
    else none
  let traversed := (firAnalysis.map UprResult.traversedFirs).getD []
  let firNotams := traversed.map fun fc =>
    (fc, dedupByKey (filter_notams_by_fir notams [fc]))
  let wpNotams := filter_notams_by_waypoints parsed.waypoints notams
  ⟨parsed, firAnalysis, firNotams, wpNotams,
   analyze_waypoint_firs parsed.waypoints, traversed,
   count_total_relevant_notams firNotams wpNotams⟩

/-- All NOTAM records of the returned result, FIR groups first then the
waypoint matches — the merged record-level view of the two match sets. -/
def mergedRecords (r : RouteFirResult) : List NotamData :=
  (r.firNotams.map Prod.snd).flatten ++ r.waypointNotams

/-!
### Timezone resolution (`src/icao.py` and `NOTAMFilter._calculate_timezone`)

Ambient state is made explicit: the live lookup becomes an
`api : Str → Option Str` parameter (`None` models a caught failure), the
CSV table a parameter (the repository ships no `airports_timezones.csv`,
so the deployed tables are empty), and the two distinct DST clocks become
the two booleans of `Clock` (`is_dst_active`'s exact second-Sunday rule
vs. `_apply_dst_if_needed`'s March–October month heuristic).
-/

/-- The two ambient daylight-saving flags. -/
structure Clock where
  dstExact : Bool
  dstMonth : Bool
deriving Repr, DecidableEq

/-- Python `get_timezone_by_fir_pattern` (full two-letter prefix chain;
`dst` is the result of `is_dst_active()`). -/
def get_timezone_by_fir_pattern (dst : Bool) (icao : Str) : Str :=
  if icao.length < 2 then str "UTC+0"
  else
    let p := pySlice icao 0 2
    if p = str "RK" then str "UTC+9"
    else if p = str "RJ" then str "UTC+9"
    else if p = str "RC" then str "UTC+8"
    else if p = str "RP" then str "UTC+8"
    else if p = str "RO" then str "UTC+9"
    else if p = str "ZB" then str "UTC+8"
    else if p = str "ZS" then str "UTC+8"
    else if p = str "ZG" then str "UTC+8"
    else if p = str "ZU" then str "UTC+8"
    else if p = str "ZY" then str "UTC+8"
    else if p = str "ZW" then str "UTC+8"
    else if p = str "ZL" then str "UTC+8"
    else if p = str "VH" then str "UTC+8"
    else if p = str "VT" then str "UTC+7"
    else if p = str "VV" then str "UTC+7"
    else if p = str "VM" then str "UTC+8"
    else if p = str "WI" then str "UTC+7"
    else if p = str "WA" then str "UTC+8"
    else if p = str "WB" then str "UTC+9"
    else if p = str "WS" then str "UTC+8"
    else if p = str "KS" then (if dst then str "UTC-7" else str "UTC-8")
    else if p = str "KL" then (if dst then str "UTC-7" else str "UTC-8")
    else if p = str "KD" then (if dst then str "UTC-6" else str "UTC-7")
    else if p = str "KM" then (if dst then str "UTC-5" else str "UTC-6")
    else if p = str "KE" then (if dst then str "UTC-4" else str "UTC-5")
    else if p = str "KH" then str "UTC-10"
    else if p = str "PA" then (if dst then str "UTC-8" else str "UTC-9")
    else if p = str "CY" then (if dst then str "UTC-4" else str "UTC-5")
    else if p = str "CZ" then (if dst then str "UTC-7" else str "UTC-8")
    else if p = str "LF" then (if dst then str "UTC+2" else str "UTC+1")
    else if p = str "EG" then (if dst then str "UTC+1" else str "UTC+0")
    else if p = str "ED" then (if dst then str "UTC+2" else str "UTC+1")
    else if p = str "YB" then str "UTC+10"
    else if p = str "YS" then (if dst then str "UTC+11" else str "UTC+10")
    else if p = str "YM" then (if dst then str "UTC+11" else str "UTC+10")
    else str "UTC+0"

/-- The single-letter ICAO-region fallback table of `get_utc_offset`
(`utc_offsets`). -/
def icaoFirstLetterTable : List (Char × Str) :=
  [('A', str "UTC+2"), ('B', str "UTC+3"), ('C', str "UTC+4"),
   ('D', str "UTC+5"), ('E', str "UTC+6"), ('F', str "UTC+7"),
   ('G', str "UTC+8"), ('H', str "UTC+9"), ('I', str "UTC+10"),
   ('J', str "UTC+11"), ('K', str "UTC-5"), ('L', str "UTC+1"),
   ('M', str "UTC+12"), ('N', str "UTC+12"), ('O', str "UTC+3"),
   ('P', str "UTC-9"), ('R', str "UTC+9"), ('S', str "UTC-3"),
   ('T', str "UTC-4"), ('U', str "UTC+3"), ('V', str "UTC+5"),
   ('W', str "UTC+7"), ('Y', str "UTC+10"), ('Z', str "UTC+8")]

/-- Python `get_utc_offset(icao_code, use_api)`.  `api` is the live lookup
(`get_utc_offset_api`; `none` covers both a `None` result and a caught
exception); `csv` is the `_airport_timezones` dict. -/
def get_utc_offset (api : Str → Option Str) (csv : List (Str × Str))
    (dst useApi : Bool) (icao : Str) : Str :=
  if icao = [] || icao.length < 2 then str "UTC+0"
  else
    let icaoU := pyUpper icao
    let apiHit :=
      if useApi then
        match api icaoU with
        | some r => if r ≠ [] && r ≠ str "UTC+0" then some r else none
        | none => none
      else none
    match apiHit with
    | some r => r
    | none =>
      let firTz := get_timezone_by_fir_pattern dst icaoU
      if firTz ≠ str "UTC+0" then firTz
      else
        match csv.find? fun e => e.1 = icaoU with
        | some e => e.2
        | none =>
          match icaoU with
          | [] => str "UTC+0"
          | c :: _ =>
            match icaoFirstLetterTable.find? fun e => e.1 = c with
            | some e => e.2
            | none => str "UTC+0"

/-- Python `NOTAMFilter._apply_dst_if_needed` (the March–October month
heuristic; `int()` failures fall back to the unmodified offset via the
`except` handler). -/
def apply_dst_if_needed (dstMonth : Bool) (code tz : Str) : Str :=
  let inDstRegion :=
    match code with
    | c :: _ => c = 'K' || c = 'C' || c = 'E' || c = 'L'
    | [] => false
  if inDstRegion then
    if dstMonth then tz
    else
      match tz with
      | '-' :: _ =>
        match pyIntOpt (pySlice tz 1 3), pyIntOpt (pySlice tz 4 6) with
        | some h, some m =>
          let h2 : Int := if h - 1 < 0 then 0 else h - 1
          '-' :: pad2 h2.toNat ++ ':' :: pad2 m.toNat
        | _, _ => tz
      | '+' :: _ =>
        match pyIntOpt (pySlice tz 1 3), pyIntOpt (pySlice tz 4 6) with
        | some h, some m =>
          let h2 : Int := if h - 1 < 0 then 0 else h - 1
          '+' :: pad2 h2.toNat ++ ':' :: pad2 m.toNat
        | _, _ => tz
      | _ => tz
  else tz

/-- `NOTAMFilter.airports_data`: loaded from `airports_timezones.csv`,
which the repository does not contain, so the table is empty. -/
def airports_data : List (Str × Str) := []

/-- Python `NOTAMFilter._calculate_timezone`: CSV table first (with DST
adjustment), then `get_utc_offset` with the live lookup disabled
(`use_api=False`), then the hard-coded prefix defaults. -/
def calculate_timezone (ck : Clock) (code : Str) : Str :=
  match airports_data.find? fun e => e.1 = code with
  | some e => apply_dst_if_needed ck.dstMonth code e.2
  | none =>
    let adv := get_utc_offset (fun _ => none) [] ck.dstExact false code
    if adv ≠ [] && adv ≠ str "UTC+0" && listStarts (str "UTC+") adv then
      '+' :: pySlice adv 4 adv.length ++ str ":00"
    else if adv ≠ [] && adv ≠ str "UTC+0" && listStarts (str "UTC-") adv then
      '-' :: pySlice adv 4 adv.length ++ str ":00"
    else
      if listStarts (str "RK") code then str "+09:00"
      else if listStarts (str "RJ") code then str "+09:00"
      else if listStarts (str "ZB") code || listStarts (str "ZG") code then str "+08:00"
      else if listStarts (str "VV") code then str "+07:00"
      else if listStarts (str "K") code then
        if listStarts (str "KS") code then str "-08:00"
        else if listStarts (str "KL") code then str "-08:00"
        else if listStarts (str "KD") code then str "-07:00"
        else if listStarts (str "KM") code then str "-06:00"
        else if listStarts (str "KE") code then str "-05:00"
        else str "-06:00"
      else str "+00:00"

/-- Python `NOTAMFilter.get_timezone` (the memo cache is semantically
transparent because `_calculate_timezone` is deterministic). -/
def get_timezone (ck : Clock) (code : Str) : Str := calculate_timezone ck code

/-!
### Datetime model (Python `datetime` fragment)

Proleptic-Gregorian civil-calendar arithmetic (the standard
days-from-civil / civil-from-days construction).  These functions are only
ever evaluated on concrete dates by the theorems; no symbolic lemmas about
them are required.
-/

/-- Leap-year rule. -/
def isLeapYear (y : Nat) : Bool :=
  y % 4 = 0 && (y % 100 ≠ 0 || y % 400 = 0)

/-- Days in a month. -/
def daysInMonth (y m : Nat) : Nat :=
  if m = 2 then (if isLeapYear y then 29 else 28)
  else if m = 4 || m = 6 || m = 9 || m = 11 then 30
  else 31

/-- A naive Python `datetime` value (seconds included; tz-awareness is
irrelevant to the formatted fields). -/
structure PyDateTime where
  y : Nat
  m : Nat
  d : Nat
  hh : Nat
  mm : Nat
  ss : Nat
deriving Repr, DecidableEq

/-- Python `datetime(year, month, day, hour, minute)` constructor with its
range validation; out-of-range raises `ValueError`, modelled as `none`. -/
def mkDatetime (y m d hh mm : Nat) : Option PyDateTime :=
  if 1 ≤ y && y ≤ 9999 && 1 ≤ m && m ≤ 12 && 1 ≤ d && d ≤ daysInMonth y m &&
     hh < 24 && mm < 60 then
    some ⟨y, m, d, hh, mm, 0⟩
  else none

/-- Days since 0000-03-01 of a civil date (valid for `y ≥ 1`). -/
def daysFromCivil (y m d : Nat) : Nat :=
  let y2 := y - (if m ≤ 2 then 1 else 0)
  let era := y2 / 400
  let yoe := y2 % 400
  let mp := (m + 9) % 12
  let doy := (153 * mp + 2) / 5 + (d - 1)
  let doe := yoe * 365 + yoe / 4 - yoe / 100 + doy
  era * 146097 + doe

/-- Civil date from days since 0000-03-01. -/
def civilFromDays (z : Nat) : Nat × Nat × Nat :=
  let era := z / 146097
  let doe := z % 146097
  let yoe := (doe - doe / 1460 + doe / 36524 - doe / 146096) / 365
  let y2 := yoe + era * 400
  let doy := doe - (365 * yoe + yoe / 4 - yoe / 100)
  let mp := (5 * doy + 2) / 153
  let d := doy - (153 * mp + 2) / 5 + 1
  let m := if mp < 10 then mp + 3 else mp - 9
  (if m ≤ 2 then y2 + 1 else y2, m, d)

/-- Python `dt + timedelta(minutes=delta)` (seconds preserved; the embedded
deltas never drive a supported date negative). -/
def addMinutes (dt : PyDateTime) (delta : Int) : PyDateTime :=
  let total : Int :=
    (daysFromCivil dt.y dt.m dt.d : Int) * 1440 + dt.hh * 60 + dt.mm + delta
  let t := total.toNat
  let (y, m, d) := civilFromDays (t / 1440)
  ⟨y, m, d, t % 1440 / 60, t % 60, dt.ss⟩

/-- Zero-padded four-digit year (strftime `%Y` for the embedded range). -/
def pad4 (n : Nat) : Str :=
  if n < 10 then '0' :: '0' :: '0' :: natStr n
  else if n < 100 then '0' :: '0' :: natStr n
  else if n < 1000 then '0' :: natStr n
  else natStr n

/-- strftime `'%Y-%m-%dT%H:%M:%SZ'`. -/
def fmtIsoZ (dt : PyDateTime) : Str :=
  pad4 dt.y ++ '-' :: pad2 dt.m ++ '-' :: pad2 dt.d ++ 'T' :: pad2 dt.hh ++
    ':' :: pad2 dt.mm ++ ':' :: pad2 dt.ss ++ ['Z']

/-- strftime `'%m/%d %H:%M'`. -/
def fmtMMDD (dt : PyDateTime) : Str :=
  pad2 dt.m ++ '/' :: pad2 dt.d ++ ' ' :: pad2 dt.hh ++ ':' :: pad2 dt.mm

/-- strftime `'%H%M'`. -/
def fmtHHMM (dt : PyDateTime) : Str :=
  pad2 dt.hh ++ pad2 dt.mm

/-- Python `datetime.fromisoformat` restricted to the shapes the pipeline
produces: `YYYY-MM-DD`, optionally `<sep>HH:MM[:SS]`, optionally a
`±HH:MM` offset suffix (whose value does not shift the clock fields).
Anything else raises, modelled as `none`. -/
def parseIsoAware (s : Str) : Option PyDateTime :=
  match s with
  | y1 :: y2 :: y3 :: y4 :: '-' :: m1 :: m2 :: '-' :: d1 :: d2 :: rest =>
    if [y1, y2, y3, y4, m1, m2, d1, d2].all isDigitChar then
      let y := strToNat [y1, y2, y3, y4]
      let m := strToNat [m1, m2]
      let d := strToNat [d1, d2]
      if 1 ≤ m && m ≤ 12 && 1 ≤ d && d ≤ daysInMonth y m && 1 ≤ y then
        match rest with
        | [] => some ⟨y, m, d, 0, 0, 0⟩
        | _sep :: h1 :: h2 :: ':' :: n1 :: n2 :: rest2 =>
          if [h1, h2, n1, n2].all isDigitChar then
            let hh := strToNat [h1, h2]
            let mn := strToNat [n1, n2]
            if hh < 24 && mn < 60 then
              match rest2 with
              | [] => some ⟨y, m, d, hh, mn, 0⟩
              | ':' :: s1 :: s2 :: rest3 =>
                if [s1, s2].all isDigitChar && strToNat [s1, s2] < 60 then
                  match rest3 with
                  | [] => some ⟨y, m, d, hh, mn, strToNat [s1, s2]⟩
                  | sg :: o1 :: o2 :: ':' :: o3 :: o4 :: [] =>
                    if (sg = '+' || sg = '-') && [o1, o2, o3, o4].all isDigitChar then
                      some ⟨y, m, d, hh, mn, strToNat [s1, s2]⟩
                    else none
                  | _ => none
                else none
              | sg :: o1 :: o2 :: ':' :: o3 :: o4 :: [] =>
                if (sg = '+' || sg = '-') && [o1, o2, o3, o4].all isDigitChar then
                  some ⟨y, m, d, hh, mn, 0⟩
                else none
              | _ => none
            else none
          else none
        | _ => none
      else none
    else none
  | _ => none

/-!
### Time parsing (`NOTAMFilter._parse_time_info` and helpers)
-/

/-- Month-abbreviation map of `_parse_time_info` /
`_parse_datetime_string`. -/
def monthMap : List (Str × Nat) :=
  [(str "JAN", 1), (str "FEB", 2), (str "MAR", 3), (str "APR", 4),
   (str "MAY", 5), (str "JUN", 6), (str "JUL", 7), (str "AUG", 8),
   (str "SEP", 9), (str "OCT", 10), (str "NOV", 11), (str "DEC", 12)]

/-- Token `\d{2}[A-Z]{3}\d{2}`. -/
def dateTokRE : RE := seqs [dRep 2, uRep 3, dRep 2]

/-- Token `\d{2}:\d{2}`. -/
def timeTokRE : RE := seqs [dRep 2, lit ":", dRep 2]

/-- UFN regex of `_parse_time_info`:
`(?:\d+\.\s+)?(\d{2}[A-Z]{3}\d{2}) (\d{2}:\d{2}) - UFN(?:\s+[A-Z]{4}(?:\s+[A-Z\s]+/\d{2})?)?`
(note the literal single spaces around the dash). -/
def ufnTimeRE : RE :=
  seqs [RE.opt (seqs [plusC isDigitChar, lit ".", wsPlus]),
        RE.grp 1 dateTokRE, lit " ", RE.grp 2 timeTokRE, lit " - UFN",
        RE.opt (seqs [wsPlus, uRep 4,
          RE.opt (seqs [wsPlus,
                        plusC (fun c => isUpperChar c || pyIsSpaceChar c),
                        lit "/", dRep 2])])]

/-- WEF/TIL regex of `_parse_time_info`:
`(?:\d+\.\s+)?(\d{2}[A-Z]{3}\d{2}) (\d{2}:\d{2}) - (\d{2}[A-Z]{3}\d{2}) (\d{2}:\d{2})(?:\s+[A-Z]{4}(?:\s+[A-Z0-9]+/\d{2})?)?`. -/
def wefTilRE : RE :=
  seqs [RE.opt (seqs [plusC isDigitChar, lit ".", wsPlus]),
        RE.grp 1 dateTokRE, lit " ", RE.grp 2 timeTokRE, lit " - ",
        RE.grp 3 dateTokRE, lit " ", RE.grp 4 timeTokRE,
        RE.opt (seqs [wsPlus, uRep 4,
          RE.opt (seqs [wsPlus,
                        plusC (fun c => isUpperChar c || isDigitChar c),
                        lit "/", dRep 2])])]

/-- Regex `B\)\s*(\d{10})`. -/
def bFieldRE : RE := seqs [lit "B)", wsStar, RE.grp 1 (dRep 10)]

/-- Regex `C\)\s*(\d{10})`. -/
def cFieldRE : RE := seqs [lit "C)", wsStar, RE.grp 1 (dRep 10)]

/-- Python `_parse_datetime_string` (`30MAY24 01:15` tokens; unknown month
abbreviations and invalid dates raise, modelled as `none`). -/
def parse_datetime_string (dateS timeS : Str) : Option PyDateTime :=
  let day := strToNat (pySlice dateS 0 2)
  let monthStr := pySlice dateS 2 5
  let year := 2000 + strToNat (pySlice dateS 5 7)
  match monthMap.find? fun e => e.1 = monthStr with
  | none => none
  | some e =>
    let hm := [pySlice timeS 0 2, pySlice timeS 3 5]
    match hm with
    | [h, mn] => mkDatetime year e.2 day (strToNat h) (strToNat mn)
    | _ => none

/-- Python `_parse_b_c_time` (`2503200606`-shaped ten digit stamps). -/
def parse_b_c_time (t : Str) : Option PyDateTime :=
  mkDatetime (2000 + strToNat (pySlice t 0 2)) (strToNat (pySlice t 2 4))
    (strToNat (pySlice t 4 6)) (strToNat (pySlice t 6 8))
    (strToNat (pySlice t 8 10))

/-- Effective/expiry pair produced by `_parse_time_info` (both keys start
absent). -/
structure TimeInfo where
  effective : Option Str := none
  expiry : Option Str := none
deriving Repr, DecidableEq

/-- Python `NOTAMFilter._parse_time_info`: UFN pattern first (on success
the expiry is the literal sentinel `"UFN"`), then the explicit range, then
the independent coded `B)`/`C)` fields; a parse exception inside a branch
falls through to the next branch. -/
def parse_time_info (t : Str) : TimeInfo :=
  let ufnBranch : Option TimeInfo :=
    match reSearch ufnTimeRE t with
    | some (_, _, caps) =>
      match capGet caps 1, capGet caps 2 with
      | some dateS, some timeS =>
        match parse_datetime_string dateS timeS with
        | some dt => some { effective := some (fmtIsoZ dt), expiry := some (str "UFN") }
        | none => none
      | _, _ => none
    | none => none
  match ufnBranch with
  | some r => r
  | none =>
    let wefBranch : Option TimeInfo :=
      match reSearch wefTilRE t with
      | some (_, _, caps) =>
        match capGet caps 1, capGet caps 2, capGet caps 3, capGet caps 4 with
        | some d1, some t1, some d2, some t2 =>
          match parse_datetime_string d1 t1, parse_datetime_string d2 t2 with
          | some sdt, some edt =>
            some { effective := some (fmtIsoZ sdt), expiry := some (fmtIsoZ edt) }
          | _, _ => none
        | _, _, _, _ => none
      | none => none
    match wefBranch with
    | some r => r
    | none =>
      let eff :=
        match reSearch bFieldRE t with
        | some (_, _, caps) =>
          match capGet caps 1 with
          | some b => (parse_b_c_time b).map fmtIsoZ
          | none => none
        | none => none
      let ex :=
        match reSearch cFieldRE t with
        | some (_, _, caps) =>
          match capGet caps 1 with
          | some c => (parse_b_c_time c).map fmtIsoZ
          | none => none
        | none => none
      { effective := eff, expiry := ex }

/-!
### Local-time display
(`NOTAMFilter._generate_local_time_display`, `_convert_d_field_to_local_time`)
-/

/-- The parsed-record fields consumed by the time/display pipeline
(`parsed_notam` dict).  Presentation-only fields of the source record
(`e_field`, `q_code`, styled text, category metadata) are not modelled;
no embedded claim reads them. -/
structure ParsedNotam where
  airport : Option Str := none
  number : Option Str := none
  effective : Option Str := none
  expiry : Option Str := none
  dField : Option Str := none
deriving Repr, DecidableEq

/-- D-field line pattern `^(\d{1,2})\s+(\d{4})-(\d{4})$`. -/
def dSingleRE : RE :=
  seqs [RE.grp 1 (rng 1 2 dD), wsPlus, RE.grp 2 (dRep 4), lit "-",
        RE.grp 3 (dRep 4), RE.eos]

/-- D-field line pattern `^(\d{1,2})-(\d{1,2})\s+(\d{4})-(\d{4})$`. -/
def dRangeRE : RE :=
  seqs [RE.grp 1 (rng 1 2 dD), lit "-", RE.grp 2 (rng 1 2 dD), wsPlus,
        RE.grp 3 (dRep 4), lit "-", RE.grp 4 (dRep 4), RE.eos]

/-- One line of `_convert_d_field_to_local_time`; `none` models a raised
`ValueError` (which aborts the whole conversion). -/
def convertDFieldLine (delta : Int) (line : Str) : Option (List Str) :=
  if line = [] then some []
  else
    match reMatchL dSingleRE none line with
    | some (_, caps) =>
      (match capGet caps 1, capGet caps 2, capGet caps 3 with
       | some dayS, some st, some en =>
         let day := strToNat dayS
         match mkDatetime 2025 9 day (strToNat (pySlice st 0 2)) (strToNat (pySlice st 2 4)),
               mkDatetime 2025 9 day (strToNat (pySlice en 0 2)) (strToNat (pySlice en 2 4)) with
         | some us, some ue =>
           let ls := addMinutes us delta
           let le := addMinutes ue delta
           let dayStr := if ls.d ≠ day then pad2 ls.d else pad2 day
           some [dayStr ++ ' ' :: fmtHHMM ls ++ '-' :: fmtHHMM le]
         | _, _ => none
       | _, _, _ => none)
    | none =>
      match reMatchL dRangeRE none line with
      | some (_, caps) =>
        (match capGet caps 1, capGet caps 2, capGet caps 3, capGet caps 4 with
         | some sdS, some edS, some st, some en =>
           let sd := strToNat sdS
           let ed := strToNat edS
           match mkDatetime 2025 9 sd (strToNat (pySlice st 0 2)) (strToNat (pySlice st 2 4)),
                 mkDatetime 2025 9 ed (strToNat (pySlice en 0 2)) (strToNat (pySlice en 2 4)) with
           | some us, some ue =>
             let ls := addMinutes us delta
             let le := addMinutes ue delta
             some [pad2 (if ls.d ≠ sd || le.d ≠ ed then ls.d else sd) ++
                   '-' :: pad2 (if ls.d ≠ sd || le.d ≠ ed then le.d else ed) ++
                   ' ' :: fmtHHMM ls ++ '-' :: fmtHHMM le]
           | _, _ => none
         | _, _, _, _ => none)
      | none => some [line]

/-- Python `NOTAMFilter._convert_d_field_to_local_time`: a failed offset
parse or any line-level `ValueError` returns the original field
unchanged (the `except` handler). -/
def convert_d_field_to_local_time (dField tz : Str) : Str :=
  let sign : Int := if listStarts (str "+") tz then 1 else -1
  match pyIntOpt (pySlice tz 1 3), pyIntOpt (pySlice tz 4 6) with
  | some oh, some om =>
    let delta := sign * (oh * 60 + om)
    let converted :=
      (splitNl dField).foldl
        (fun acc l =>
          match acc with
          | none => none
          | some ls =>
            match convertDFieldLine delta (pyStrip l) with
            | some add => some (ls ++ add)
            | none => none)
        (some [])
    match converted with
    | some ls => joinNl ls
    | none => dField
  | _, _ => dField

/-- Python `NOTAMFilter._generate_local_time_display`: `None` on a missing
or falsy effective time and on any exception inside the `try` block
(unparseable effective/expiry timestamps, malformed offset). -/
def generate_local_time_display (ck : Clock) (p : ParsedNotam) : Option Str :=
  match p.effective with
  | none => none
  | some eff =>
    if eff = [] then none
    else
      let tz := get_timezone ck (p.airport.getD [])
      match parseIsoAware (pyReplace (str "Z") (str "+00:00") eff) with
      | none => none
      | some effDt =>
        let sign : Int := if listStarts (str "+") tz then 1 else -1
        match pyIntOpt (pySlice tz 1 3), pyIntOpt (pySlice tz 4 6) with
        | some oh, some om =>
          let delta := sign * (oh * 60 + om)
          let localStart := addMinutes effDt delta
          let core : Option Str :=
            if p.expiry = some (str "UFN") then
              some (fmtMMDD localStart ++ str " - UFN (" ++ tz ++ str ")")
            else
              match p.expiry with
              | some ex =>
                if ex = [] then
                  some (fmtMMDD localStart ++ str " (" ++ tz ++ str ")")
                else
                  match parseIsoAware (pyReplace (str "Z") (str "+00:00") ex) with
                  | none => none
                  | some exDt =>
                    let localEnd := addMinutes exDt delta
                    some (fmtMMDD localStart ++ str " - " ++ fmtMMDD localEnd ++
                          str " (" ++ tz ++ str ")")
              | none =>
                some (fmtMMDD localStart ++ str " (" ++ tz ++ str ")")
          match core with
          | none => none
          | some s =>
            match p.dField with
            | some df =>
              if df ≠ [] then
                let localD := convert_d_field_to_local_time (pyStrip df) tz
                some (s ++ str " / 시간대: " ++ localD ++ '(' :: tz ++ str ")")
              else some s
            | none => some s
        | _, _ => none

/-!
### Record parsing (`NOTAMFilter._clean_additional_info`,
`_parse_notam_section`)

Case-insensitive patterns fold case over ASCII (the bulletins are ASCII
apart from fixed OCR-artifact literals, which are matched verbatim).
-/

/-- ASCII lowercase conversion (Python `str.lower`, ASCII fragment). -/
def pyLowerChar (c : Char) : Char :=
  if 'A' ≤ c && c ≤ 'Z' then Char.ofNat (c.toNat + 32) else c

/-- Python `str.lower()`. -/
def pyLower (s : Str) : Str := s.map pyLowerChar

/-- Fueled helper for `countSub` (fuel initialised to the string length;
each step consumes at least one character). -/
def countSubAux (nd : Str) : Nat → Str → Nat
  | 0, _ => 0
  | _ + 1, [] => 0
  | fuel + 1, c :: rest =>
    if listStarts nd (c :: rest) then
      1 + countSubAux nd fuel (rest.drop (nd.length - 1))
    else countSubAux nd fuel rest

/-- Python `str.count(sub)` for a nonempty substring (non-overlapping). -/
def countSub (nd hay : Str) : Nat :=
  match nd with
  | [] => 0
  | _ :: _ => countSubAux nd hay.length hay

/-- Class `[A-Z]` under `re.IGNORECASE` (matches either case). -/
def uCI : RE := RE.cls fun c => isUpperChar (pyUpperChar c)

/-- Class `.` (anything but a newline; DOTALL is never set on the patterns
using it). -/
def dotAny : RE := RE.cls fun c => c ≠ '\n'

/-- Token `\d+\.\s+` (numbered-item marker). -/
def numDotRE : RE := seqs [plusC isDigitChar, lit ".", wsPlus]

/-- The `additional_info_patterns` list of `_clean_additional_info`, in
source order, each compiled with `re.IGNORECASE` and applied with
`re.search` to the stripped line. -/
def additionalInfoPats : List RE :=
  [seqs [plusC isDigitChar, lit ".", wsStar, litCI "COMPANY", wsPlus, litCI "RADIO", wsStar, lit ":"],
   seqs [plusC isDigitChar, lit ".", wsStar, litCI "COMPANY", wsPlus, litCI "ADVISORY", wsStar, lit ":"],
   seqs [plusC isDigitChar, lit ".", wsStar, litCI "RADIO", wsStar, lit ":"],
   seqs [plusC isDigitChar, lit ".", wsStar, litCI "ADVISORY", wsStar, lit ":"],
   seqs [plusC isDigitChar, lit ".", wsStar,
         plusC (fun c => isUpperChar (pyUpperChar c) || pyIsSpaceChar c), wsStar, lit ":"],
   litCI "[PAX]",
   litCI "[JINAIR]",
   seqs [litCI "CTC", wsPlus, litCI "TWR"],
   seqs [litCI "NIL", wsStar, RE.eos],
   seqs [litCI "COMMENT)", wsStar, RE.eos],
   seqs [plusC isDigitChar, lit ".", wsPlus, dRep 2, reps 3 uCI, dRep 2, wsPlus,
         dRep 2, lit ":", dRep 2, wsStar, lit "-", wsStar,
         RE.alt (litCI "UFN") (litCI "PERM"), wsPlus, reps 4 uCI, wsPlus,
         RE.nla (litCI "COAD"), plusC (fun c => isUpperChar (pyUpperChar c)),
         plusC isDigitChar, lit "/", plusC isDigitChar],
   seqs [litCI "â—C¼O", wsStar, litCI "MPANY"],
   seqs [litCI "â—C¼O", wsStar, litCI "COMPANY"],
   seqs [litCI "â—A¼R", wsStar, litCI "RIVAL"],
   seqs [litCI "â—O¼B", wsStar, litCI "STRUCTION"],
   seqs [litCI "â—G¼P", wsStar, litCI "S"],
   seqs [litCI "â—R¼U", wsStar, litCI "NWAY"],
   seqs [litCI "â—A¼PP", wsStar, litCI "ROACH"],
   seqs [litCI "â—T¼A", wsStar, litCI "XIWAY"],
   seqs [litCI "â—N¼A", wsStar, litCI "VAID"],
   seqs [litCI "â—D¼E", wsStar, litCI "PARTURE"],
   seqs [litCI "â—R¼U", wsStar, litCI "NWAY", wsStar, litCI "LIGHT"],
   litCI "â—A¼IP",
   seqs [litCI "â—O¼T", wsStar, litCI "HER"],
   litCI "//REQUIRED WEATHER MINIMA IN VIETNAM//",
   litCI "// SPEED LIMIT WHEN USING VDGS //",
   litCI "CAAV(CIVIL AVIATION AUTHORITY OF VIETNAM)",
   litCI "CARGO FLIGHTS ARE NOT ALLOWED TO LAND EARLIER",
   litCI "PLZ DEPART TO HAN AFTER ETD ON FPL",
   litCI "ANY QUESTIONS ABOUT ETD OF FLT",
   litCI "CONTACT KOREANAIR DISPATCH BY CO-RADIO",
   litCI "// SIMILAR CALLSIGN //",
   seqs [litCI "KE", plusC isDigitChar, litCI " AND KE", plusC isDigitChar,
         litCI " MAY OPERATE ON SAME FREQ"],
   litCI "PLZ PAY MORE ATTENTION TO ATC COMMUNICATION",
   litCI "CEILING IS ALWAYS SHOWN IN SMALLER SIZE",
   seqs [litCI "MUST NOT EXCEED ", plusC isDigitChar, litCI "KTS FROM STARTING POINT"],
   litCI "REDUCE SPEED TO STOP AT THE DESIGNATED STOP LINE",
   seqs [plusC isDigitChar, lit ".", wsPlus, litCI "ANY REVISION TO RWY CLOSURE"],
   seqs [plusC isDigitChar, lit ".", wsPlus, litCI "IN THE EVENT THAT THE OPERATIONAL RWY"],
   litCI "DEPENDENT ON THE WORK BEING CARRIED OUT",
   seqs [litCI "IT MAY TAKE UP TO ", plusC isDigitChar, litCI " HRS FOR A CLOSED RWY"]]

/-- Python `NOTAMFilter._clean_additional_info` (the patterns anchored with
`^` in the source are anchored here by construction of the search-at-start
forms; unanchored ones are plain searches). -/
def clean_additional_info (t : Str) : Str :=
  let keep := (splitNl t).filter fun l =>
    ¬ additionalInfoPats.any fun p => reTest p (pyStrip l)
  pyStrip (joinNl keep)

/-- Range token `\d{2}[A-Z]{3}\d{2}\s+\d{2}:\d{2}\s*-\s*(?:\d{2}[A-Z]{3}\d{2}\s+\d{2}:\d{2}|UFN)`
shared by several `_parse_notam_section` searches. -/
def rangeOrUfnRE : RE :=
  seqs [dateTokRE, wsPlus, timeTokRE, wsStar, lit "-", wsStar,
        RE.alt (seqs [dateTokRE, wsPlus, timeTokRE]) (lit "UFN")]

/-- Search `\d{2}[A-Z]{3}\d{2}\s+\d{2}:\d{2}\s*-\s*(?:...|UFN)\s+[A-Z]{4}\s+[A-Z0-9]+/\d{2}`
(`has_notam_number`). -/
def hasNotamNumberRE : RE :=
  seqs [rangeOrUfnRE, wsPlus, uRep 4, wsPlus,
        plusC (fun c => isUpperChar c || isDigitChar c), lit "/", dRep 2]

/-- The `airport_info_patterns` searches (compiled with `re.IGNORECASE`). -/
def airportInfoPats : List RE :=
  [seqs [plusC isDigitChar, lit ". ", litCI "RUNWAY"],
   seqs [plusC isDigitChar, lit ". ", litCI "COMPANY RADIO"],
   litCI "TAKEOFF PERFORMANCE INFORMATION",
   seqs [litCI "NOTAM A", dRep 4, lit "/", dRep 2, RE.starC (fun c => c ≠ '\n'),
         litCI "NO IMPACT"],
   litCI "CHECK RWY ID FOR TODC REQUEST",
   litCI "COMPANY MINIMA FOR CAT II/III",
   seqs [lit "131", lit ".", lit "500", RE.starC (fun c => c ≠ '\n'),
         litCI "KOREAN AIR INCHEON"],
   seqs [lit "129", lit ".", lit "35", RE.starC (fun c => c ≠ '\n'),
         litCI "ASIANA INCHEON"]]

/-- Optional qualifier `(?:\s+(?:AIP\s+SUP|CHINA\s+SUP|COAD))?`. -/
def qualifierOptRE : RE :=
  RE.opt (seqs [wsPlus,
    alts [seqs [lit "AIP", wsPlus, lit "SUP"],
          seqs [lit "CHINA", wsPlus, lit "SUP"],
          lit "COAD"]])

/-- Airport search
`(?:\d+\.\s+)?\d{2}[A-Z]{3}\d{2}\s+\d{2}:\d{2}\s*-\s*(?:...|UFN)\s+([A-Z]{4})(?:...)?\s+[A-Z0-9]+/\d{2}`. -/
def airportMatchRE : RE :=
  seqs [RE.opt numDotRE, rangeOrUfnRE, wsPlus, RE.grp 1 (uRep 4), qualifierOptRE,
        wsPlus, plusC (fun c => isUpperChar c || isDigitChar c), lit "/", dRep 2]

/-- Airport fallback search `\b([A-Z]{4})(?:...)?\s+[A-Z0-9]+/\d{2}`. -/
def airportFallbackRE : RE :=
  seqs [RE.wordB, RE.grp 1 (uRep 4), qualifierOptRE, wsPlus,
        plusC (fun c => isUpperChar c || isDigitChar c), lit "/", dRep 2]

/-- COAD airport search `([A-Z]{4})\s+COAD\d{2}/\d{2}`. -/
def coadAirportRE : RE :=
  seqs [RE.grp 1 (uRep 4), wsPlus, lit "COAD", dRep 2, lit "/", dRep 2]

/-- NOTAM-number search `(?:\d+\.\s+)?...\s+[A-Z]{4}(?:...)?\s+([A-Z0-9]+/\d{2})`. -/
def notamNumberRE : RE :=
  seqs [RE.opt numDotRE, rangeOrUfnRE, wsPlus, uRep 4, qualifierOptRE, wsPlus,
        RE.grp 1 (seqs [plusC (fun c => isUpperChar c || isDigitChar c),
                        lit "/", dRep 2])]

/-- Qualified-number search
`(?:\d+\.\s+)?...\s+[A-Z]{4}\s+(AIP\s+SUP|CHINA\s+SUP|COAD)\s+([A-Z0-9]+/\d{2})`. -/
def aipSupNumberRE : RE :=
  seqs [RE.opt numDotRE, rangeOrUfnRE, wsPlus, uRep 4, wsPlus,
        RE.grp 1 (alts [seqs [lit "AIP", wsPlus, lit "SUP"],
                        seqs [lit "CHINA", wsPlus, lit "SUP"],
                        lit "COAD"]),
        wsPlus,
        RE.grp 2 (seqs [plusC (fun c => isUpperChar c || isDigitChar c),
                        lit "/", dRep 2])]

/-- Fallback `(AIP\s+SUP|CHINA\s+SUP|COAD)\s+([A-Z0-9]+/\d{2})`. -/
def qualNumberFallbackRE : RE :=
  seqs [RE.grp 1 (alts [seqs [lit "AIP", wsPlus, lit "SUP"],
                        seqs [lit "CHINA", wsPlus, lit "SUP"],
                        lit "COAD"]),
        wsPlus,
        RE.grp 2 (seqs [plusC (fun c => isUpperChar c || isDigitChar c),
                        lit "/", dRep 2])]

/-- COAD number search `([A-Z]{4})\s+COAD(\d{2}/\d{2})`. -/
def coadNumberRE : RE :=
  seqs [RE.grp 1 (uRep 4), wsPlus, lit "COAD",
        RE.grp 2 (seqs [dRep 2, lit "/", dRep 2])]

/-- Last-resort number search `\b([A-Z]\d{4}/\d{2})\b`. -/
def bareNumberRE : RE :=
  seqs [RE.wordB, RE.grp 1 (seqs [uU, dRep 4, lit "/", dRep 2]), RE.wordB]

/-- First captured group of a search, when the search succeeds. -/
def searchGroup (re : RE) (t : Str) (i : Nat) : Option Str :=
  match reSearch re t with
  | some (_, _, caps) => capGet caps i
  | none => none

/-- Collects the D-field continuation lines (`_parse_notam_section`'s inner
`for j` loop after the `D)` line). -/
def dFieldMore : List Str → List Str
  | [] => []
  | l :: rest =>
    let ls := pyStrip l
    if ls ≠ [] && ¬ (listStarts (str "E)") ls || listStarts (str "F)") ls ||
                     listStarts (str "G)") ls) then
      ls :: dFieldMore rest
    else []

/-- Finds the first `D)` line and collects its content block. -/
def dFieldCollect : List Str → Option Str
  | [] => none
  | l :: rest =>
    let ls := pyStrip l
    if listStarts (str "D)") ls then
      some (joinNl (pyStrip (pySlice ls 2 ls.length) :: dFieldMore rest))
    else dFieldCollect rest

/-- The empty parsed record (`return {}` in `_parse_notam_section`). -/
def emptyParsed : ParsedNotam := {}

/-- The non-NOTAM phrase list checked against the uppercased text. -/
def nonNotamPhrases : List Str :=
  [str "COMPANY ADVISORY", str "OTHER INFORMATION", str "DEP:", str "DEST:",
   str "ALTN:", str "SECY"]

/-- Python `NOTAMFilter._parse_notam_section` restricted to the fields the
embedded claims read (airport code, NOTAM number, effective/expiry, D
field); the `e_field`/`q_code` extraction feeding presentation data is not
modelled. -/
def parse_notam_section (t : Str) : ParsedNotam :=
  let cleaned := clean_additional_info t
  if (nonNotamPhrases.any fun p => containsStr p (pyUpper cleaned)) &&
     cleaned.length > 400 then emptyParsed
  else if (airportInfoPats.any fun p => reTest p cleaned) &&
     cleaned.length > 500 then emptyParsed
  else
    let hasNotamNumber := reTest hasNotamNumberRE cleaned
    if (countSub (str "RWY") cleaned > 3 || countSub (str "CAT") cleaned > 2) &&
       cleaned.length > 800 && ¬ hasNotamNumber then emptyParsed
    else
      let airportStep : Option (Option Str) :=
        match searchGroup airportMatchRE cleaned 1 with
        | some a => some (some a)
        | none =>
          match searchGroup airportFallbackRE cleaned 1 with
          | some a => some (some a)
          | none =>
            match searchGroup coadAirportRE cleaned 1 with
            | some a => some (some a)
            | none =>
              let hasTime := reTest rangeOrUfnRE cleaned
              if containsStr (str "coad") (pyLower cleaned) && ¬ hasTime &&
                 cleaned.length > 800 then none
              else if listStarts (str "E)") (pyStrip cleaned) then
                if containsStr (str "HONG KONG") (pyUpper cleaned) then
                  some (some (str "VHHH"))
                else if containsStr (str "INCHEON") (pyUpper cleaned) then
                  some (some (str "RKSI"))
                else if containsStr (str "GIMPO") (pyUpper cleaned) then
                  some (some (str "RKSS"))
                else some (some (str "UNKNOWN"))
              else some (Option.none)
      match airportStep with
      | none => emptyParsed
      | some airport =>
        let number : Option Str :=
          match searchGroup notamNumberRE cleaned 1 with
          | some n =>
            (match reSearch aipSupNumberRE cleaned with
             | some (_, _, caps) =>
               match capGet caps 1, capGet caps 2 with
               | some q, some num => some (q ++ ' ' :: num)
               | _, _ => some n
             | none => some n)
          | none =>
            match reSearch qualNumberFallbackRE cleaned with
            | some (_, _, caps) =>
              (match capGet caps 1, capGet caps 2 with
               | some q, some num => some (q ++ ' ' :: num)
               | _, _ => none)
            | none =>
              match searchGroup coadNumberRE cleaned 2 with
              | some num => some (str "COAD" ++ num)
              | none => searchGroup bareNumberRE cleaned 1
        let ti := parse_time_info cleaned
        { airport := airport, number := number,
          effective := ti.effective, expiry := ti.expiry,
          dField := dFieldCollect (splitNl cleaned) }

/-!
### Bulletin segmentation (`NOTAMFilter._filter_airport_notams`)
-/

/-- Core of every start pattern:
`\d{2}[A-Z]{3}\d{2}\s+\d{2}:\d{2}\s*-\s*(?:\d{2}[A-Z]{3}\d{2}\s+\d{2}:\d{2}|UFN|PERM)`. -/
def rangeUfnPermRE : RE :=
  seqs [dateTokRE, wsPlus, timeTokRE, wsStar, lit "-", wsStar,
        alts [seqs [dateTokRE, wsPlus, timeTokRE], lit "UFN", lit "PERM"]]

/-- The seven `notam_start_patterns` of `_filter_airport_notams`, in source
order (each used with anchored `re.match`). -/
def notamStartPats : List RE :=
  [seqs [RE.opt numDotRE, rangeUfnPermRE, wsPlus, uRep 4,
         RE.nla (seqs [wsPlus, lit "SECY"])],
   seqs [rangeUfnPermRE, wsPlus, uRep 4, RE.nla (seqs [wsPlus, lit "SECY"])],
   seqs [RE.opt numDotRE, rangeUfnPermRE, wsPlus, uRep 4, wsPlus,
         RE.nla (lit "SECY"),
         plusC (fun c => isUpperChar c || isDigitChar c), lit "/", dRep 2],
   seqs [rangeUfnPermRE, wsPlus, uRep 4, wsPlus, RE.nla (lit "SECY"),
         plusC (fun c => isUpperChar c || isDigitChar c), lit "/", dRep 2],
   seqs [RE.opt numDotRE, rangeUfnPermRE, wsPlus, uRep 4, wsPlus, lit "AIP",
         wsPlus, lit "SUP", wsPlus, dRep 2, lit "/", dRep 2],
   seqs [rangeUfnPermRE, wsPlus, uRep 4, wsPlus, lit "AIP", wsPlus, lit "SUP",
         wsPlus, dRep 2, lit "/", dRep 2],
   seqs [uRep 4, wsPlus, lit "COAD", dRep 2, lit "/", dRep 2, RE.eos]]

/-- NOTAM-start test (`any(re.match(pattern, line) ...)`). -/
def isStartLine (l : Str) : Bool := notamStartPats.any fun p => reMatchB p l

/-- The `section_end_patterns` of `_filter_airport_notams`, in source order
(anchored `re.match`). -/
def sectionEndPats : List RE :=
  [lit "[ALTN]", lit "[DEST]", lit "[ENRT]", lit "[ETC]", lit "[INFO]",
   lit "[ROUTE]", lit "[WX]",
   lit "COAD",
   seqs [uRep 4, lit " COAD", dRep 2, lit "/", dRep 2],
   seqs [uRep 4, wsStar, RE.eos],
   seqs [lit "1.", wsPlus, lit "RUNWAY", wsStar, lit ":"],
   seqs [reps 4 (RE.cls fun c => c = '='), RE.starC (fun c => c = '='), RE.eos]]

/-- Section-end test. -/
def isSectEndLine (l : Str) : Bool := sectionEndPats.any fun p => reMatchB p l

/-- Search `END OF KOREAN AIR NOTAM PACKAGE` (IGNORECASE, on the stripped
line). -/
def isEopLine (l : Str) : Bool :=
  reTest (litCI "END OF KOREAN AIR NOTAM PACKAGE") (pyStrip l)

/-- Search `\*{8}\s*NO CURRENT NOTAMS FOUND\s*\*{8}` (IGNORECASE). -/
def isNoCurLine (l : Str) : Bool :=
  reTest (seqs [reps 8 (RE.cls fun c => c = '*'), wsStar,
                litCI "NO CURRENT NOTAMS FOUND", wsStar,
                reps 8 (RE.cls fun c => c = '*')]) (pyStrip l)

/-- The three SECY searches (IGNORECASE). -/
def isSecyLine (l : Str) : Bool :=
  let ls := pyStrip l
  reTest (seqs [litCI "SECY", wsStar, lit "/", wsStar,
                litCI "SECURITY INFORMATION"]) ls ||
  reTest (seqs [litCI "SECY", wsPlus, litCI "COAD", plusC isDigitChar,
                lit "/", plusC isDigitChar]) ls ||
  reTest (seqs [plusC isDigitChar, lit ".", wsPlus, dRep 2, reps 3 uCI, dRep 2,
                wsPlus, timeTokRE, wsStar, lit "-", wsStar, dRep 2, reps 3 uCI,
                dRep 2, wsPlus, timeTokRE, wsPlus, litCI "SECY"]) ls

/-- Search `COMPANY ADVISORY|MPANY ADVISORY` (IGNORECASE). -/
def isAdvLine (l : Str) : Bool :=
  reTest (RE.alt (litCI "COMPANY ADVISORY") (litCI "MPANY ADVISORY")) (pyStrip l)

/-- How the non-skip branch chain of the segmentation loop classifies a
line (in the source's test order).  The branches guarded by `skip_mode`
inside the non-skip path (lines 1351–1373 of `notam_filter.py`) are dead —
`skip_mode` is always false there because the loop `continue`s at the top
when it is set — and are omitted. -/
inductive LineKind where
  | eop
  | nocur
  | secy
  | adv
  | startL
  | sectEnd
  | other
deriving Repr, DecidableEq

/-- Ordered line classification. -/
def classifyLine (l : Str) : LineKind :=
  if isEopLine l then .eop
  else if isNoCurLine l then .nocur
  else if isSecyLine l then .secy
  else if isAdvLine l then .adv
  else if isStartLine l then .startL
  else if isSectEndLine l then .sectEnd
  else .other

/-- Segmentation state (`notam_sections`, `current_notam`,
`found_first_notam`, `skip_mode`). -/
structure SegSt where
  secs : List Str
  cur : List Str
  found : Bool
  skip : Bool
deriving Repr, DecidableEq

/-- Emits the accumulated block, if any
(`if current_notam: notam_sections.append('\n'.join(current_notam).strip())`). -/
def flushCur (secs : List Str) (cur : List Str) : List Str :=
  match cur with
  | [] => secs
  | _ :: _ => secs ++ [pyStrip (joinNl cur)]

/-- One loop iteration of `_filter_airport_notams`'s segmentation pass. -/
def segStep (st : SegSt) (l : Str) : SegSt :=
  if st.skip then
    if isStartLine l then ⟨flushCur st.secs st.cur, [l], true, false⟩
    else st
  else
    match classifyLine l with
    | .eop => ⟨flushCur st.secs st.cur, [], st.found, true⟩
    | .nocur => ⟨flushCur st.secs st.cur, [], st.found, true⟩
    | .secy => ⟨st.secs, st.cur, st.found, true⟩
    | .adv => ⟨st.secs, st.cur, st.found, true⟩
    | .startL => ⟨flushCur st.secs st.cur, [l], true, false⟩
    | .sectEnd => ⟨flushCur st.secs st.cur, [], st.found, true⟩
    | .other =>
      if st.found then ⟨st.secs, st.cur ++ [l], st.found, st.skip⟩ else st

/-- Segmentation over a line list, with the final flush. -/
def segLines (lines : List Str) : List Str :=
  let st := lines.foldl segStep ⟨[], [], false, false⟩
  flushCur st.secs st.cur

/-- The `notam_sections` list produced by `_filter_airport_notams` for a
bulletin. -/
def segText (t : Str) : List Str := segLines (splitNl t)

/-- The emitted-record fields of the `notam_dict` built by the filter loops
(identifier, airport, validity window, D field, optional local-time
display; presentation fields — description, styled text, category
metadata — are not modelled). -/
structure EmittedRec where
  number : Str
  airport : Str
  effective : Str
  expiry : Str
  dField : Str
  localTimeDisplay : Option Str
deriving Repr, DecidableEq

/-- The shared per-section emission step of `_filter_airport_notams` /
`_filter_package_notams`: skip blank sections, parse, drop records without
an airport code, attach the local-time display when both time fields are
truthy and the display is truthy. -/
def emitSection (ck : Clock) (section0 : Str) : Option EmittedRec :=
  let sec := pyStrip section0
  if sec = [] then none
  else
    let p := parse_notam_section sec
    match p.airport with
    | some a =>
      if a ≠ [] then
        some
          { number := p.number.getD (str "Unknown"),
            airport := a,
            effective := p.effective.getD [],
            expiry := p.expiry.getD [],
            dField := p.dField.getD [],
            localTimeDisplay :=
              if p.effective.getD [] ≠ [] &&
                 (p.expiry.getD [] ≠ [] || p.expiry = some (str "UFN")) then
                match generate_local_time_display ck p with
                | some d => if d ≠ [] then some d else none
                | none => none
              else none }
      else none
    | none => none

/-- Python `NOTAMFilter._filter_airport_notams`. -/
def filter_airport_notams (ck : Clock) (t : Str) : List EmittedRec :=
  (segText t).filterMap (emitSection ck)

/-!
### Package bulletins (`_merge_package_notam_lines`,
`_split_package_notams`, `_filter_package_notams`)
-/

/-- The `unwanted_keywords` OCR-noise list (case-sensitive substring
tests). -/
def unwantedKeywords : List Str :=
  [str "â—R¼A MP", str "â—O¼B STRUCTION", str "â—G¼P S", str "â—R¼U NWAY",
   str "â—A¼PP ROACH", str "â—T¼A XIWAY", str "â—N¼A VAID", str "â—D¼E PARTURE",
   str "â—R¼U NWAY LIGHT", str "â—A¼IP", str "â—O¼T HER"]

/-- Merge-pass COAD pattern `^[A-Z]{4}\s+COAD\d{2}/\d{2}$`. -/
def mergeCoadRE : RE :=
  seqs [uRep 4, wsPlus, lit "COAD", dRep 2, lit "/", dRep 2, RE.eos]

/-- Merge-pass identifier pattern
`^[A-Z]{4}(?:\s+[A-Z]+(?:\s+[A-Z]+)*)?\s+\d{1,3}/\d{2}$|^[A-Z]{4}\s+[A-Z]\d{4}/\d{2}$`;
the inner unbounded star is bounded by the line length (each iteration
consumes at least two characters). -/
def mergeNotamIdRE (n : Nat) : RE :=
  RE.alt
    (seqs [uRep 4,
           RE.opt (seqs [wsPlus, plusC isUpperChar,
                         upto n (seqs [wsPlus, plusC isUpperChar])]),
           wsPlus, rng 1 3 dD, lit "/", dRep 2, RE.eos])
    (seqs [uRep 4, wsPlus, uU, dRep 4, lit "/", dRep 2, RE.eos])

/-- Merge-pass date-line pattern `^(?:\d+\.\s+)?\d{2}[A-Z]{3}\d{2}\s+\d{2}:\d{2}\s*-`. -/
def mergeDateLineRE : RE :=
  seqs [RE.opt numDotRE, dateTokRE, wsPlus, timeTokRE, wsStar, lit "-"]

/-- `re.sub(r'^\d+\.\s+', '', s)`: drops a numbered-item marker when it
matches at the start. -/
def dropNumDot (s : Str) : Str :=
  match reMatchL numDotRE none s with
  | some (rest, _) => rest
  | none => s

/-- The merge loop of `_merge_package_notam_lines` (two-line lookahead;
fuel initialised to the line count, consumed one line per step at
least). -/
def mergePkLinesAux : Nat → List Str → List Str
  | 0, ls => ls.map pyStrip
  | _ + 1, [] => []
  | _ + 1, [l] => [pyStrip l]
  | fuel + 1, l :: l2 :: rest =>
    let s1 := pyStrip l
    let s2 := pyStrip l2
    if (reMatchB mergeCoadRE s1 || reMatchB (mergeNotamIdRE s1.length) s1) &&
       reMatchB mergeDateLineRE s2 then
      (dropNumDot s2 ++ ' ' :: s1) :: mergePkLinesAux fuel rest
    else
      s1 :: mergePkLinesAux fuel (l2 :: rest)

/-- The merge loop of `_merge_package_notam_lines`. -/
def mergePkLines (ls : List Str) : List Str := mergePkLinesAux ls.length ls

/-- Python `NOTAMFilter._merge_package_notam_lines`. -/
def merge_package_notam_lines (t : Str) : Str :=
  let filtered := (splitNl t).filter fun l =>
    ¬ unwantedKeywords.any fun k => containsStr k l
  joinNl (mergePkLines filtered)

/-- The `new_notam_patterns` of `_split_package_notams`, in source order. -/
def newNotamPats : List RE :=
  [seqs [plusC isDigitChar, lit ".", wsStar, dateTokRE, wsPlus, timeTokRE,
         wsStar, lit "-", wsStar, lit "UFN", wsPlus, uRep 4, wsPlus,
         lit "COAD", dRep 2, lit "/", dRep 2],
   seqs [plusC isDigitChar, lit ".", wsStar, dateTokRE, wsPlus, timeTokRE,
         wsStar, lit "-", wsStar, lit "PERM", wsPlus, uRep 4, wsPlus,
         lit "COAD", dRep 2, lit "/", dRep 2],
   seqs [plusC isDigitChar, lit ".", wsStar, dateTokRE, wsPlus, timeTokRE,
         wsStar, lit "-", wsStar, dateTokRE, wsPlus, timeTokRE, wsPlus,
         uRep 4, wsPlus, lit "COAD", dRep 2, lit "/", dRep 2],
   seqs [rangeUfnPermRE, wsPlus, uRep 4, wsPlus, uU, dRep 4, lit "/", dRep 2],
   seqs [rangeUfnPermRE, wsPlus, uRep 4, wsPlus, lit "AIP", wsPlus, lit "SUP",
         wsPlus, plusC isDigitChar, lit "/", dRep 2],
   seqs [rangeUfnPermRE, wsPlus, uRep 4, wsPlus, lit "AIP", wsPlus, lit "AD",
         wsPlus, plusC isDigitChar, lit ".", plusC isDigitChar],
   seqs [rangeUfnPermRE, wsPlus, uRep 4, wsPlus, lit "Z", dRep 4, lit "/", dRep 2],
   seqs [rangeUfnPermRE, wsPlus, uRep 4, wsPlus, lit "COAD", dRep 2, lit "/", dRep 2],
   seqs [dateTokRE, wsPlus, timeTokRE, wsStar, lit "-", wsStar, lit "UFN",
         wsPlus, uRep 4, wsPlus, lit "CHINA", wsPlus, lit "SUP", wsPlus,
         plusC isDigitChar, lit "/", dRep 2],
   seqs [dateTokRE, wsPlus, timeTokRE, wsStar, lit "-", wsStar,
         alts [seqs [uRep 3, dRep 2], lit "UFN", lit "PERM"], wsPlus, uRep 4,
         wsPlus, plusC isUpperChar, plusC isDigitChar, lit "/", dRep 2],
   seqs [dateTokRE, wsPlus, timeTokRE, wsStar, lit "-", wsStar, dateTokRE,
         wsPlus, timeTokRE, wsPlus, uRep 4, wsPlus, uU, dRep 4, lit "/", dRep 2]]

/-- The `aip_ad_pattern` of `_split_package_notams`. -/
def aipAdRE : RE :=
  seqs [dateTokRE, wsPlus, timeTokRE, wsStar, lit "-", wsStar,
        RE.alt (lit "UFN") (lit "PERM"), wsPlus, uRep 4, wsPlus, lit "AIP",
        wsPlus, lit "AD", wsPlus, plusC isDigitChar, lit ".", plusC isDigitChar]

/-- Divider test `^={20,}$`. -/
def isDivider20 (l : Str) : Bool :=
  reMatchB (seqs [reps 20 (RE.cls fun c => c = '='),
                  RE.starC (fun c => c = '='), RE.eos]) l

/-- End-phrase search `ANY CHANGE WILL BE NOTIFIED BY NOTAM\.`. -/
def isEndPhrase (l : Str) : Bool :=
  reTest (lit "ANY CHANGE WILL BE NOTIFIED BY NOTAM.") l

/-- New-NOTAM test of the package splitter. -/
def isPkNewNotam (l : Str) : Bool :=
  let ls := pyStrip l
  (newNotamPats.any fun p => reMatchB p ls) || reMatchB aipAdRE ls

/-- Package-splitter state: emitted `(first line number, block)` pairs and
the current accumulation. -/
structure PkSt where
  notams : List (Nat × Str)
  cur : List (Nat × Str)
deriving Repr, DecidableEq

/-- Emits the current package block, if any. -/
def pkFlush (st : PkSt) : PkSt :=
  match st.cur with
  | [] => st
  | (i, _) :: _ =>
    ⟨st.notams ++ [(i, pyStrip (joinNl (st.cur.map Prod.snd)))], []⟩

/-- One iteration of the `_split_package_notams` loop. -/
def pkStep (st : PkSt) (e : Nat × Str) : PkSt :=
  let l := e.2
  if isDivider20 l then pkFlush st
  else if sectionEndPats.any fun p => reMatchB p (pyStrip l) then pkFlush st
  else
    let st2 : PkSt :=
      if isPkNewNotam l then
        let f := pkFlush st
        ⟨f.notams, [e]⟩
      else ⟨st.notams, st.cur ++ [e]⟩
    if isEndPhrase l then pkFlush st2 else st2

/-- Stable insertion preserving the original order among equal keys. -/
def insSorted (key : α → Nat) (x : α) : List α → List α
  | [] => [x]
  | y :: ys => if key x < key y then x :: y :: ys else y :: insSorted key x ys

/-- Stable ascending sort by a natural-number key (Python `list.sort` with
a key function is stable). -/
def stableSortByKey (key : α → Nat) (l : List α) : List α :=
  l.foldl (fun acc x => insSorted key x acc) []

/-- Python `NOTAMFilter._split_package_notams`. -/
def split_package_notams (t : Str) : List Str :=
  let linesWithIndex :=
    ((splitNl t).enumFrom 1).filterMap fun e =>
      if pyStrip e.2 ≠ [] then some (e.1, pyStrip e.2) else none
  let st := linesWithIndex.foldl pkStep ⟨[], []⟩
  let fin := pkFlush st
  (stableSortByKey Prod.fst fin.notams).map Prod.snd

/-- Python `NOTAMFilter._detect_package_type` (case-sensitive substring
tests). -/
def detect_package_type (t : Str) : Option Str :=
  if containsStr (str "KOREAN AIR NOTAM PACKAGE 1") t then some (str "package1")
  else if containsStr (str "KOREAN AIR NOTAM PACKAGE 2") t then some (str "package2")
  else if containsStr (str "KOREAN AIR NOTAM PACKAGE 3") t then some (str "package3")
  else none

/-- `NOTAMFilter.package_airport_order`. -/
def package_airport_order : List (Str × List Str) :=
  [(str "package1",
    [str "RKSI", str "VVDN", str "VVTS", str "VVCR", str "SECY"]),
   (str "package2",
    [str "RKSI", str "RKPC", str "ROAH", str "RJFF", str "RORS", str "RCTP",
     str "VHHH", str "ZJSY", str "VVNB", str "VVDN", str "VVTS"]),
   (str "package3",
    [str "RKRR", str "RJJJ", str "RCAA", str "VHHK", str "ZJSA", str "VVHN",
     str "VVHM"])]

/-- Python `NOTAMFilter._get_airport_priority`. -/
def get_airport_priority (code pkg : Str) : Nat :=
  match package_airport_order.find? fun e => e.1 = pkg with
  | some e =>
    match e.2.findIdx? fun a => a = code with
    | some i => i
    | none => 999
  | none => 999

/-- Python `NOTAMFilter._filter_package_notams` (pre-merge pass, package
split, shared emission, and the package-order stable sort). -/
def filter_package_notams (ck : Clock) (t : Str) : List EmittedRec :=
  let merged := merge_package_notam_lines t
  let recs := (split_package_notams merged).filterMap (emitSection ck)
  match detect_package_type t with
  | some pkg => stableSortByKey (fun r => get_airport_priority r.airport pkg) recs
  | none => recs

/-- Python `NOTAMFilter._detect_notam_type`. -/
def detect_notam_type_is_package (t : Str) : Bool :=
  containsStr (str "KOREAN AIR NOTAM PACKAGE") (pyUpper t)

/-- Python `NOTAMFilter.filter_korean_air_notams` (package/airport
dispatch). -/
def filter_korean_air_notams (ck : Clock) (t : Str) : List EmittedRec :=
  if detect_notam_type_is_package t then filter_package_notams ck t
  else filter_airport_notams ck t

/-- The raw block list the dispatcher's segmentation stage produces
(`notam_sections` of whichever path runs). -/
def segmentedBlocks (t : Str) : List Str :=
  if detect_notam_type_is_package t then
    split_package_notams (merge_package_notam_lines t)
  else segText t

/-!
### Specification-level definitions used by the claim statements
-/

/-- Total length of a block list (`sum(len(block) for block in blocks)`). -/
def sumLens (bs : List Str) : Nat := (bs.map List.length).sum

/-- Per-line length budget `len(line) + 1` summed over a line list. -/
def sumLenPlus (ls : List Str) : Nat := (ls.map fun l => l.length + 1).sum

/-- Whether a segment's index range covers index `i`. -/
def segCovers (s : SegRec) (i : Nat) : Bool :=
  s.startIdx ≤ i && i ≤ s.endIdx

/-- How many emitted segments of a route analysis cover index `i`. -/
def coverCount (r : UprResult) (i : Nat) : Nat :=
  (allSegments r).countP fun s => segCovers s i

/-- The FIR attributed to input coordinate `i` of a route. -/
def firAt (pts : List (ℚ × ℚ)) (i : Nat) : Option Str :=
  match pts.get? i with
  | some p => identify_fir_by_coordinate p.1 p.2
  | none => none

/-- Structural flattening of the per-FIR segment dictionary (equal to
`allSegments` on the result record, but defined by structural recursion
so induction proofs go through cleanly). -/
def segsOf : List (Str × List SegRec) → List SegRec
  | [] => []
  | e :: rest => e.2 ++ segsOf rest

/-- A well-formed emitted section in line form: a NOTAM-start head line
followed by content lines, all lines stripped, nonempty and
newline-free. -/
def BlockOK : List Str → Prop
  | [] => False
  | h :: rest =>
    classifyLine h = LineKind.startL ∧
    (∀ l ∈ rest, classifyLine l = LineKind.other) ∧
    (∀ l ∈ h :: rest, pyStrip l = l ∧ l ≠ [] ∧ '\n' ∉ l)

/-- A bulletin none of whose lines carries leading or trailing
whitespace. -/
def linesClean (t : Str) : Prop :=
  ∀ l ∈ splitNl t, pyStrip l = l

/-- Whether a stage value counts as a non-default success
(`api_result and api_result != "UTC+0"`). -/
def nonDefaultTz (v : Str) : Bool := v ≠ [] && v ≠ str "UTC+0"

/-- The four resolver sources of claim C9, in the claimed order: external
live lookup, ICAO-prefix pattern table, CSV lookup, single-letter
fallback.  Each entry is the raw value the source yields (or `none` when
the source has no entry at all). -/
def tzStages (api : Str → Option Str) (csv : List (Str × Str)) (dst : Bool)
    (icaoU : Str) : List (Option Str) :=
  [api icaoU,
   some (get_timezone_by_fir_pattern dst icaoU),
   (csv.find? fun e => e.1 = icaoU).map Prod.snd,
   match icaoU with
   | [] => none
   | c :: _ => (icaoFirstLetterTable.find? fun e => e.1 = c).map Prod.snd]

/-- Claim C9's resolver chain, modelled from the spec's words: the sources
are tried in order and the chain *stops at the first non-default
success*, returning the default only when every source fails that test. -/
def get_utc_offset_claimed (api : Str → Option Str) (csv : List (Str × Str))
    (dst : Bool) (icao : Str) : Str :=
  if icao = [] || icao.length < 2 then str "UTC+0"
  else
    let icaoU := pyUpper icao
    match (tzStages api csv dst icaoU).findSome? fun r =>
        match r with
        | some v => if nonDefaultTz v then some v else none
        | none => none with
    | some v => v
    | none => str "UTC+0"

/-- The corrected chain: identical to `get_utc_offset_claimed` except that
the CSV and single-letter stages stop at *any* present entry, even a
default-valued one — which is what the code does. -/
def get_utc_offset_chain (api : Str → Option Str) (csv : List (Str × Str))
    (dst : Bool) (icao : Str) : Str :=
  if icao = [] || icao.length < 2 then str "UTC+0"
  else
    let icaoU := pyUpper icao
    let stages := tzStages api csv dst icaoU
    let accepted : List (Option Str) :=
      stages.zipWith
        (fun r stopAtAnyHit =>
          match r with
          | some v =>
            if stopAtAnyHit then some v
            else if nonDefaultTz v then some v else none
          | none => none)
        [false, false, true, true]
    match accepted.findSome? id with
    | some v => v
    | none => str "UTC+0"

/-!
## Theorems

Supporting lemmas first, then one theorem per claim (with witnesses and
counterexamples where required).
-/

set_option maxRecDepth 1000000

/-- A four-uppercase-letter token also matches the 3–5-letter waypoint
test. -/
theorem isAirportTok_imp_isWaypointTok (s : Str) (h : isAirportTok s = true) :
    isWaypointTok s = true := by
  simp only [isAirportTok, Bool.and_eq_true, decide_eq_true_eq] at h
  simp only [isWaypointTok, Bool.and_eq_true, decide_eq_true_eq]
  exact ⟨⟨by omega, by omega⟩, h.2⟩

/-- One tokenizer step never appends an `airport`-kind entry. -/
theorem routeTokStep_no_airport (r : RouteParsed) (seg : Str)
    (h : ∀ e ∈ r.fullRoute, e.1 ≠ TokKind.airport) :
    ∀ e ∈ (routeTokStep r seg).fullRoute, e.1 ≠ TokKind.airport := by
  intro e he
  simp only [routeTokStep] at he
  split at he
  · exact h e he
  · split at he
    · rcases List.mem_append.1 he with h1 | h1
      · exact h e h1
      · simp only [List.mem_singleton] at h1
        subst h1; simp
    · split at he
      · rcases List.mem_append.1 he with h1 | h1
        · exact h e h1
        · simp only [List.mem_singleton] at h1
          subst h1; simp
      · split at he
        · rcases List.mem_append.1 he with h1 | h1
          · exact h e h1
          · simp only [List.mem_singleton] at h1
            subst h1; simp
        · split at he
          · rename_i hwp hap
            have := isAirportTok_imp_isWaypointTok _ hap
            simp [this] at hwp
          · rcases List.mem_append.1 he with h1 | h1
            · exact h e h1
            · simp only [List.mem_singleton] at h1
              subst h1; simp

/-- Folding the tokenizer over any segment list preserves
airport-freeness. -/
theorem routeTokFold_no_airport (segs : List Str) (r : RouteParsed)
    (h : ∀ e ∈ r.fullRoute, e.1 ≠ TokKind.airport) :
    ∀ e ∈ (segs.foldl routeTokStep r).fullRoute, e.1 ≠ TokKind.airport := by
  induction segs generalizing r with
  | nil => exact h
  | cons s rest ih =>
    exact ih (routeTokStep r s) (routeTokStep_no_airport r s h)

/-- Claim C10 (confirmed): every token of exactly four uppercase letters is
classified as a waypoint because the 3–5 letter waypoint pattern is tried
before the 4-letter airport pattern, so the `airport` branch of
`parse_route_with_waypoints` is unreachable; in particular the airport
codes `RKSI` and `KSEA` end up in the waypoints list. -/
theorem c10_airport_branch_unreachable :
    (∀ t : Str, ∀ e ∈ (parse_route_with_waypoints t).fullRoute,
       e.1 ≠ TokKind.airport) ∧
    (∀ s : Str, isAirportTok s = true → classifyRouteToken s ≠ TokKind.airport) ∧
    (parse_route_with_waypoints (str "RKSI..KSEA")).waypoints =
      [str "RKSI", str "KSEA"] := by
  refine ⟨?_, ?_, by decide⟩
  · intro t
    exact routeTokFold_no_airport _ _ (by simp [])
  · intro s hs
    unfold classifyRouteToken
    split
    · simp
    · have hw := isAirportTok_imp_isWaypointTok s hs
      simp only [hw, if_true]
      split <;> simp

unseal Rat.add Rat.mul Rat.sub Rat.inv in
/-- Claim C3 counterexample: the probe point `(50.0, 179.9)` is classified
as `PAZA`, not `KZAK` — `PAZA` is checked first and its antimeridian-aware
bounding box already contains the point — so the claim's "both classify
into KZAK" reading is false at this concrete input. -/
theorem c3_counterexample :
    identify_fir_by_coordinate 50 (1799 / 10) = some (str "PAZA") ∧
    some (str "PAZA") ≠ some (str "KZAK") := by decide

unseal Rat.add Rat.mul Rat.sub Rat.inv in
/-- Claim C3 (corrected): both antimeridian probe points classify into the
*same* FIR, but that FIR is `PAZA` (whose bounding box straddles the
antimeridian: its longitudes span negative and positive values), not
`KZAK`. -/
theorem c3_amended_both_points_paza :
    identify_fir_by_coordinate 50 (1799 / 10) =
      identify_fir_by_coordinate 50 (-1799 / 10) ∧
    identify_fir_by_coordinate 50 (1799 / 10) = some (str "PAZA") ∧
    qMin (parse_paza_boundary.map Prod.snd) < 0 ∧
    0 < qMax (parse_paza_boundary.map Prod.snd) := by decide

unseal Rat.add Rat.mul Rat.sub Rat.inv in
/-- Claim C1 counterexample: for the one-point route `[(80, 0)]` the point
is attributed to no FIR and `analyze_upr_route` emits no segment at all,
so index 0 is covered zero times — the claimed partition (covering every
index exactly once, including no-FIR coordinates) fails. -/
theorem c1_counterexample :
    coverCount (analyze_upr_route [((80 : ℚ), 0)]) 0 = 0 ∧
    firAt [((80 : ℚ), 0)] 0 = none ∧
    ([((80 : ℚ), 0)] : List (ℚ × ℚ)).length = 1 := by decide

/-- `segsOf` agrees with the flatten-of-map used by `allSegments`. -/
theorem segsOf_eq_flatten (d : List (Str × List SegRec)) :
    segsOf d = (d.map Prod.snd).flatten := by
  induction d with
  | nil => rfl
  | cons e rest ih => simp [segsOf, ih]

/-- Counting over the flattened segment dict after a `dictAppend`: the new
segment contributes once. -/
theorem countP_segsOf_dictAppend (d : List (Str × List SegRec)) (k : Str)
    (v : SegRec) (p : SegRec → Bool) :
    (segsOf (dictAppend d k v)).countP p =
      (segsOf d).countP p + (if p v then 1 else 0) := by
  induction d with
  | nil => simp [dictAppend, segsOf, List.countP_cons]
  | cons e rest ih =>
    unfold dictAppend
    by_cases he : e.1 = k
    · rw [if_pos he]
      simp only [segsOf, List.countP_append, List.countP_cons, List.countP_nil]
      omega
    · rw [if_neg he]
      simp only [segsOf, List.countP_append, ih]
      omega

/-- Membership in the flattened segment dict after a `dictAppend`. -/
theorem mem_segsOf_dictAppend (d : List (Str × List SegRec)) (k : Str)
    (v : SegRec) (s : SegRec) :
    s ∈ segsOf (dictAppend d k v) ↔ s ∈ segsOf d ∨ s = v := by
  induction d with
  | nil => simp [dictAppend, segsOf]
  | cons e rest ih =>
    unfold dictAppend
    by_cases he : e.1 = k
    · rw [if_pos he]
      simp only [segsOf, List.mem_append, List.mem_singleton]
      tauto
    · rw [if_neg he]
      simp only [segsOf, List.mem_append, ih]
      tauto

/-- Loop invariant of `analyze_upr_route`: processing the remaining
coordinates from a state that correctly describes the consumed prefix
yields a final state that correctly describes the whole route.  The
invariant records that closed segments cover exactly the FIR-attributed
indices below `segmentStart`, each exactly once, and that the open run
`[segmentStart, idx)` carries the constant FIR `currentFir`. -/
theorem uprLoop_inv (pts : List (ℚ × ℚ)) :
    ∀ (rest : List (ℚ × ℚ)) (k : Nat) (st : UprSt),
      pts.drop k = rest → k ≤ pts.length →
      st.idx = k →
      st.segmentStart ≤ k →
      (st.segmentStart = k → st.currentFir = none) →
      (∀ j, st.segmentStart ≤ j →
        (segsOf st.segs).countP (fun s => segCovers s j) = 0) →
      (∀ j, j < st.segmentStart →
        (segsOf st.segs).countP (fun s => segCovers s j) =
          if (firAt pts j).isSome then 1 else 0) →
      (∀ j, st.segmentStart ≤ j → j < k → firAt pts j = st.currentFir) →
      (∀ s ∈ segsOf st.segs,
        s.startIdx ≤ s.endIdx ∧ s.endIdx < k) →
      ((rest.foldl (uprStep pts) st).idx = pts.length ∧
       (rest.foldl (uprStep pts) st).segmentStart ≤ pts.length ∧
       ((rest.foldl (uprStep pts) st).segmentStart = pts.length →
         (rest.foldl (uprStep pts) st).currentFir = none) ∧
       (∀ j, (rest.foldl (uprStep pts) st).segmentStart ≤ j →
         (segsOf (rest.foldl (uprStep pts) st).segs).countP
           (fun s => segCovers s j) = 0) ∧
       (∀ j, j < (rest.foldl (uprStep pts) st).segmentStart →
         (segsOf (rest.foldl (uprStep pts) st).segs).countP
           (fun s => segCovers s j) = if (firAt pts j).isSome then 1 else 0) ∧
       (∀ j, (rest.foldl (uprStep pts) st).segmentStart ≤ j → j < pts.length →
         firAt pts j = (rest.foldl (uprStep pts) st).currentFir) ∧
       (∀ s ∈ segsOf (rest.foldl (uprStep pts) st).segs,
         s.startIdx ≤ s.endIdx ∧ s.endIdx < pts.length)) := by
  intro rest
  induction rest with
  | nil =>
    intro k st hdrop hkle hidx hstart hstartcur hcnt0 hcnt1 hrun hwf
    have hk : k = pts.length := by
      have := List.drop_eq_nil_iff_le.1 hdrop
      omega
    subst hk
    exact ⟨hidx, hstart, hstartcur, hcnt0, hcnt1, hrun, hwf⟩
  | cons p rest' ih =>
    intro k st hdrop hkle hidx hstart hstartcur hcnt0 hcnt1 hrun hwf
    have hget : pts.get? k = some p := by
      have h0 : (pts.drop k).get? 0 = some p := by rw [hdrop]; rfl
      rwa [List.get?_drop, Nat.add_zero] at h0
    have hklt : k < pts.length := by
      rcases List.get?_eq_some.1 hget with ⟨h, _⟩
      exact h
    have hdrop' : pts.drop (k + 1) = rest' := by
      have h1 : (pts.drop k).drop 1 = rest' := by rw [hdrop]; rfl
      rwa [List.drop_drop] at h1
    have hfirk : firAt pts k = identify_fir_by_coordinate p.1 p.2 := by
      unfold firAt
      rw [hget]
    rw [List.foldl_cons]
    by_cases hne : identify_fir_by_coordinate p.1 p.2 = st.currentFir
    · -- same FIR: the open run extends
      have hstep : uprStep pts st p =
          ⟨st.coords ++ [⟨st.idx, p.1, p.2, identify_fir_by_coordinate p.1 p.2⟩],
           st.traversed, st.segs, st.currentFir, st.segmentStart, st.idx + 1⟩ := by
        simp only [uprStep]
        rw [if_neg (fun h => h hne)]
      have hsegsE : (uprStep pts st p).segs = st.segs := by rw [hstep]
      have hidxE : (uprStep pts st p).idx = st.idx + 1 := by rw [hstep]
      have hssE : (uprStep pts st p).segmentStart = st.segmentStart := by rw [hstep]
      have hcfE : (uprStep pts st p).currentFir = st.currentFir := by rw [hstep]
      refine ih (k + 1) (uprStep pts st p) hdrop' (by omega) ?_ ?_ ?_ ?_ ?_ ?_ ?_
      · rw [hidxE, hidx]
      · rw [hssE]; omega
      · intro h
        rw [hssE] at h
        exact absurd h (by omega)
      · intro j hj
        rw [hssE] at hj
        rw [hsegsE]
        exact hcnt0 j hj
      · intro j hj
        rw [hssE] at hj
        rw [hsegsE]
        exact hcnt1 j hj
      · intro j hj1 hj2
        rw [hssE] at hj1
        rw [hcfE]
        rcases Nat.lt_succ_iff_lt_or_eq.1 hj2 with h | h
        · exact hrun j hj1 h
        · subst h; rw [hfirk, hne]
      · intro s hs
        rw [hsegsE] at hs
        have := hwf s hs
        omega
    · -- FIR change: close the previous segment when it had a FIR
      cases hcur : st.currentFir with
      | some f =>
        have hslt : st.segmentStart < k := by
          rcases Nat.lt_or_ge st.segmentStart k with h | h
          · exact h
          · have heq : st.segmentStart = k := by omega
            have := hstartcur heq
            rw [this] at hcur
            cases hcur
        have hstep : uprStep pts st p =
            ⟨st.coords ++ [⟨st.idx, p.1, p.2, identify_fir_by_coordinate p.1 p.2⟩],
             (match identify_fir_by_coordinate p.1 p.2 with
              | some g => if st.traversed.contains g then st.traversed
                          else st.traversed ++ [g]
              | none => st.traversed),
             dictAppend st.segs f
               ⟨st.segmentStart, st.idx - 1,
                (pts.drop st.segmentStart).take (st.idx - st.segmentStart)⟩,
             identify_fir_by_coordinate p.1 p.2, st.idx, st.idx + 1⟩ := by
          simp only [uprStep]
          rw [if_pos hne, hcur]
        have hsegsE : (uprStep pts st p).segs =
            dictAppend st.segs f
              ⟨st.segmentStart, st.idx - 1,
               (pts.drop st.segmentStart).take (st.idx - st.segmentStart)⟩ := by
          rw [hstep]
        have hidxE : (uprStep pts st p).idx = st.idx + 1 := by rw [hstep]
        have hssE : (uprStep pts st p).segmentStart = st.idx := by rw [hstep]
        have hcfE : (uprStep pts st p).currentFir =
            identify_fir_by_coordinate p.1 p.2 := by rw [hstep]
        refine ih (k + 1) (uprStep pts st p) hdrop' (by omega) ?_ ?_ ?_ ?_ ?_ ?_ ?_
        · rw [hidxE, hidx]
        · rw [hssE]; omega
        · intro h
          rw [hssE, hidx] at h
          exact absurd h (by omega)
        · intro j hj
          rw [hssE, hidx] at hj
          rw [hsegsE, countP_segsOf_dictAppend]
          have h0 := hcnt0 j (by omega)
          have hcov : segCovers
              ⟨st.segmentStart, st.idx - 1,
               (pts.drop st.segmentStart).take (st.idx - st.segmentStart)⟩ j
              = false := by
            simp [segCovers]
            omega
          simp [hcov, h0]
        · intro j hj
          rw [hssE, hidx] at hj
          rw [hsegsE, countP_segsOf_dictAppend]
          by_cases hjs : j < st.segmentStart
          · have h1 := hcnt1 j hjs
            have hcov : segCovers
                ⟨st.segmentStart, st.idx - 1,
                 (pts.drop st.segmentStart).take (st.idx - st.segmentStart)⟩ j
                = false := by
              simp [segCovers]
              omega
            simp [hcov, h1]
          · have h0 := hcnt0 j (by omega)
            have hcov : segCovers
                ⟨st.segmentStart, st.idx - 1,
                 (pts.drop st.segmentStart).take (st.idx - st.segmentStart)⟩ j
                = true := by
              simp [segCovers]
              omega
            have hfj : firAt pts j = some f := by
              rw [hrun j (by omega) (by omega), hcur]
            simp [hcov, h0, hfj]
        · intro j hj1 hj2
          rw [hssE, hidx] at hj1
          rw [hcfE]
          have : j = k := by omega
          subst this
          exact hfirk
        · intro s hs
          rw [hsegsE] at hs
          rcases (mem_segsOf_dictAppend _ _ _ _).1 hs with h | h
          · have := hwf s h
            omega
          · subst h
            refine ⟨?_, ?_⟩
            · show st.segmentStart ≤ st.idx - 1
              omega
            · show st.idx - 1 < k + 1
              omega
      | none =>
        have hstep : uprStep pts st p =
            ⟨st.coords ++ [⟨st.idx, p.1, p.2, identify_fir_by_coordinate p.1 p.2⟩],
             (match identify_fir_by_coordinate p.1 p.2 with
              | some g => if st.traversed.contains g then st.traversed
                          else st.traversed ++ [g]
              | none => st.traversed),
             st.segs, identify_fir_by_coordinate p.1 p.2, st.idx, st.idx + 1⟩ := by
          simp only [uprStep]
          rw [if_pos hne, hcur]
        have hsegsE : (uprStep pts st p).segs = st.segs := by rw [hstep]
        have hidxE : (uprStep pts st p).idx = st.idx + 1 := by rw [hstep]
        have hssE : (uprStep pts st p).segmentStart = st.idx := by rw [hstep]
        have hcfE : (uprStep pts st p).currentFir =
            identify_fir_by_coordinate p.1 p.2 := by rw [hstep]
        refine ih (k + 1) (uprStep pts st p) hdrop' (by omega) ?_ ?_ ?_ ?_ ?_ ?_ ?_
        · rw [hidxE, hidx]
        · rw [hssE]; omega
        · intro h
          rw [hssE, hidx] at h
          exact absurd h (by omega)
        · intro j hj
          rw [hssE, hidx] at hj
          rw [hsegsE]
          exact hcnt0 j (by omega)
        · intro j hj
          rw [hssE, hidx] at hj
          rw [hsegsE]
          by_cases hjs : j < st.segmentStart
          · exact hcnt1 j hjs
          · have h0 := hcnt0 j (by omega)
            have hfj : firAt pts j = none := by
              rw [hrun j (by omega) (by omega), hcur]
            simp [h0, hfj]
        · intro j hj1 hj2
          rw [hssE, hidx] at hj1
          rw [hcfE]
          have : j = k := by omega
          subst this
          exact hfirk
        · intro s hs
          rw [hsegsE] at hs
          have := hwf s hs
          omega

/-- Final flush of `analyze_upr_route`: from an end-of-loop state
satisfying the invariant, the emitted dictionary (after closing the open
run, if any) covers exactly the FIR-attributed indices. -/
theorem uprFinal (pts : List (ℚ × ℚ)) (fin : UprSt)
    (hstart : fin.segmentStart ≤ pts.length)
    (hstartcur : fin.segmentStart = pts.length → fin.currentFir = none)
    (hcnt0 : ∀ j, fin.segmentStart ≤ j →
      (segsOf fin.segs).countP (fun s => segCovers s j) = 0)
    (hcnt1 : ∀ j, j < fin.segmentStart →
      (segsOf fin.segs).countP (fun s => segCovers s j) =
        if (firAt pts j).isSome then 1 else 0)
    (hrun : ∀ j, fin.segmentStart ≤ j → j < pts.length →
      firAt pts j = fin.currentFir)
    (hwf : ∀ s ∈ segsOf fin.segs, s.startIdx ≤ s.endIdx ∧ s.endIdx < pts.length) :
    (∀ i, i < pts.length →
      (segsOf (match fin.currentFir with
        | some f => dictAppend fin.segs f
            ⟨fin.segmentStart, pts.length - 1, pts.drop fin.segmentStart⟩
        | none => fin.segs)).countP (fun s => segCovers s i) =
        if (firAt pts i).isSome then 1 else 0) ∧
    (∀ s ∈ segsOf (match fin.currentFir with
        | some f => dictAppend fin.segs f
            ⟨fin.segmentStart, pts.length - 1, pts.drop fin.segmentStart⟩
        | none => fin.segs),
      s.startIdx ≤ s.endIdx ∧ s.endIdx < pts.length) := by
  cases hc : fin.currentFir with
  | none =>
    refine ⟨?_, ?_⟩
    · intro i hilt
      show (segsOf fin.segs).countP (fun s => segCovers s i) =
        if (firAt pts i).isSome then 1 else 0
      by_cases his : i < fin.segmentStart
      · exact hcnt1 i his
      · have h0 := hcnt0 i (by omega)
        have hfi : firAt pts i = none := by rw [hrun i (by omega) hilt, hc]
        rw [h0, hfi]
        rfl
    · intro s hs
      exact hwf s hs
  | some f =>
    have hslt : fin.segmentStart < pts.length := by
      rcases Nat.lt_or_ge fin.segmentStart pts.length with h | h
      · exact h
      · have heq : fin.segmentStart = pts.length := by omega
        have := hstartcur heq
        rw [this] at hc
        cases hc
    refine ⟨?_, ?_⟩
    · intro i hilt
      show (segsOf (dictAppend fin.segs f
          ⟨fin.segmentStart, pts.length - 1, pts.drop fin.segmentStart⟩)).countP
          (fun s => segCovers s i) =
        if (firAt pts i).isSome then 1 else 0
      rw [countP_segsOf_dictAppend]
      by_cases his : i < fin.segmentStart
      · have h1 := hcnt1 i his
        have hcov : segCovers
            ⟨fin.segmentStart, pts.length - 1, pts.drop fin.segmentStart⟩ i
            = false := by
          simp [segCovers]
          omega
        simp [hcov, h1]
      · have h0 := hcnt0 i (by omega)
        have hcov : segCovers
            ⟨fin.segmentStart, pts.length - 1, pts.drop fin.segmentStart⟩ i
            = true := by
          simp [segCovers]
          omega
        have hfi : firAt pts i = some f := by rw [hrun i (by omega) hilt, hc]
        simp [hcov, h0, hfi]
    · intro s hs
      have hs' : s ∈ segsOf (dictAppend fin.segs f
          ⟨fin.segmentStart, pts.length - 1, pts.drop fin.segmentStart⟩) := hs
      rcases (mem_segsOf_dictAppend _ _ _ _).1 hs' with h | h
      · exact hwf s h
      · subst h
        refine ⟨?_, ?_⟩
        · show fin.segmentStart ≤ pts.length - 1
          omega
        · show pts.length - 1 < pts.length
          omega

/-- Claim C1 (amended): the segments emitted by `analyze_upr_route` cover
exactly the FIR-attributed input indices — an index whose coordinate is
identified with a (non-`None`) FIR is covered by exactly one emitted
segment, and an index identified with no FIR by none — and every emitted
segment is a well-formed interval inside the route.  (The original claim
asserted a partition of *all* indices; the no-FIR indices are never
covered, because the loop only closes a segment when `current_fir` is not
`None`.) -/
theorem c1_amended (pts : List (ℚ × ℚ)) :
    (∀ i, i < pts.length →
      coverCount (analyze_upr_route pts) i =
        if (firAt pts i).isSome then 1 else 0) ∧
    (∀ s ∈ allSegments (analyze_upr_route pts),
      s.startIdx ≤ s.endIdx ∧ s.endIdx < pts.length) := by
  obtain ⟨hidx, hstart, hstartcur, hcnt0, hcnt1, hrun, hwf⟩ :=
    uprLoop_inv pts pts 0 ⟨[], [], [], none, 0, 0⟩ rfl (Nat.zero_le _) rfl
      (Nat.le_refl 0) (fun _ => rfl) (fun _ _ => rfl)
      (fun j hj => absurd hj (Nat.not_lt_zero j))
      (fun j _ hj => absurd hj (Nat.not_lt_zero j))
      (fun s hs => absurd hs (List.not_mem_nil s))
  obtain ⟨hA, hB⟩ := uprFinal pts (pts.foldl (uprStep pts) ⟨[], [], [], none, 0, 0⟩)
    hstart hstartcur hcnt0 hcnt1 hrun hwf
  refine ⟨?_, ?_⟩
  · intro i hilt
    have h2 : (segsOf (analyze_upr_route pts).firSegments).countP
        (fun s => segCovers s i) = if (firAt pts i).isSome then 1 else 0 :=
      hA i hilt
    rw [segsOf_eq_flatten] at h2
    exact h2
  · intro s hs
    have hs' : s ∈ segsOf (analyze_upr_route pts).firSegments := by
      rw [segsOf_eq_flatten]
      exact hs
    exact hB s hs'

/-- Witness for `c1_amended` at the concrete one-point route `[(50, 170)]`
(a point inside the PAZA box), index 0. -/
theorem c1_witness :
    coverCount (analyze_upr_route [((50 : ℚ), 170)]) 0 =
      if (firAt [((50 : ℚ), 170)] 0).isSome then 1 else 0 :=
  (c1_amended [((50 : ℚ), 170)]).1 0 (by decide)

/-- `sumLens` over an empty block list. -/
theorem sumLens_nil : sumLens [] = 0 := rfl

/-- `sumLens` over a cons. -/
theorem sumLens_cons (l : Str) (ls : List Str) :
    sumLens (l :: ls) = l.length + sumLens ls := by
  simp [sumLens]

/-- `sumLens` over an append. -/
theorem sumLens_append (a b : List Str) :
    sumLens (a ++ b) = sumLens a + sumLens b := by
  simp [sumLens]

/-- `sumLenPlus` over an empty line list. -/
theorem sumLenPlus_nil : sumLenPlus [] = 0 := rfl

/-- `sumLenPlus` over a cons. -/
theorem sumLenPlus_cons (l : Str) (ls : List Str) :
    sumLenPlus (l :: ls) = l.length + 1 + sumLenPlus ls := by
  simp [sumLenPlus]

/-- `sumLenPlus` over an append. -/
theorem sumLenPlus_append (a b : List Str) :
    sumLenPlus (a ++ b) = sumLenPlus a + sumLenPlus b := by
  simp [sumLenPlus]

/-- Left strip never lengthens a string. -/
theorem pyLStrip_length_le (s : Str) : (pyLStrip s).length ≤ s.length :=
  (List.dropWhile_sublist _).length_le

/-- Right strip never lengthens a string. -/
theorem pyRStrip_length_le (s : Str) : (pyRStrip s).length ≤ s.length := by
  unfold pyRStrip
  rw [List.length_reverse]
  calc (s.reverse.dropWhile pyIsSpaceChar).length
      ≤ s.reverse.length := (List.dropWhile_sublist _).length_le
    _ = s.length := List.length_reverse s

/-- Strip never lengthens a string. -/
theorem pyStrip_length_le (s : Str) : (pyStrip s).length ≤ s.length :=
  le_trans (pyRStrip_length_le _) (pyLStrip_length_le _)

/-- Length of a newline join of a nonempty line list: one byte per line
boundary. -/
theorem joinNl_length_add_one : ∀ ls : List Str, ls ≠ [] →
    (joinNl ls).length + 1 = sumLenPlus ls
  | [], h => absurd rfl h
  | [l], _ => by simp [joinNl, sumLenPlus]
  | l :: l2 :: ls, _ => by
    have ih := joinNl_length_add_one (l2 :: ls) (by simp)
    show (l ++ '\n' :: joinNl (l2 :: ls)).length + 1 = sumLenPlus (l :: l2 :: ls)
    rw [List.length_append, sumLenPlus_cons]
    simp only [List.length_cons]
    omega

/-- `split('\n')` always yields at least one piece. -/
theorem splitNl_ne_nil : ∀ t : Str, splitNl t ≠ []
  | [] => by simp [splitNl]
  | c :: rest => by
    unfold splitNl
    by_cases h : c = '\n'
    · rw [if_pos h]
      simp
    · rw [if_neg h]
      cases hs : splitNl rest <;> simp

/-- The per-line budget of a newline split accounts exactly for the input
length plus the final (separator-less) line. -/
theorem splitNl_sumLenPlus : ∀ t : Str, sumLenPlus (splitNl t) = t.length + 1
  | [] => by simp [splitNl, sumLenPlus]
  | c :: rest => by
    have ih := splitNl_sumLenPlus rest
    unfold splitNl
    by_cases h : c = '\n'
    · rw [if_pos h]
      rw [sumLenPlus_cons, ih]
      simp only [List.length_nil, List.length_cons]
      omega
    · rw [if_neg h]
      cases hs : splitNl rest with
      | nil => exact absurd hs (splitNl_ne_nil rest)
      | cons l ls =>
        rw [hs, sumLenPlus_cons] at ih
        rw [sumLenPlus_cons]
        simp only [List.length_cons]
        omega

/-- Filtering lines never increases the separator-inclusive budget. -/
theorem sumLenPlus_filter_le (p : Str → Bool) : ∀ ls : List Str,
    sumLenPlus (ls.filter p) ≤ sumLenPlus ls
  | [] => Nat.le_refl 0
  | l :: ls => by
    have ih := sumLenPlus_filter_le p ls
    rw [List.filter_cons]
    by_cases h : p l
    · rw [if_pos h, sumLenPlus_cons, sumLenPlus_cons]
      omega
    · rw [if_neg h, sumLenPlus_cons]
      omega

/-- Stripping every line never increases the budget. -/
theorem sumLenPlus_map_strip_le : ∀ ls : List Str,
    sumLenPlus (ls.map pyStrip) ≤ sumLenPlus ls
  | [] => Nat.le_refl 0
  | l :: ls => by
    have ih := sumLenPlus_map_strip_le ls
    have h := pyStrip_length_le l
    rw [List.map_cons, sumLenPlus_cons, sumLenPlus_cons]
    omega

/-- A greedy-star match hands the continuation a suffix, so the remainder
it reports is never longer than the input. -/
theorem mstar_rest_le (p : Char → Bool)
    (k : Option Char → Str → Caps → MRes)
    (hk : ∀ p2 s2 c2 r cs, k p2 s2 c2 = some (r, cs) → r.length ≤ s2.length) :
    ∀ (s : Str) (prev : Option Char) (caps : Caps) (r : Str) (cs : Caps),
      mstar p prev s caps k = some (r, cs) → r.length ≤ s.length
  | [], _, _, _, _, h => hk _ _ _ _ _ h
  | c :: rest, prev, caps, r, cs, h => by
    have h' : (if p c then
        (match mstar p (some c) rest caps k with
         | some r2 => some r2
         | none => k prev (c :: rest) caps)
      else k prev (c :: rest) caps) = some (r, cs) := h
    split at h'
    · split at h'
      · rename_i r2 hm
        injection h' with h2
        subst h2
        exact Nat.le_succ_of_le (mstar_rest_le p k hk rest (some c) caps r cs hm)
      · exact hk _ _ _ _ _ h'
    · exact hk _ _ _ _ _ h'

/-- The matcher only ever hands continuations suffixes of its input, so
with a shrinking continuation the reported remainder is never longer than
the input. -/
theorem mre_rest_le : ∀ (re : RE) (prev : Option Char) (s : Str) (caps : Caps)
    (k : Option Char → Str → Caps → MRes),
    (∀ p2 s2 c2 r cs, k p2 s2 c2 = some (r, cs) → r.length ≤ s2.length) →
    ∀ r cs, mre re prev s caps k = some (r, cs) → r.length ≤ s.length
  | .eps, _, _, _, _, hk, _, _, h => hk _ _ _ _ _ h
  | .cls p, prev, s, caps, k, hk, r, cs, h => by
    cases s with
    | nil => exact absurd h (by simp [mre])
    | cons c rest =>
      have h' : (if p c then k (some c) rest caps else none) = some (r, cs) := h
      split at h'
      · exact Nat.le_succ_of_le (hk _ _ _ _ _ h')
      · cases h'
  | .seq a b, prev, s, caps, k, hk, r, cs, h => by
    have h' : mre a prev s caps
        (fun p2 s2 c2 => mre b p2 s2 c2 k) = some (r, cs) := h
    exact mre_rest_le a prev s caps _
      (fun p2 s2 c2 r2 cs2 h2 => mre_rest_le b p2 s2 c2 k hk r2 cs2 h2) r cs h'
  | .alt a b, prev, s, caps, k, hk, r, cs, h => by
    have h' : (match mre a prev s caps k with
        | some r2 => some r2
        | none => mre b prev s caps k) = some (r, cs) := h
    split at h'
    · rename_i r2 hm
      injection h' with h2
      subst h2
      exact mre_rest_le a prev s caps k hk r cs hm
    · exact mre_rest_le b prev s caps k hk r cs h'
  | .opt a, prev, s, caps, k, hk, r, cs, h => by
    have h' : (match mre a prev s caps k with
        | some r2 => some r2
        | none => k prev s caps) = some (r, cs) := h
    split at h'
    · rename_i r2 hm
      injection h' with h2
      subst h2
      exact mre_rest_le a prev s caps k hk r cs hm
    · exact hk _ _ _ _ _ h'
  | .starC p, prev, s, caps, k, hk, r, cs, h => by
    have h' : mstar p prev s caps k = some (r, cs) := h
    exact mstar_rest_le p k hk s prev caps r cs h'
  | .grp i a, prev, s, caps, k, hk, r, cs, h => by
    have h' : mre a prev s caps
        (fun p2 s2 c2 =>
          k p2 s2 ((i, s.take (s.length - s2.length)) :: c2)) = some (r, cs) := h
    refine mre_rest_le a prev s caps _ ?_ r cs h'
    intro p2 s2 c2 r2 cs2 h2
    exact hk _ _ _ _ _ h2
  | .nla a, prev, s, caps, k, hk, r, cs, h => by
    have h' : (match mre a prev s caps (fun _ s2 c2 => some (s2, c2)) with
        | some _ => none
        | none => k prev s caps) = some (r, cs) := h
    split at h'
    · cases h'
    · exact hk _ _ _ _ _ h'
  | .eos, prev, s, caps, k, hk, r, cs, h => by
    cases s with
    | nil => exact hk _ _ _ _ _ h
    | cons c rest =>
      have h' : (none : MRes) = some (r, cs) := h
      cases h'
  | .wordB, prev, s, caps, k, hk, r, cs, h => by
    have h' : (if atWordBoundary prev s then k prev s caps else none)
        = some (r, cs) := h
    split at h'
    · exact hk _ _ _ _ _ h'
    · cases h'

/-- An anchored match's remaining suffix is never longer than the input. -/
theorem reMatchL_rest_le (re : RE) (prev : Option Char) (s : Str)
    (r : Str) (cs : Caps) (h : reMatchL re prev s = some (r, cs)) :
    r.length ≤ s.length := by
  unfold reMatchL at h
  refine mre_rest_le re prev s [] _ ?_ r cs h
  intro p2 s2 c2 r2 cs2 h2
  have h3 : some (s2, c2) = some (r2, cs2) := h2
  injection h3 with h4
  have h5 : s2 = r2 := congrArg Prod.fst h4
  rw [← h5]

/-- Dropping a numbered-item marker never lengthens a line. -/
theorem dropNumDot_length_le (s : Str) : (dropNumDot s).length ≤ s.length := by
  unfold dropNumDot
  cases h : reMatchL numDotRE none s with
  | none => exact Nat.le_refl _
  | some r =>
    cases r with
    | mk rest caps => exact reMatchL_rest_le _ _ _ _ _ h

/-- Flushing the accumulated block consumes its separator-inclusive
budget (one spare byte per emitted block). -/
theorem flushCur_bound (secs cur : List Str) :
    sumLens (flushCur secs cur) + (flushCur secs cur).length ≤
      sumLens secs + secs.length + sumLenPlus cur := by
  cases cur with
  | nil => exact Nat.le_refl _
  | cons c cs =>
    show sumLens (secs ++ [pyStrip (joinNl (c :: cs))]) +
        (secs ++ [pyStrip (joinNl (c :: cs))]).length ≤ _
    have hj := joinNl_length_add_one (c :: cs) (by simp)
    have hs := pyStrip_length_le (joinNl (c :: cs))
    rw [sumLens_append, List.length_append, sumLens_cons, sumLens_nil]
    simp only [List.length_cons, List.length_nil]
    omega

/-- One segmentation step consumes at most the processed line's budget. -/
theorem segStep_bound (st : SegSt) (l : Str) :
    sumLens (segStep st l).secs + (segStep st l).secs.length +
      sumLenPlus (segStep st l).cur ≤
    sumLens st.secs + st.secs.length + sumLenPlus st.cur + (l.length + 1) := by
  have hf := flushCur_bound st.secs st.cur
  unfold segStep
  split
  · split
    · dsimp only
      rw [sumLenPlus_cons, sumLenPlus_nil]
      omega
    · omega
  · split
    · dsimp only
      rw [sumLenPlus_nil]
      omega
    · dsimp only
      rw [sumLenPlus_nil]
      omega
    · dsimp only
      omega
    · dsimp only
      omega
    · dsimp only
      rw [sumLenPlus_cons, sumLenPlus_nil]
      omega
    · dsimp only
      rw [sumLenPlus_nil]
      omega
    · split
      · dsimp only
        rw [sumLenPlus_append, sumLenPlus_cons, sumLenPlus_nil]
        omega
      · omega

/-- The segmentation fold keeps the flushed-plus-pending budget within the
initial budget plus the processed lines' budget. -/
theorem segFold_bound : ∀ (lines : List Str) (st : SegSt),
    sumLens (lines.foldl segStep st).secs +
      (lines.foldl segStep st).secs.length +
      sumLenPlus (lines.foldl segStep st).cur ≤
    sumLens st.secs + st.secs.length + sumLenPlus st.cur + sumLenPlus lines
  | [], st => by
    rw [List.foldl_nil, sumLenPlus_nil]
    omega
  | l :: ls, st => by
    have h1 := segStep_bound st l
    have h2 := segFold_bound ls (segStep st l)
    rw [List.foldl_cons, sumLenPlus_cons]
    omega

/-- Airport-path segmentation never produces more text than its input. -/
theorem segText_sumLens_le (t : Str) : sumLens (segText t) ≤ t.length := by
  have hb := segFold_bound (splitNl t) ⟨[], [], false, false⟩
  have hsp := splitNl_sumLenPlus t
  show sumLens (flushCur ((splitNl t).foldl segStep ⟨[], [], false, false⟩).secs
      ((splitNl t).foldl segStep ⟨[], [], false, false⟩).cur) ≤ t.length
  cases hst : (splitNl t).foldl segStep (⟨[], [], false, false⟩ : SegSt) with
  | mk secs cur found skip =>
    rw [hst] at hb
    dsimp only at hb ⊢
    have hb2 : sumLens secs + secs.length + sumLenPlus cur ≤ t.length + 1 := by
      rw [sumLens_nil, sumLenPlus_nil, hsp] at hb
      simp only [List.length_nil] at hb
      omega
    cases cur with
    | nil =>
      show sumLens secs ≤ t.length
      cases secs with
      | nil =>
        rw [sumLens_nil]
        exact Nat.zero_le _
      | cons s ss =>
        rw [sumLenPlus_nil] at hb2
        simp only [List.length_cons] at hb2
        omega
    | cons c cs =>
      show sumLens (secs ++ [pyStrip (joinNl (c :: cs))]) ≤ t.length
      have hj := joinNl_length_add_one (c :: cs) (by simp)
      have hstr := pyStrip_length_le (joinNl (c :: cs))
      rw [sumLens_append, sumLens_cons, sumLens_nil]
      omega

/-- A package flush always leaves an empty accumulator. -/
theorem pkFlush_cur (st : PkSt) : (pkFlush st).cur = [] := by
  unfold pkFlush
  split
  · rename_i heq
    exact heq
  · rfl

/-- A package flush consumes the accumulator's separator-inclusive
budget. -/
theorem pkFlush_bound (st : PkSt) :
    sumLens ((pkFlush st).notams.map Prod.snd) + (pkFlush st).notams.length ≤
      sumLens (st.notams.map Prod.snd) + st.notams.length +
        sumLenPlus (st.cur.map Prod.snd) := by
  unfold pkFlush
  split
  · omega
  · rename_i i x tl heq
    dsimp only
    rw [List.map_append, sumLens_append, List.length_append]
    simp only [List.map_cons, List.map_nil, sumLens_cons, sumLens_nil,
      List.length_cons, List.length_nil]
    have hj := joinNl_length_add_one (st.cur.map Prod.snd) (by rw [heq]; simp)
    have hstr := pyStrip_length_le (joinNl (st.cur.map Prod.snd))
    omega

/-- A conditional package flush never increases the budget measure. -/
theorem pkFlushIf_bound (b : Bool) (st2 : PkSt) :
    sumLens ((if b then pkFlush st2 else st2).notams.map Prod.snd) +
      (if b then pkFlush st2 else st2).notams.length +
      sumLenPlus ((if b then pkFlush st2 else st2).cur.map Prod.snd) ≤
    sumLens (st2.notams.map Prod.snd) + st2.notams.length +
      sumLenPlus (st2.cur.map Prod.snd) := by
  cases b with
  | false => exact Nat.le_refl _
  | true =>
    have hb := pkFlush_bound st2
    have hc := pkFlush_cur st2
    show sumLens ((pkFlush st2).notams.map Prod.snd) +
        (pkFlush st2).notams.length +
        sumLenPlus ((pkFlush st2).cur.map Prod.snd) ≤ _
    rw [hc]
    simp only [List.map_nil, sumLenPlus_nil]
    omega

/-- One package-split step consumes at most the processed line's budget. -/
theorem pkStep_bound (st : PkSt) (e : Nat × Str) :
    sumLens ((pkStep st e).notams.map Prod.snd) + (pkStep st e).notams.length +
      sumLenPlus ((pkStep st e).cur.map Prod.snd) ≤
    sumLens (st.notams.map Prod.snd) + st.notams.length +
      sumLenPlus (st.cur.map Prod.snd) + (e.2.length + 1) := by
  have hstep : pkStep st e =
      (if isDivider20 e.2 then pkFlush st
       else if sectionEndPats.any fun p => reMatchB p (pyStrip e.2) then pkFlush st
       else if isEndPhrase e.2 then
         pkFlush (if isPkNewNotam e.2 then (⟨(pkFlush st).notams, [e]⟩ : PkSt)
                  else ⟨st.notams, st.cur ++ [e]⟩)
       else if isPkNewNotam e.2 then (⟨(pkFlush st).notams, [e]⟩ : PkSt)
       else ⟨st.notams, st.cur ++ [e]⟩) := rfl
  have hfl := pkFlush_bound st
  have hflc := pkFlush_cur st
  have hst2 : sumLens ((if isPkNewNotam e.2 then (⟨(pkFlush st).notams, [e]⟩ : PkSt)
        else ⟨st.notams, st.cur ++ [e]⟩).notams.map Prod.snd) +
      (if isPkNewNotam e.2 then (⟨(pkFlush st).notams, [e]⟩ : PkSt)
        else ⟨st.notams, st.cur ++ [e]⟩).notams.length +
      sumLenPlus ((if isPkNewNotam e.2 then (⟨(pkFlush st).notams, [e]⟩ : PkSt)
        else ⟨st.notams, st.cur ++ [e]⟩).cur.map Prod.snd) ≤
      sumLens (st.notams.map Prod.snd) + st.notams.length +
        sumLenPlus (st.cur.map Prod.snd) + (e.2.length + 1) := by
    split
    · dsimp only
      simp only [List.map_cons, List.map_nil, sumLenPlus_cons, sumLenPlus_nil]
      omega
    · dsimp only
      rw [List.map_append, sumLenPlus_append]
      simp only [List.map_cons, List.map_nil, sumLenPlus_cons, sumLenPlus_nil]
      omega
  rw [hstep]
  split
  · rw [hflc]
    simp only [List.map_nil, sumLenPlus_nil]
    omega
  · split
    · rw [hflc]
      simp only [List.map_nil, sumLenPlus_nil]
      omega
    · split
      · exact le_trans (pkFlushIf_bound true _) hst2
      · exact hst2

/-- The package-split fold keeps the budget measure within the processed
elements' budget. -/
theorem pkFold_bound : ∀ (es : List (Nat × Str)) (st : PkSt),
    sumLens ((es.foldl pkStep st).notams.map Prod.snd) +
      (es.foldl pkStep st).notams.length +
      sumLenPlus ((es.foldl pkStep st).cur.map Prod.snd) ≤
    sumLens (st.notams.map Prod.snd) + st.notams.length +
      sumLenPlus (st.cur.map Prod.snd) + sumLenPlus (es.map Prod.snd)
  | [], st => by
    rw [List.foldl_nil]
    simp only [List.map_nil, sumLenPlus_nil]
    omega
  | e :: es, st => by
    have h1 := pkStep_bound st e
    have h2 := pkFold_bound es (pkStep st e)
    rw [List.foldl_cons, List.map_cons, sumLenPlus_cons]
    omega

/-- The indexed, stripped, blank-dropped line list of the package splitter
fits in the raw lines' budget. -/
theorem enumFilter_budget_le : ∀ (ls : List Str) (n : Nat),
    sumLenPlus (((ls.enumFrom n).filterMap fun e =>
      if pyStrip e.2 ≠ [] then some (e.1, pyStrip e.2) else none).map Prod.snd) ≤
    sumLenPlus ls
  | [], _ => Nat.le_refl _
  | l :: ls, n => by
    have ih := enumFilter_budget_le ls (n + 1)
    show sumLenPlus ((((n, l) :: ls.enumFrom (n + 1)).filterMap fun e =>
      if pyStrip e.2 ≠ [] then some (e.1, pyStrip e.2) else none).map Prod.snd) ≤
      sumLenPlus (l :: ls)
    rw [List.filterMap_cons]
    split
    · rw [sumLenPlus_cons]
      omega
    · rename_i b heq
      have hb : b = (n, pyStrip l) := by
        dsimp only at heq
        by_cases hp : pyStrip l ≠ []
        · rw [if_pos hp] at heq
          injection heq with h2
          exact h2.symm
        · rw [if_neg hp] at heq
          cases heq
      subst hb
      rw [List.map_cons, sumLenPlus_cons, sumLenPlus_cons]
      dsimp only
      have := pyStrip_length_le l
      omega

/-- Stable insertion is a permutation of consing. -/
theorem insSorted_perm (key : α → Nat) (x : α) : ∀ l : List α,
    List.Perm (insSorted key x l) (x :: l)
  | [] => List.Perm.refl _
  | y :: ys => by
    unfold insSorted
    split
    · exact List.Perm.refl _
    · exact List.Perm.trans (List.Perm.cons y (insSorted_perm key x ys))
        (List.Perm.swap x y ys)

/-- The insertion-sort fold permutes its input onto the accumulator. -/
theorem foldl_insSorted_perm (key : α → Nat) : ∀ (l acc : List α),
    List.Perm (l.foldl (fun acc x => insSorted key x acc) acc) (l ++ acc)
  | [], acc => by
    simp
  | x :: l, acc => by
    rw [List.foldl_cons]
    have ih := foldl_insSorted_perm key l (insSorted key x acc)
    have h2 : List.Perm (l ++ insSorted key x acc) (l ++ x :: acc) :=
      List.Perm.append_left l (insSorted_perm key x acc)
    have h3 : List.Perm (l ++ x :: acc) (x :: (l ++ acc)) := List.perm_middle
    exact List.Perm.trans (List.Perm.trans ih h2) h3

/-- The stable sort permutes its input. -/
theorem stableSortByKey_perm (key : α → Nat) (l : List α) :
    List.Perm (stableSortByKey key l) l := by
  have h := foldl_insSorted_perm key l []
  rw [List.append_nil] at h
  exact h

/-- Total block length is permutation-invariant. -/
theorem sumLens_perm {a b : List Str} (h : List.Perm a b) :
    sumLens a = sumLens b := by
  unfold sumLens
  exact List.Perm.sum_eq (h.map List.length)

/-- End-to-end budget bound of the package splitter on an arbitrary
indexed line list. -/
theorem pkPipeline_bound (elems : List (Nat × Str)) :
    sumLens ((stableSortByKey Prod.fst
        (pkFlush (elems.foldl pkStep (⟨[], []⟩ : PkSt))).notams).map Prod.snd) +
      (pkFlush (elems.foldl pkStep (⟨[], []⟩ : PkSt))).notams.length ≤
    sumLenPlus (elems.map Prod.snd) := by
  have hfold := pkFold_bound elems ⟨[], []⟩
  have hflush := pkFlush_bound (elems.foldl pkStep ⟨[], []⟩)
  have hsum : sumLens ((stableSortByKey Prod.fst
      (pkFlush (elems.foldl pkStep (⟨[], []⟩ : PkSt))).notams).map Prod.snd) =
      sumLens ((pkFlush (elems.foldl pkStep (⟨[], []⟩ : PkSt))).notams.map
        Prod.snd) :=
    sumLens_perm ((stableSortByKey_perm Prod.fst _).map Prod.snd)
  rw [hsum]
  dsimp only at hfold
  simp only [List.map_nil, sumLens_nil, sumLenPlus_nil, List.length_nil] at hfold
  omega

/-- The package splitter never produces more text than its input. -/
theorem split_package_sumLens_le (m : Str) :
    sumLens (split_package_notams m) ≤ m.length := by
  have hb := pkPipeline_bound (((splitNl m).enumFrom 1).filterMap fun e =>
    if pyStrip e.2 ≠ [] then some (e.1, pyStrip e.2) else none)
  have hbud : sumLenPlus (((((splitNl m).enumFrom 1).filterMap fun e =>
      if pyStrip e.2 ≠ [] then some (e.1, pyStrip e.2) else none)).map Prod.snd) ≤
      m.length + 1 := by
    have h1 := enumFilter_budget_le (splitNl m) 1
    have h2 := splitNl_sumLenPlus m
    omega
  have hres : split_package_notams m =
      (stableSortByKey Prod.fst (pkFlush ((((splitNl m).enumFrom 1).filterMap
        fun e => if pyStrip e.2 ≠ [] then some (e.1, pyStrip e.2) else none).foldl
        pkStep (⟨[], []⟩ : PkSt))).notams).map Prod.snd := rfl
  rw [hres]
  cases hn : (pkFlush ((((splitNl m).enumFrom 1).filterMap fun e =>
      if pyStrip e.2 ≠ [] then some (e.1, pyStrip e.2) else none).foldl pkStep
      (⟨[], []⟩ : PkSt))).notams with
  | nil => exact Nat.zero_le _
  | cons x xs =>
    rw [hn] at hb
    simp only [List.length_cons] at hb
    omega

/-- The merge pass never increases the separator-inclusive budget. -/
theorem mergePkLinesAux_budget_le : ∀ (fuel : Nat) (ls : List Str),
    sumLenPlus (mergePkLinesAux fuel ls) ≤ sumLenPlus ls
  | 0, ls => sumLenPlus_map_strip_le ls
  | _ + 1, [] => Nat.le_refl _
  | _ + 1, [l] => by
    show sumLenPlus [pyStrip l] ≤ sumLenPlus [l]
    rw [sumLenPlus_cons, sumLenPlus_cons]
    have := pyStrip_length_le l
    omega
  | fuel + 1, l :: l2 :: rest => by
    have ih1 := mergePkLinesAux_budget_le fuel rest
    have ih2 := mergePkLinesAux_budget_le fuel (l2 :: rest)
    show sumLenPlus (if (reMatchB mergeCoadRE (pyStrip l) ||
        reMatchB (mergeNotamIdRE (pyStrip l).length) (pyStrip l)) &&
        reMatchB mergeDateLineRE (pyStrip l2) then
          (dropNumDot (pyStrip l2) ++ ' ' :: pyStrip l) ::
            mergePkLinesAux fuel rest
        else pyStrip l :: mergePkLinesAux fuel (l2 :: rest)) ≤
      sumLenPlus (l :: l2 :: rest)
    have hd := dropNumDot_length_le (pyStrip l2)
    have hs1 := pyStrip_length_le l
    have hs2 := pyStrip_length_le l2
    split
    · simp only [sumLenPlus_cons, List.length_append, List.length_cons]
      omega
    · simp only [sumLenPlus_cons] at ih2 ⊢
      omega

/-- Joining the merge pass's output fits in any budget that covers the
input lines. -/
theorem joinNl_mergePkLines_le (ls : List Str) (B : Nat)
    (hb : sumLenPlus ls ≤ B + 1) : (joinNl (mergePkLines ls)).length ≤ B := by
  cases hm : mergePkLines ls with
  | nil => exact Nat.zero_le _
  | cons x xs =>
    have hjl := joinNl_length_add_one (x :: xs) (by simp)
    have hmb : sumLenPlus (mergePkLines ls) ≤ sumLenPlus ls :=
      mergePkLinesAux_budget_le ls.length ls
    rw [hm] at hmb
    omega

/-- The package merge pass never lengthens the bulletin. -/
theorem merge_length_le (t : Str) :
    (merge_package_notam_lines t).length ≤ t.length := by
  refine joinNl_mergePkLines_le _ _ ?_
  calc sumLenPlus ((splitNl t).filter fun l =>
        ¬ unwantedKeywords.any fun k => containsStr k l)
      ≤ sumLenPlus (splitNl t) := sumLenPlus_filter_le _ _
    _ = t.length + 1 := splitNl_sumLenPlus t

/-- Claim C5 (confirmed): for every input bulletin, on either segmentation
path (plain airport bulletin or package bulletin with its merge and split
passes), the summed length of the returned blocks never exceeds the length
of the input string — segmentation only removes content, never duplicates
it. -/
theorem c5_segmentation_sum_le (t : Str) :
    sumLens (segmentedBlocks t) ≤ t.length := by
  unfold segmentedBlocks
  split
  · calc sumLens (split_package_notams (merge_package_notam_lines t))
        ≤ (merge_package_notam_lines t).length := split_package_sumLens_le _
      _ ≤ t.length := merge_length_le t
  · exact segText_sumLens_le t

/-- Lines produced by a newline split never contain a newline. -/
theorem splitNl_no_newline : ∀ (t : Str), ∀ l ∈ splitNl t, '\n' ∉ l
  | [], l, hl => by
    simp [splitNl] at hl
    subst hl
    simp
  | c :: rest, l, hl => by
    unfold splitNl at hl
    by_cases h : c = '\n'
    · rw [if_pos h] at hl
      rcases List.mem_cons.1 hl with h2 | h2
      · subst h2; simp
      · exact splitNl_no_newline rest l h2
    · rw [if_neg h] at hl
      cases hs : splitNl rest with
      | nil => exact absurd hs (splitNl_ne_nil rest)
      | cons l0 ls =>
        rw [hs] at hl
        rcases List.mem_cons.1 hl with h2 | h2
        · subst h2
          intro hmem
          rcases List.mem_cons.1 hmem with h3 | h3
          · exact h h3.symm
          · exact splitNl_no_newline rest l0 (hs ▸ List.mem_cons_self l0 ls) h3
        · exact splitNl_no_newline rest l (hs ▸ List.mem_cons_of_mem l0 h2)

/-- Splitting a newline-free string is the identity (singleton). -/
theorem splitNl_of_no_newline : ∀ (l : Str), '\n' ∉ l → splitNl l = [l]
  | [], _ => rfl
  | c :: rest, h => by
    have hc : ¬ c = '\n' := fun he => h (he ▸ List.mem_cons_self c rest)
    have ih := splitNl_of_no_newline rest (fun hm => h (List.mem_cons_of_mem c hm))
    unfold splitNl
    rw [if_neg hc, ih]

/-- Splitting after one newline-free line peels it off. -/
theorem splitNl_append_newline : ∀ (l rest : Str), '\n' ∉ l →
    splitNl (l ++ '\n' :: rest) = l :: splitNl rest
  | [], rest, _ => rfl
  | c :: l, rest, h => by
    have hc : ¬ c = '\n' := fun he => h (he ▸ List.mem_cons_self c l)
    have ih := splitNl_append_newline l rest (fun hm => h (List.mem_cons_of_mem c hm))
    show (if c = '\n' then [] :: splitNl (l ++ '\n' :: rest)
          else match splitNl (l ++ '\n' :: rest) with
               | [] => [[c]]
               | l0 :: ls => (c :: l0) :: ls) = (c :: l) :: splitNl rest
    rw [if_neg hc, ih]

/-- Splitting a join of newline-free lines recovers the lines. -/
theorem splitNl_joinNl : ∀ (ls : List Str), ls ≠ [] → (∀ l ∈ ls, '\n' ∉ l) →
    splitNl (joinNl ls) = ls
  | [], h, _ => absurd rfl h
  | [l], _, hn => by
    show splitNl l = [l]
    exact splitNl_of_no_newline l (hn l (by simp))
  | l :: l2 :: ls, _, hn => by
    show splitNl (l ++ '\n' :: joinNl (l2 :: ls)) = l :: l2 :: ls
    rw [splitNl_append_newline l _ (hn l (by simp))]
    rw [splitNl_joinNl (l2 :: ls) (by simp) (fun x hx => hn x (by simp [hx]))]

/-- Join distributes over a nonempty append with one separator. -/
theorem joinNl_append_ne : ∀ (a b : List Str), a ≠ [] → b ≠ [] →
    joinNl (a ++ b) = joinNl a ++ '\n' :: joinNl b
  | [], _, ha, _ => absurd rfl ha
  | [x], b, _, hb => by
    cases b with
    | nil => exact absurd rfl hb
    | cons y ys =>
      show joinNl (x :: y :: ys) = x ++ '\n' :: joinNl (y :: ys)
      rfl
  | x :: x2 :: a, b, _, hb => by
    have ih := joinNl_append_ne (x2 :: a) b (by simp) hb
    show x ++ '\n' :: joinNl ((x2 :: a) ++ b) =
      (x ++ '\n' :: joinNl (x2 :: a)) ++ '\n' :: joinNl b
    rw [ih]
    simp

/-- Joining per-block joins equals joining the flattened lines, for
nonempty blocks. -/
theorem joinNl_map_flatten : ∀ (bss : List (List Str)),
    (∀ b ∈ bss, b ≠ []) → joinNl (bss.map joinNl) = joinNl bss.flatten
  | [], _ => rfl
  | [b], _ => by
    show joinNl [joinNl b] = joinNl (b ++ [].flatten)
    simp [joinNl]
  | b :: b2 :: bss, hne => by
    have ih := joinNl_map_flatten (b2 :: bss) (fun x hx => hne x (by simp [hx]))
    show joinNl b ++ '\n' :: joinNl ((b2 :: bss).map joinNl) =
      joinNl (b ++ (b2 :: bss).flatten)
    rw [ih]
    have hfl : (b2 :: bss).flatten ≠ [] := by
      have hb2 := hne b2 (by simp)
      cases b2 with
      | nil => exact absurd rfl hb2
      | cons y ys =>
        rw [List.flatten_cons]
        simp
    rw [joinNl_append_ne b _ (hne b (by simp)) hfl]

/-- A join headed by a nonempty line is nonempty. -/
theorem joinNl_ne_nil_of_head : ∀ (h : Str) (rest : List Str), h ≠ [] →
    joinNl (h :: rest) ≠ [] := by
  intro h rest hne
  cases rest with
  | nil => exact hne
  | cons r rs =>
    show h ++ '\n' :: joinNl (r :: rs) ≠ []
    simp

/-- The head character of a join is the head of the first line. -/
theorem joinNl_head? (h : Str) (rest : List Str) (hne : h ≠ []) :
    (joinNl (h :: rest)).head? = h.head? := by
  cases rest with
  | nil => rfl
  | cons r rs =>
    show (h ++ '\n' :: joinNl (r :: rs)).head? = h.head?
    cases h with
    | nil => exact absurd rfl hne
    | cons c cs => rfl

/-- The last character of a join of nonempty lines is the last character
of one of the lines. -/
theorem joinNl_getLast_exists : ∀ (bls : List Str), bls ≠ [] →
    (∀ l ∈ bls, l ≠ []) →
    ∃ z ∈ bls, (joinNl bls).getLast? = z.getLast?
  | [], h, _ => absurd rfl h
  | [z], _, _ => ⟨z, by simp, rfl⟩
  | l :: l2 :: ls, _, hne => by
    obtain ⟨z, hz, hzl⟩ := joinNl_getLast_exists (l2 :: ls) (by simp)
      (fun x hx => hne x (by simp [hx]))
    refine ⟨z, by simp [List.mem_cons.1 hz], ?_⟩
    show (l ++ '\n' :: joinNl (l2 :: ls)).getLast? = z.getLast?
    rw [List.getLast?_append]
    have hj : joinNl (l2 :: ls) ≠ [] :=
      joinNl_ne_nil_of_head l2 ls (hne l2 (by simp))
    cases hjv : joinNl (l2 :: ls) with
    | nil => exact absurd hjv hj
    | cons j js =>
      rw [hjv] at hzl
      rw [List.getLast?_cons_cons, hzl]
      cases hzv : z.getLast? with
      | none =>
        have : z ≠ [] := hne z (by simp [List.mem_cons.1 hz])
        cases z with
        | nil => exact absurd rfl this
        | cons a as => simp at hzv
      | some c => rfl

/-- If stripping fixes a string, so does left-stripping alone. -/
theorem pyLStrip_eq_of_strip (l : Str) (h : pyStrip l = l) :
    pyLStrip l = l := by
  have h1 : (pyStrip l).length ≤ (pyLStrip l).length := pyRStrip_length_le _
  have h2 : (pyLStrip l).length ≤ l.length := pyLStrip_length_le l
  have h3 : (pyStrip l).length = l.length := by rw [h]
  have h4 : (pyLStrip l).length = l.length := by omega
  exact (List.dropWhile_suffix _).eq_of_length h4

/-- If stripping fixes a string, so does right-stripping alone. -/
theorem pyRStrip_eq_of_strip (l : Str) (h : pyStrip l = l) :
    pyRStrip l = l := by
  have h1 := pyLStrip_eq_of_strip l h
  unfold pyStrip at h
  rw [h1] at h
  exact h

/-- A stripped string never starts with whitespace. -/
theorem head_not_ws (l : Str) (h : pyStrip l = l) (c : Char)
    (hc : l.head? = some c) : pyIsSpaceChar c = false := by
  have h1 := pyLStrip_eq_of_strip l h
  cases l with
  | nil => cases hc
  | cons a rest =>
    injection hc with hac
    rw [← hac]
    by_cases hp : pyIsSpaceChar a = true
    · exfalso
      unfold pyLStrip at h1
      rw [List.dropWhile_cons, if_pos hp] at h1
      have := congrArg List.length h1
      have hle : (rest.dropWhile pyIsSpaceChar).length ≤ rest.length :=
        (List.dropWhile_sublist _).length_le
      simp only [List.length_cons] at this
      omega
    · exact Bool.eq_false_iff.mpr hp

/-- A stripped string never ends with whitespace. -/
theorem getLast_not_ws (l : Str) (h : pyStrip l = l) (c : Char)
    (hc : l.getLast? = some c) : pyIsSpaceChar c = false := by
  have h1 := pyRStrip_eq_of_strip l h
  have h2 : l.reverse.dropWhile pyIsSpaceChar = l.reverse := by
    have := congrArg List.reverse h1
    rwa [pyRStrip, List.reverse_reverse] at this
  rw [← List.head?_reverse] at hc
  cases hr : l.reverse with
  | nil =>
    rw [hr] at hc
    cases hc
  | cons a rest =>
    rw [hr] at hc h2
    injection hc with hac
    rw [← hac]
    by_cases hp : pyIsSpaceChar a = true
    · exfalso
      rw [List.dropWhile_cons, if_pos hp] at h2
      have := congrArg List.length h2
      have hle : (rest.dropWhile pyIsSpaceChar).length ≤ rest.length :=
        (List.dropWhile_sublist _).length_le
      simp only [List.length_cons] at this
      omega
    · exact Bool.eq_false_iff.mpr hp

/-- A string with non-whitespace first and last characters is fixed by
stripping. -/
theorem pyStrip_eq_self_of (s : Str)
    (h1 : ∀ c, s.head? = some c → pyIsSpaceChar c = false)
    (h2 : ∀ c, s.getLast? = some c → pyIsSpaceChar c = false) :
    pyStrip s = s := by
  cases s with
  | nil => rfl
  | cons a rest =>
    have hl : pyLStrip (a :: rest) = a :: rest := by
      have ha : pyIsSpaceChar a = false := h1 a rfl
      unfold pyLStrip
      rw [List.dropWhile_cons, ha]
      simp
    unfold pyStrip
    rw [hl]
    unfold pyRStrip
    have hrev : (a :: rest).reverse.dropWhile pyIsSpaceChar =
        (a :: rest).reverse := by
      cases hr : (a :: rest).reverse with
      | nil =>
        have := congrArg List.length hr
        simp at this
      | cons b bs =>
        have hb : (a :: rest).getLast? = some b := by
          rw [← List.head?_reverse, hr]
          rfl
        have hbw : pyIsSpaceChar b = false := h2 b hb
        rw [List.dropWhile_cons, hbw]
        simp
    rw [hrev, List.reverse_reverse]

/-- A well-formed block joins to a string that stripping fixes. -/
theorem strip_joinNl_block (h : Str) (rest : List Str)
    (hclean : ∀ l ∈ h :: rest, pyStrip l = l ∧ l ≠ []) :
    pyStrip (joinNl (h :: rest)) = joinNl (h :: rest) := by
  apply pyStrip_eq_self_of
  · intro c hc
    rw [joinNl_head? h rest (hclean h (by simp)).2] at hc
    exact head_not_ws h (hclean h (by simp)).1 c hc
  · intro c hc
    obtain ⟨z, hz, hzl⟩ := joinNl_getLast_exists (h :: rest) (by simp)
      (fun l hl => (hclean l hl).2)
    rw [hzl] at hc
    exact getLast_not_ws z (hclean z hz).1 c hc

/-- Flushing a well-formed block emits its join verbatim. -/
theorem flushCur_blockOK (secs cur : List Str) (hb : BlockOK cur) :
    flushCur secs cur = secs ++ [joinNl cur] := by
  cases cur with
  | nil => exact hb.elim
  | cons h rest =>
    obtain ⟨h1, h2, h3⟩ := hb
    show secs ++ [pyStrip (joinNl (h :: rest))] = secs ++ [joinNl (h :: rest)]
    rw [strip_joinNl_block h rest (fun l hl => ⟨(h3 l hl).1, (h3 l hl).2.1⟩)]

/-- A content line extends the open section. -/
theorem segStep_other (secs cur : List Str) (found : Bool) (l : Str)
    (h : classifyLine l = LineKind.other) :
    segStep ⟨secs, cur, true, false⟩ l = ⟨secs, cur ++ [l], true, false⟩ := by
  simp [segStep, h]

/-- A start line flushes the open section and opens a new one. -/
theorem segStep_start (secs cur : List Str) (found : Bool) (l : Str)
    (h : classifyLine l = LineKind.startL) :
    segStep ⟨secs, cur, found, false⟩ l = ⟨flushCur secs cur, [l], true, false⟩ := by
  simp [segStep, h]

/-- Folding content lines appends them to the open section. -/
theorem contentFold : ∀ (content : List Str),
    (∀ l ∈ content, classifyLine l = LineKind.other) →
    ∀ (secs cur : List Str),
    content.foldl segStep ⟨secs, cur, true, false⟩ = ⟨secs, cur ++ content, true, false⟩
  | [], _, secs, cur => by simp
  | l :: content, h, secs, cur => by
    rw [List.foldl_cons, segStep_other secs cur true l (h l (by simp))]
    rw [contentFold content (fun x hx => h x (by simp [hx])) secs (cur ++ [l])]
    simp

/-- Replaying well-formed blocks from an open well-formed section emits
each block verbatim. -/
theorem replayAux : ∀ (bss : List (List Str)), (∀ b ∈ bss, BlockOK b) →
    ∀ (secs cur : List Str), BlockOK cur →
    flushCur ((bss.flatten.foldl segStep ⟨secs, cur, true, false⟩)).secs
        ((bss.flatten.foldl segStep ⟨secs, cur, true, false⟩)).cur =
      secs ++ (cur :: bss).map joinNl
  | [], _, secs, cur, hcur => by
    show flushCur secs cur = secs ++ (cur :: []).map joinNl
    rw [flushCur_blockOK secs cur hcur]
    rfl
  | bls :: bss, hb, secs, cur, hcur => by
    obtain ⟨h, content, rfl⟩ : ∃ h content, bls = h :: content := by
      cases bls with
      | nil => exact (hb [] (by simp)).elim
      | cons h c => exact ⟨h, c, rfl⟩
    obtain ⟨hstart, hothers, hlines⟩ := hb (h :: content) (by simp)
    have hfold : (((h :: content) :: bss).flatten).foldl segStep
        (⟨secs, cur, true, false⟩ : SegSt) =
        bss.flatten.foldl segStep ⟨secs ++ [joinNl cur], h :: content, true, false⟩ := by
      rw [List.flatten_cons, List.foldl_append, List.foldl_cons,
        segStep_start secs cur true h hstart, flushCur_blockOK secs cur hcur,
        contentFold content hothers]
      simp
    rw [hfold]
    rw [replayAux bss (fun b h2 => hb b (by simp [h2])) (secs ++ [joinNl cur])
      (h :: content) ⟨hstart, hothers, hlines⟩]
    simp

/-- Re-segmenting the flattened lines of well-formed blocks reproduces the
blocks. -/
theorem segReplay : ∀ (bss : List (List Str)), (∀ b ∈ bss, BlockOK b) →
    segLines bss.flatten = bss.map joinNl
  | [], _ => rfl
  | bls :: bss, hb => by
    obtain ⟨h, content, rfl⟩ : ∃ h content, bls = h :: content := by
      cases bls with
      | nil => exact (hb [] (by simp)).elim
      | cons h c => exact ⟨h, c, rfl⟩
    obtain ⟨hstart, hothers, hlines⟩ := hb (h :: content) (by simp)
    show flushCur ((((h :: content) :: bss).flatten).foldl segStep
        ⟨[], [], false, false⟩).secs
        ((((h :: content) :: bss).flatten).foldl segStep ⟨[], [], false, false⟩).cur =
      ((h :: content) :: bss).map joinNl
    have hfold : (((h :: content) :: bss).flatten).foldl segStep
        (⟨[], [], false, false⟩ : SegSt) =
        bss.flatten.foldl segStep ⟨[], h :: content, true, false⟩ := by
      rw [List.flatten_cons, List.foldl_append, List.foldl_cons,
        segStep_start [] [] false h hstart, contentFold content hothers]
      simp [flushCur]
    rw [hfold]
    rw [replayAux bss (fun b h2 => hb b (by simp [h2])) [] (h :: content)
      ⟨hstart, hothers, hlines⟩]
    simp

/-- Appending a content line preserves block well-formedness. -/
theorem blockOK_append_other (cur : List Str) (l : Str) (hb : BlockOK cur)
    (hcl : classifyLine l = LineKind.other)
    (hlk : pyStrip l = l ∧ l ≠ [] ∧ '\n' ∉ l) : BlockOK (cur ++ [l]) := by
  cases cur with
  | nil => exact hb.elim
  | cons h rest =>
    obtain ⟨h1, h2, h3⟩ := hb
    refine ⟨h1, ?_, ?_⟩
    · intro x hx
      rcases List.mem_append.1 hx with h4 | h4
      · exact h2 x h4
      · rw [List.mem_singleton] at h4
        subst h4
        exact hcl
    · intro x hx
      rcases List.mem_cons.1 hx with h4 | h4
      · exact h4 ▸ h3 h (by simp)
      · rcases List.mem_append.1 h4 with h5 | h5
        · exact h3 x (by simp [h5])
        · rw [List.mem_singleton] at h5
          subst h5
          exact hlk

/-- Pass-1 invariant of the segmentation loop on clean input lines: the
emitted sections always form a list of well-formed blocks, the open
accumulator (when nonempty) is itself a well-formed block, and an empty
accumulator only occurs before the first NOTAM or in skip mode. -/
theorem segInv : ∀ (lines : List Str)
    (hl : ∀ l ∈ lines, pyStrip l = l ∧ l ≠ [] ∧ '\n' ∉ l ∧
      (isStartLine l = true → classifyLine l = LineKind.startL))
    (st : SegSt) (bss : List (List Str)),
    st.secs = bss.map joinNl →
    (∀ b ∈ bss, BlockOK b) →
    (st.cur = [] ∨ BlockOK st.cur) →
    (st.cur = [] → st.found = false ∨ st.skip = true) →
    ∃ bss' : List (List Str),
      (∀ b ∈ bss', BlockOK b) ∧
      (lines.foldl segStep st).secs = bss'.map joinNl ∧
      ((lines.foldl segStep st).cur = [] ∨ BlockOK (lines.foldl segStep st).cur) ∧
      ((lines.foldl segStep st).cur = [] →
        (lines.foldl segStep st).found = false ∨
        (lines.foldl segStep st).skip = true)
  | [], _, st, bss, hsecs, hbss, hcur, hcoup => ⟨bss, hbss, hsecs, hcur, hcoup⟩
  | l :: lines, hl, st, bss, hsecs, hbss, hcur, hcoup => by
    obtain ⟨hstrip, hne, hnl, hstcl⟩ := hl l (by simp)
    have hl' : ∀ x ∈ lines, pyStrip x = x ∧ x ≠ [] ∧ '\n' ∉ x ∧
        (isStartLine x = true → classifyLine x = LineKind.startL) :=
      fun x hx => hl x (by simp [hx])
    rw [List.foldl_cons]
    by_cases hsk : st.skip = true
    · by_cases hst : isStartLine l = true
      · have hstep : segStep st l = ⟨flushCur st.secs st.cur, [l], true, false⟩ := by
          unfold segStep
          rw [if_pos hsk, if_pos hst]
        rw [hstep]
        have hblk : BlockOK [l] := by
          refine ⟨hstcl hst, by simp, ?_⟩
          intro x hx
          rw [List.mem_singleton] at hx
          subst hx
          exact ⟨hstrip, hne, hnl⟩
        rcases hcur with hc | hc
        · refine segInv lines hl' _ bss ?_ hbss (Or.inr hblk) ?_
          · show flushCur st.secs st.cur = bss.map joinNl
            rw [hc]
            exact hsecs
          · intro hx
            exact absurd hx (by simp)
        · refine segInv lines hl' _ (bss ++ [st.cur]) ?_ ?_ (Or.inr hblk) ?_
          · show flushCur st.secs st.cur = (bss ++ [st.cur]).map joinNl
            rw [flushCur_blockOK st.secs st.cur hc, hsecs, List.map_append]
            rfl
          · intro b hb2
            rcases List.mem_append.1 hb2 with h2 | h2
            · exact hbss b h2
            · rw [List.mem_singleton] at h2
              subst h2
              exact hc
          · intro hx
            exact absurd hx (by simp)
      · have hstep : segStep st l = st := by
          unfold segStep
          rw [if_pos hsk, if_neg hst]
        rw [hstep]
        exact segInv lines hl' st bss hsecs hbss hcur hcoup
    · cases hcl : classifyLine l with
      | eop =>
        have hstep : segStep st l = ⟨flushCur st.secs st.cur, [], st.found, true⟩ := by
          unfold segStep
          rw [if_neg hsk, hcl]
        rw [hstep]
        rcases hcur with hc | hc
        · refine segInv lines hl' _ bss ?_ hbss (Or.inl rfl) (fun _ => Or.inr rfl)
          show flushCur st.secs st.cur = bss.map joinNl
          rw [hc]
          exact hsecs
        · refine segInv lines hl' _ (bss ++ [st.cur]) ?_ ?_ (Or.inl rfl)
            (fun _ => Or.inr rfl)
          · show flushCur st.secs st.cur = (bss ++ [st.cur]).map joinNl
            rw [flushCur_blockOK st.secs st.cur hc, hsecs, List.map_append]
            rfl
          · intro b hb2
            rcases List.mem_append.1 hb2 with h2 | h2
            · exact hbss b h2
            · rw [List.mem_singleton] at h2
              subst h2
              exact hc
      | nocur =>
        have hstep : segStep st l = ⟨flushCur st.secs st.cur, [], st.found, true⟩ := by
          unfold segStep
          rw [if_neg hsk, hcl]
        rw [hstep]
        rcases hcur with hc | hc
        · refine segInv lines hl' _ bss ?_ hbss (Or.inl rfl) (fun _ => Or.inr rfl)
          show flushCur st.secs st.cur = bss.map joinNl
          rw [hc]
          exact hsecs
        · refine segInv lines hl' _ (bss ++ [st.cur]) ?_ ?_ (Or.inl rfl)
            (fun _ => Or.inr rfl)
          · show flushCur st.secs st.cur = (bss ++ [st.cur]).map joinNl
            rw [flushCur_blockOK st.secs st.cur hc, hsecs, List.map_append]
            rfl
          · intro b hb2
            rcases List.mem_append.1 hb2 with h2 | h2
            · exact hbss b h2
            · rw [List.mem_singleton] at h2
              subst h2
              exact hc
      | sectEnd =>
        have hstep : segStep st l = ⟨flushCur st.secs st.cur, [], st.found, true⟩ := by
          unfold segStep
          rw [if_neg hsk, hcl]
        rw [hstep]
        rcases hcur with hc | hc
        · refine segInv lines hl' _ bss ?_ hbss (Or.inl rfl) (fun _ => Or.inr rfl)
          show flushCur st.secs st.cur = bss.map joinNl
          rw [hc]
          exact hsecs
        · refine segInv lines hl' _ (bss ++ [st.cur]) ?_ ?_ (Or.inl rfl)
            (fun _ => Or.inr rfl)
          · show flushCur st.secs st.cur = (bss ++ [st.cur]).map joinNl
            rw [flushCur_blockOK st.secs st.cur hc, hsecs, List.map_append]
            rfl
          · intro b hb2
            rcases List.mem_append.1 hb2 with h2 | h2
            · exact hbss b h2
            · rw [List.mem_singleton] at h2
              subst h2
              exact hc
      | secy =>
        have hstep : segStep st l = ⟨st.secs, st.cur, st.found, true⟩ := by
          unfold segStep
          rw [if_neg hsk, hcl]
        rw [hstep]
        exact segInv lines hl' _ bss hsecs hbss hcur (fun _ => Or.inr rfl)
      | adv =>
        have hstep : segStep st l = ⟨st.secs, st.cur, st.found, true⟩ := by
          unfold segStep
          rw [if_neg hsk, hcl]
        rw [hstep]
        exact segInv lines hl' _ bss hsecs hbss hcur (fun _ => Or.inr rfl)
      | startL =>
        have hstep : segStep st l = ⟨flushCur st.secs st.cur, [l], true, false⟩ := by
          unfold segStep
          rw [if_neg hsk, hcl]
        rw [hstep]
        have hblk : BlockOK [l] := by
          refine ⟨hcl, by simp, ?_⟩
          intro x hx
          rw [List.mem_singleton] at hx
          subst hx
          exact ⟨hstrip, hne, hnl⟩
        rcases hcur with hc | hc
        · refine segInv lines hl' _ bss ?_ hbss (Or.inr hblk) ?_
          · show flushCur st.secs st.cur = bss.map joinNl
            rw [hc]
            exact hsecs
          · intro hx
            exact absurd hx (by simp)
        · refine segInv lines hl' _ (bss ++ [st.cur]) ?_ ?_ (Or.inr hblk) ?_
          · show flushCur st.secs st.cur = (bss ++ [st.cur]).map joinNl
            rw [flushCur_blockOK st.secs st.cur hc, hsecs, List.map_append]
            rfl
          · intro b hb2
            rcases List.mem_append.1 hb2 with h2 | h2
            · exact hbss b h2
            · rw [List.mem_singleton] at h2
              subst h2
              exact hc
          · intro hx
            exact absurd hx (by simp)
      | other =>
        have hstep : segStep st l =
            if st.found = true then ⟨st.secs, st.cur ++ [l], st.found, st.skip⟩
            else st := by
          unfold segStep
          rw [if_neg hsk, hcl]
        by_cases hf : st.found = true
        · rw [hstep, if_pos hf]
          rcases hcur with hc | hc
          · exfalso
            rcases hcoup hc with h2 | h2
            · rw [hf] at h2
              exact Bool.noConfusion h2
            · exact hsk h2
          · refine segInv lines hl' _ bss hsecs hbss
              (Or.inr (blockOK_append_other st.cur l hc hcl ⟨hstrip, hne, hnl⟩)) ?_
            intro hx
            exact absurd hx (by simp)
        · rw [hstep, if_neg hf]
          exact segInv lines hl' st bss hsecs hbss hcur hcoup

/-- Re-segmenting a join of well-formed blocks reproduces the blocks. -/
theorem segRetext (bss : List (List Str)) (hb : ∀ b ∈ bss, BlockOK b) :
    segText (joinNl (bss.map joinNl)) = bss.map joinNl := by
  cases bss with
  | nil => decide
  | cons b bss =>
    have hbne : ∀ x ∈ b :: bss, x ≠ [] := by
      intro x hx
      cases x with
      | nil => exact (hb [] hx).elim
      | cons y ys => simp
    have h1 : joinNl ((b :: bss).map joinNl) = joinNl (b :: bss).flatten :=
      joinNl_map_flatten _ hbne
    have hnlf : ∀ l ∈ (b :: bss).flatten, '\n' ∉ l := by
      intro l hlm
      rw [List.mem_flatten] at hlm
      obtain ⟨bl, hbl, hlbl⟩ := hlm
      have hbOK := hb bl hbl
      cases bl with
      | nil => exact hbOK.elim
      | cons h rest => exact (hbOK.2.2 l hlbl).2.2
    have hflne : (b :: bss).flatten ≠ [] := by
      have hbne1 := hbne b (by simp)
      cases b with
      | nil => exact absurd rfl hbne1
      | cons y ys =>
        rw [List.flatten_cons]
        simp
    unfold segText
    rw [h1, splitNl_joinNl _ hflne hnlf]
    exact segReplay (b :: bss) hb

/-- Claim C6 counterexample: a bulletin whose section carries a trailing
divider line with a trailing space.  The first segmentation keeps the
divider inside the block (the raw line does not match the section-end
pattern) but strips the trailing space from the block; re-segmenting the
rejoined blocks then recognises the now-bare `====` divider as a section
end and drops it, so the block lists differ. -/
theorem c6_counterexample :
    segText (joinNl (segText
      (str "09JUL25 16:00 - 25SEP25 09:00 RKSI Z0582/25\n==== "))) ≠
    segText (str "09JUL25 16:00 - 25SEP25 09:00 RKSI Z0582/25\n==== ") := by
  decide

/-- Claim C6 (amended): segmentation is idempotent on bulletins whose
lines are already stripped and nonempty and in which every line matching a
NOTAM-start pattern is classified as a start line (not captured first by a
higher-priority skip rule such as the COMPANY ADVISORY search).  For such
input, re-segmenting the newline-join of the first segmentation's blocks
reproduces the same block list. -/
theorem c6_amended (t : Str)
    (hclean : ∀ l ∈ splitNl t, pyStrip l = l ∧ l ≠ [] ∧
      (isStartLine l = true → classifyLine l = LineKind.startL)) :
    segText (joinNl (segText t)) = segText t := by
  have hl : ∀ l ∈ splitNl t, pyStrip l = l ∧ l ≠ [] ∧ '\n' ∉ l ∧
      (isStartLine l = true → classifyLine l = LineKind.startL) := by
    intro l hlm
    obtain ⟨a, b, c⟩ := hclean l hlm
    exact ⟨a, b, splitNl_no_newline t l hlm, c⟩
  obtain ⟨bss, hbss, hsecs, hcur, hcoup⟩ :=
    segInv (splitNl t) hl ⟨[], [], false, false⟩ [] rfl (by simp) (Or.inl rfl)
      (fun _ => Or.inl rfl)
  rcases hcur with hc | hc
  · have hblocks : segText t = bss.map joinNl := by
      show flushCur ((splitNl t).foldl segStep ⟨[], [], false, false⟩).secs
        ((splitNl t).foldl segStep ⟨[], [], false, false⟩).cur = bss.map joinNl
      rw [hc]
      exact hsecs
    rw [hblocks]
    exact segRetext bss hbss
  · have hblocks : segText t =
        (bss ++ [((splitNl t).foldl segStep ⟨[], [], false, false⟩).cur]).map
          joinNl := by
      show flushCur ((splitNl t).foldl segStep ⟨[], [], false, false⟩).secs
        ((splitNl t).foldl segStep ⟨[], [], false, false⟩).cur = _
      rw [flushCur_blockOK _ _ hc, hsecs, List.map_append]
      rfl
    rw [hblocks]
    refine segRetext _ ?_
    intro b hb2
    rcases List.mem_append.1 hb2 with h2 | h2
    · exact hbss b h2
    · rw [List.mem_singleton] at h2
      subst h2
      exact hc

/-- A line that matches no start pattern is never classified as a start
line. -/
theorem classifyLine_ne_start (l : Str) (hns : isStartLine l = false) :
    classifyLine l ≠ LineKind.startL := by
  intro h
  unfold classifyLine at h
  rw [hns] at h
  split_ifs at h <;> simp_all

/-- Without any start line the segmentation loop never accumulates or
emits anything. -/
theorem segNoStart : ∀ (lines : List Str),
    (∀ l ∈ lines, isStartLine l = false) →
    ∀ st : SegSt, st.cur = [] → st.found = false →
    (lines.foldl segStep st).secs = st.secs ∧
    (lines.foldl segStep st).cur = [] ∧
    (lines.foldl segStep st).found = false
  | [], _, st, hc, hf => ⟨rfl, hc, hf⟩
  | l :: lines, hns, st, hc, hf => by
    have hns1 := hns l (by simp)
    have hns' : ∀ x ∈ lines, isStartLine x = false := fun x hx => hns x (by simp [hx])
    rw [List.foldl_cons]
    by_cases hsk : st.skip = true
    · have hstep : segStep st l = st := by
        unfold segStep
        rw [if_pos hsk, if_neg (by rw [hns1]; simp)]
      rw [hstep]
      exact segNoStart lines hns' st hc hf
    · cases hcl : classifyLine l with
      | eop =>
        have hstep : segStep st l = ⟨flushCur st.secs st.cur, [], st.found, true⟩ := by
          unfold segStep
          rw [if_neg hsk, hcl]
        rw [hstep]
        have h2 := segNoStart lines hns'
          ⟨flushCur st.secs st.cur, [], st.found, true⟩ rfl hf
        refine ⟨?_, h2.2.1, h2.2.2⟩
        rw [h2.1]
        show flushCur st.secs st.cur = st.secs
        rw [hc]
        rfl
      | nocur =>
        have hstep : segStep st l = ⟨flushCur st.secs st.cur, [], st.found, true⟩ := by
          unfold segStep
          rw [if_neg hsk, hcl]
        rw [hstep]
        have h2 := segNoStart lines hns'
          ⟨flushCur st.secs st.cur, [], st.found, true⟩ rfl hf
        refine ⟨?_, h2.2.1, h2.2.2⟩
        rw [h2.1]
        show flushCur st.secs st.cur = st.secs
        rw [hc]
        rfl
      | sectEnd =>
        have hstep : segStep st l = ⟨flushCur st.secs st.cur, [], st.found, true⟩ := by
          unfold segStep
          rw [if_neg hsk, hcl]
        rw [hstep]
        have h2 := segNoStart lines hns'
          ⟨flushCur st.secs st.cur, [], st.found, true⟩ rfl hf
        refine ⟨?_, h2.2.1, h2.2.2⟩
        rw [h2.1]
        show flushCur st.secs st.cur = st.secs
        rw [hc]
        rfl
      | secy =>
        have hstep : segStep st l = ⟨st.secs, st.cur, st.found, true⟩ := by
          unfold segStep
          rw [if_neg hsk, hcl]
        rw [hstep]
        exact segNoStart lines hns' ⟨st.secs, st.cur, st.found, true⟩ hc hf
      | adv =>
        have hstep : segStep st l = ⟨st.secs, st.cur, st.found, true⟩ := by
          unfold segStep
          rw [if_neg hsk, hcl]
        rw [hstep]
        exact segNoStart lines hns' ⟨st.secs, st.cur, st.found, true⟩ hc hf
      | startL => exact absurd hcl (classifyLine_ne_start l hns1)
      | other =>
        have hstep : segStep st l =
            if st.found = true then ⟨st.secs, st.cur ++ [l], st.found, st.skip⟩
            else st := by
          unfold segStep
          rw [if_neg hsk, hcl]
        rw [hstep, if_neg (by rw [hf]; simp)]
        exact segNoStart lines hns' st hc hf

/-- Without any start line the airport-path segmentation emits no
blocks. -/
theorem segText_no_start (t : Str)
    (hns : ∀ l ∈ splitNl t, isStartLine l = false) : segText t = [] := by
  have h := segNoStart (splitNl t) hns ⟨[], [], false, false⟩ rfl rfl
  show flushCur ((splitNl t).foldl segStep ⟨[], [], false, false⟩).secs
    ((splitNl t).foldl segStep ⟨[], [], false, false⟩).cur = []
  rw [h.2.1]
  exact h.1

/-- Claim C7 counterexample: a package-marked bulletin none of whose lines
matches a NOTAM-start pattern still yields a nonempty result — the
package splitter groups arbitrary lines into blocks and the parser
extracts an airport from the `E) HONG KONG` information line, emitting a
record numbered `Unknown`.  "Empty when nothing matches" fails on the
package path. -/
theorem c7_counterexample :
    (∀ l ∈ splitNl
      (str "KOREAN AIR NOTAM PACKAGE 1\n====================\nE) HONG KONG"),
      isStartLine l = false) ∧
    filter_korean_air_notams ⟨false, false⟩
      (str "KOREAN AIR NOTAM PACKAGE 1\n====================\nE) HONG KONG") ≠
      [] := by
  constructor
  · decide
  · decide

/-- Claim C7 (amended): on the airport path the "empty when nothing
matches" behaviour does hold — for every bulletin that is not detected as
a package and has no line matching a NOTAM-start pattern (including the
empty string), `filter_korean_air_notams` returns the empty list.  (Being
a total function of its input, the embedded filter cannot raise.) -/
theorem c7_amended (ck : Clock) (t : Str)
    (hnp : detect_notam_type_is_package t = false)
    (hns : ∀ l ∈ splitNl t, isStartLine l = false) :
    filter_korean_air_notams ck t = [] := by
  unfold filter_korean_air_notams
  rw [hnp]
  show filter_airport_notams ck t = []
  unfold filter_airport_notams
  rw [segText_no_start t hns]
  rfl

/-- Witness for `c7_amended` on the empty bulletin and a plain no-match
bulletin. -/
theorem c7_witness :
    (detect_notam_type_is_package (str "NO NOTAMS TODAY") = false ∧
      ∀ l ∈ splitNl (str "NO NOTAMS TODAY"), isStartLine l = false) ∧
    filter_korean_air_notams ⟨false, false⟩ (str "NO NOTAMS TODAY") = [] :=
  ⟨⟨by decide, by decide⟩, c7_amended ⟨false, false⟩ _ (by decide) (by decide)⟩

/-- Last element of an append whose right part has a last element. -/
theorem getLast?_append_some (a b : Str) (c : Char) (h : b.getLast? = some c) :
    (a ++ b).getLast? = some c := by
  rw [List.getLast?_append, h]
  rfl

/-- Last element of a cons whose tail has a last element. -/
theorem getLast?_cons_some (x : Char) (b : Str) (c : Char)
    (h : b.getLast? = some c) : (x :: b).getLast? = some c := by
  cases b with
  | nil => cases h
  | cons y ys =>
    rw [List.getLast?_cons_cons]
    exact h

/-- An ISO-Z timestamp always ends in `'Z'`. -/
theorem fmtIsoZ_getLast (dt : PyDateTime) : (fmtIsoZ dt).getLast? = some 'Z' :=
  getLast?_append_some _ ['Z'] 'Z' rfl

/-- No ISO-Z timestamp is the sentinel `"UFN"`. -/
theorem fmtIsoZ_ne_ufn (dt : PyDateTime) : fmtIsoZ dt ≠ str "UFN" := by
  intro h
  have h2 := congrArg List.getLast? h
  rw [fmtIsoZ_getLast] at h2
  exact absurd h2 (by decide)

/-- No ISO-Z timestamp is the sentinel `"PERM"`. -/
theorem fmtIsoZ_ne_perm (dt : PyDateTime) : fmtIsoZ dt ≠ str "PERM" := by
  intro h
  have h2 := congrArg List.getLast? h
  rw [fmtIsoZ_getLast] at h2
  exact absurd h2 (by decide)

/-- Shape of every `_parse_time_info` result: either the UFN branch fired
(timestamp effective, literal `"UFN"` expiry), or the explicit range
branch fired (two timestamps), or the result is the pair of the two
independent `B)`/`C)` stages — each of which is a timestamp when present
and absent when its field does not match. -/
theorem parse_time_info_shape (t : Str) :
    (∃ dt, parse_time_info t = ⟨some (fmtIsoZ dt), some (str "UFN")⟩) ∨
    (∃ dt1 dt2, parse_time_info t = ⟨some (fmtIsoZ dt1), some (fmtIsoZ dt2)⟩) ∨
    ((reSearch bFieldRE t = none → (parse_time_info t).effective = none) ∧
     (reSearch cFieldRE t = none → (parse_time_info t).expiry = none) ∧
     (∀ x, (parse_time_info t).effective = some x → ∃ dt, x = fmtIsoZ dt) ∧
     (∀ x, (parse_time_info t).expiry = some x → ∃ dt, x = fmtIsoZ dt)) := by
  unfold parse_time_info
  dsimp only
  split
  · rename_i r heq
    split at heq
    · rename_i m rest caps
      split at heq
      · rename_i dateS timeS h1 h2
        split at heq
        · rename_i dt hdt
          injection heq with h3
          subst h3
          exact Or.inl ⟨dt, rfl⟩
        · exact absurd heq (by simp)
      · exact absurd heq (by simp)
    · exact absurd heq (by simp)
  · rename_i heq
    split
    · rename_i r2 heq2
      split at heq2
      · rename_i m rest caps
        split at heq2
        · rename_i d1 t1 d2 t2 h1 h2 h3 h4
          split at heq2
          · rename_i sdt edt hs he
            injection heq2 with h5
            subst h5
            exact Or.inr (Or.inl ⟨sdt, edt, rfl⟩)
          · exact absurd heq2 (by simp)
        · exact absurd heq2 (by simp)
      · exact absurd heq2 (by simp)
    · rename_i heq2
      refine Or.inr (Or.inr ⟨?_, ?_, ?_, ?_⟩)
      · intro hb
        dsimp only
        rw [hb]
      · intro hc
        dsimp only
        rw [hc]
      · intro x hx
        dsimp only at hx
        split at hx
        · rename_i m rest caps
          split at hx
          · rename_i b hb
            rcases Option.map_eq_some'.1 hx with ⟨dt, hdt, hfx⟩
            exact ⟨dt, hfx.symm⟩
          · exact absurd hx (by simp)
        · exact absurd hx (by simp)
      · intro x hx
        dsimp only at hx
        split at hx
        · rename_i m rest caps
          split at hx
          · rename_i c hc
            rcases Option.map_eq_some'.1 hx with ⟨dt, hdt, hfx⟩
            exact ⟨dt, hfx.symm⟩
          · exact absurd hx (by simp)
        · exact absurd hx (by simp)

/-- Claim C4 counterexample: a COAD-headed section carrying only a coded
`B)` field yields an emitted record with an effective time but an empty
expiry, and `_parse_time_info` on a `B)`-only text returns an effective
timestamp with no expiry: the two time fields are set independently, so
one-sided records are emitted. -/
theorem c4_counterexample :
    (filter_airport_notams ⟨false, false⟩
      (str "VVCR COAD25/24\nB) 2503200606")).map
        (fun r => (r.effective.isEmpty, r.expiry.isEmpty)) = [(false, true)] ∧
    (parse_time_info (str "B) 2503200606")).effective.isSome = true ∧
    (parse_time_info (str "B) 2503200606")).expiry = none := by
  refine ⟨by decide, by decide, by decide⟩

/-- Claim C4 (amended): the paired branches of `_parse_time_info` (UFN and
explicit range) always set both fields, and a `"UFN"` expiry always comes
with an effective timestamp; only the independent `B)`/`C)` stage can be
one-sided, so in the absence of both coded fields the both-or-neither
invariant holds. -/
theorem c4_amended (t : Str) :
    ((parse_time_info t).expiry = some (str "UFN") →
      (parse_time_info t).effective.isSome) ∧
    (reSearch bFieldRE t = none → reSearch cFieldRE t = none →
      ((parse_time_info t).effective = none ∧ (parse_time_info t).expiry = none) ∨
      ((parse_time_info t).effective.isSome ∧ (parse_time_info t).expiry.isSome)) := by
  rcases parse_time_info_shape t with ⟨dt, h⟩ | ⟨dt1, dt2, h⟩ | ⟨hb, hc, he, hx⟩
  · rw [h]
    exact ⟨fun _ => rfl, fun _ _ => Or.inr ⟨rfl, rfl⟩⟩
  · rw [h]
    exact ⟨fun _ => rfl, fun _ _ => Or.inr ⟨rfl, rfl⟩⟩
  · constructor
    · intro h2
      obtain ⟨dt, hdt⟩ := hx _ h2
      exact (fmtIsoZ_ne_ufn dt hdt.symm).elim
    · intro hbn hcn
      exact Or.inl ⟨hb hbn, hc hcn⟩

/-- Witness for `c4_amended` on the concrete UFN-range line. -/
theorem c4_witness :
    (parse_time_info (str "01JAN25 00:00 - UFN")).effective.isSome :=
  (c4_amended (str "01JAN25 00:00 - UFN")).1 (by decide)

/-- `_parse_time_info` expiry values: never the sentinel `"PERM"`; always
either the literal `"UFN"` sentinel or an ISO-Z timestamp. -/
theorem parse_time_info_expiry_shape (t : Str) (x : Str)
    (h : (parse_time_info t).expiry = some x) :
    x ≠ str "PERM" ∧ (x = str "UFN" ∨ ∃ dt, x = fmtIsoZ dt) := by
  rcases parse_time_info_shape t with ⟨dt, hs⟩ | ⟨dt1, dt2, hs⟩ | ⟨hb, hc, he, hx⟩
  · rw [hs] at h
    injection h with h2
    refine ⟨?_, ?_⟩ <;> rw [← h2]
    · decide
    · exact Or.inl rfl
  · rw [hs] at h
    injection h with h2
    refine ⟨?_, Or.inr ⟨dt2, h2.symm⟩⟩
    rw [← h2]
    exact fmtIsoZ_ne_perm dt2
  · obtain ⟨dt, hdt⟩ := hx x h
    subst hdt
    exact ⟨fmtIsoZ_ne_perm dt, Or.inr ⟨dt, rfl⟩⟩

/-- A `"UFN"` expiry renders literally: any display string produced for a
record with the `"UFN"` sentinel contains the substring `" - UFN ("`. -/
theorem ufn_display_literal (ck : Clock) (p : ParsedNotam) (s : Str)
    (hufn : p.expiry = some (str "UFN"))
    (hdisp : generate_local_time_display ck p = some s) :
    List.IsInfix (str " - UFN (") s := by
  unfold generate_local_time_display at hdisp
  split at hdisp
  · exact absurd hdisp (by simp)
  · rename_i eff heff
    split at hdisp
    · exact absurd hdisp (by simp)
    · split at hdisp
      · exact absurd hdisp (by simp)
      · rename_i effDt hparse
        dsimp only at hdisp
        split at hdisp
        · rename_i oh om h1 h2
          split at hdisp
          · rename_i df hdf
            split at hdisp
            · injection hdisp with h3
              rw [← h3]
              refine List.IsInfix.trans ?_ ((List.prefix_append _ _).isInfix)
              refine List.IsInfix.trans ?_ ((List.prefix_append _ _).isInfix)
              refine List.IsInfix.trans ?_ ((List.prefix_append _ _).isInfix)
              refine List.IsInfix.trans ?_ ((List.prefix_append _ _).isInfix)
              refine List.IsInfix.trans ?_ ((List.prefix_append _ _).isInfix)
              exact List.infix_append _ _ _
            · injection hdisp with h3
              rw [← h3]
              refine List.IsInfix.trans ?_ ((List.prefix_append _ _).isInfix)
              refine List.IsInfix.trans ?_ ((List.prefix_append _ _).isInfix)
              exact (List.suffix_append _ _).isInfix
          · injection hdisp with h3
            rw [← h3]
            refine List.IsInfix.trans ?_ ((List.prefix_append _ _).isInfix)
            refine List.IsInfix.trans ?_ ((List.prefix_append _ _).isInfix)
            exact (List.suffix_append _ _).isInfix
        · exact absurd hdisp (by simp)

/-- A `"PERM"` expiry never reaches a rendered display: the sentinel is
fed to `datetime.fromisoformat`, which raises, and the exception handler
returns `None`. -/
theorem perm_display_none (ck : Clock) (p : ParsedNotam)
    (hperm : p.expiry = some (str "PERM")) :
    generate_local_time_display ck p = none := by
  unfold generate_local_time_display
  split
  · rfl
  · rename_i eff heff
    split
    · rfl
    · split
      · rfl
      · rename_i effDt hparse
        split
        · rename_i hUFN
          rw [hperm] at hUFN
          exact absurd hUFN (by decide)
        · rename_i hnUFN
          rw [hperm]
          dsimp only
          have hpp : parseIsoAware (pyReplace (str "Z") (str "+00:00")
              (str "PERM")) = none := by decide
          split
          · rw [if_neg (show ¬(str "PERM" = ([] : Str)) from by decide), hpp]
          · rfl

/-- Claim C2 counterexample: on an otherwise fully well-formed record the
`"PERM"` sentinel is not rendered literally — the display is `None` —
while the same record with a `"UFN"` expiry does render.  (`"PERM"` is
passed to `fromisoformat`, which raises.) -/
theorem c2_counterexample :
    generate_local_time_display ⟨false, false⟩
      ⟨some (str "YSSY"), some (str "A0001/25"),
       some (str "2025-07-09T16:00:00Z"), some (str "PERM"), none⟩ = none ∧
    generate_local_time_display ⟨false, false⟩
      ⟨some (str "YSSY"), some (str "A0001/25"),
       some (str "2025-07-09T16:00:00Z"), some (str "UFN"), none⟩ =
      some (str "07/10 02:00 - UFN (+10:00)") :=
  ⟨by decide, by decide⟩

/-- Claim C2 (amended): the time parser never converts a sentinel to a
timestamp — every parsed expiry is the literal `"UFN"` or a timestamp and
never `"PERM"` — and the display renders a `"UFN"` sentinel literally
(the substring `" - UFN ("` appears in any produced display string).  A
`"PERM"` sentinel, however, is not rendered literally: the display
function always returns `None` for it. -/
theorem c2_amended :
    (∀ t x, (parse_time_info t).expiry = some x →
      x ≠ str "PERM" ∧ (x = str "UFN" ∨ ∃ dt, x = fmtIsoZ dt)) ∧
    (∀ (ck : Clock) (p : ParsedNotam) (s : Str),
      p.expiry = some (str "UFN") →
      generate_local_time_display ck p = some s →
      List.IsInfix (str " - UFN (") s) ∧
    (∀ (ck : Clock) (p : ParsedNotam),
      p.expiry = some (str "PERM") →
      generate_local_time_display ck p = none) :=
  ⟨parse_time_info_expiry_shape, ufn_display_literal, perm_display_none⟩

/-- Witness for `c2_amended`: the rendered display of a concrete UFN
record contains the literal sentinel. -/
theorem c2_witness :
    List.IsInfix (str " - UFN (") (str "07/10 02:00 - UFN (+10:00)") :=
  c2_amended.2.1 ⟨false, false⟩
    ⟨some (str "YSSY"), some (str "A0001/25"),
     some (str "2025-07-09T16:00:00Z"), some (str "UFN"), none⟩ _
    (by decide) (by decide)

/-- First-occurrence de-duplication by key produces key-distinct records,
none of whose keys were already seen. -/
theorem dedupByKeyAux_key_spec : ∀ (l : List NotamData) (seen : List Str),
    ((dedupByKeyAux l seen).map notamKey).Nodup ∧
    (∀ n ∈ dedupByKeyAux l seen, seen.contains (notamKey n) = false)
  | [], seen => ⟨List.nodup_nil, by simp [dedupByKeyAux]⟩
  | n :: rest, seen => by
    unfold dedupByKeyAux
    by_cases h : seen.contains (notamKey n) = true
    · rw [if_pos h]
      exact dedupByKeyAux_key_spec rest seen
    · rw [if_neg h]
      obtain ⟨ih1, ih2⟩ := dedupByKeyAux_key_spec rest (notamKey n :: seen)
      constructor
      · rw [List.map_cons]
        refine List.nodup_cons.2 ⟨?_, ih1⟩
        intro hmem
        rw [List.mem_map] at hmem
        obtain ⟨m, hm, hkey⟩ := hmem
        have h2 := ih2 m hm
        simp [List.contains_cons] at h2
        exact h2.1 hkey
      · intro m hm
        rcases List.mem_cons.1 hm with h2 | h2
        · subst h2
          exact Bool.eq_false_iff.mpr h
        · have h3 := ih2 m h2
          simp [List.contains_cons] at h3
          simp [h3.2]

unseal Rat.add Rat.mul Rat.sub Rat.inv in
/-- Claim C8 counterexample: a NOTAM matched both by FIR membership
(`KSEA` → PAZA, on a route traversing PAZA) and by waypoint mention
(`RKSI` named in its description) appears twice in the merged match sets
— its `(notam_number, airports)` key occurs twice — while only the
summary count is de-duplicated. -/
theorem c8_counterexample :
    ((mergedRecords (analyze_route_with_fir_notams (str "N50E170..RKSI")
      [⟨str "A1", some [str "KSEA"], none, [], str "RKSI RWY CLSD"⟩])).map
        notamKey).length = 2 ∧
    ((mergedRecords (analyze_route_with_fir_notams (str "N50E170..RKSI")
      [⟨str "A1", some [str "KSEA"], none, [], str "RKSI RWY CLSD"⟩])).map
        notamKey).dedup.length = 1 ∧
    (analyze_route_with_fir_notams (str "N50E170..RKSI")
      [⟨str "A1", some [str "KSEA"], none, [], str "RKSI RWY CLSD"⟩]).totalRelevantNotams
      = 1 :=
  ⟨by decide, by decide, by decide⟩

/-- Claim C8 (amended): exactly-once holds for the de-duplicated views —
the reported total counts each `(notam_number, airports)` key of the
merged match sets once, first-occurrence de-duplication of the merged
records is key-distinct, and each per-FIR group is key-distinct — but the
merged record list itself may repeat a key (see the counterexample). -/
theorem c8_amended (routeText : Str) (notams : List NotamData) :
    (analyze_route_with_fir_notams routeText notams).totalRelevantNotams =
      ((mergedRecords (analyze_route_with_fir_notams routeText notams)).map
        notamKey).dedup.length ∧
    ((dedupByKey (mergedRecords (analyze_route_with_fir_notams routeText
      notams))).map notamKey).Nodup ∧
    (∀ e ∈ (analyze_route_with_fir_notams routeText notams).firNotams,
      (e.2.map notamKey).Nodup) := by
  refine ⟨rfl, (dedupByKeyAux_key_spec _ []).1, ?_⟩
  intro e he
  have he' : e ∈ List.map
      (fun fc => (fc, dedupByKey (filter_notams_by_fir notams [fc])))
      ((((if (parse_route_with_waypoints routeText).coordinates ≠ [] then
        some (analyze_upr_route (parse_route_with_waypoints routeText).coordinates)
        else none).map UprResult.traversedFirs).getD [])) := he
  rw [List.mem_map] at he'
  obtain ⟨fc, _, hfc⟩ := he'
  rw [← hfc]
  exact (dedupByKeyAux_key_spec _ []).1

/-- Witness for `c8_amended` at a concrete route with no NOTAMs. -/
theorem c8_witness :
    (analyze_route_with_fir_notams (str "RKSI") []).totalRelevantNotams =
      ((mergedRecords (analyze_route_with_fir_notams (str "RKSI") [])).map
        notamKey).dedup.length :=
  (c8_amended (str "RKSI") []).1

/-- Witness for `c6_amended` on a concrete two-line bulletin satisfying
the cleanliness hypothesis. -/
theorem c6_witness :
    (∀ l ∈ splitNl (str "01JAN25 00:00 - UFN RKSI A0001/25\nRWY 15L/33R CLSD"),
      pyStrip l = l ∧ l ≠ [] ∧
      (isStartLine l = true → classifyLine l = LineKind.startL)) ∧
    segText (joinNl (segText
      (str "01JAN25 00:00 - UFN RKSI A0001/25\nRWY 15L/33R CLSD"))) =
      segText (str "01JAN25 00:00 - UFN RKSI A0001/25\nRWY 15L/33R CLSD") :=
  ⟨by decide, c6_amended _ (by decide)⟩

set_option maxHeartbeats 4000000

/-- An if-then-else of two nonempty strings is nonempty. -/
theorem ite_ne_nil {c : Prop} [Decidable c] {a b : Str} (ha : a ≠ []) (hb : b ≠ []) :
    (if c then a else b) ≠ [] := by
  split
  · exact ha
  · exact hb

/-- Every branch of `get_timezone_by_fir_pattern` returns a nonempty
string, so the code-side acceptance test `fir_timezone != "UTC+0"` agrees
with `nonDefaultTz` on its output. -/
theorem firPattern_ne_nil (dst : Bool) (icao : Str) :
    get_timezone_by_fir_pattern dst icao ≠ [] := by
  unfold get_timezone_by_fir_pattern
  dsimp only
  repeat' first
    | exact (by decide)
    | refine ite_ne_nil ?_ ?_

/-- The code equals the corrected chain model on every input (with
`use_api = True`): the API and FIR-pattern stages stop only at a
non-default value, while the CSV and first-letter stages stop at any
present entry, even a default-valued one. -/
theorem c9_code_eq_chain (api : Str → Option Str) (csv : List (Str × Str))
    (dst : Bool) (icao : Str) :
    get_utc_offset api csv dst true icao = get_utc_offset_chain api csv dst icao := by
  unfold get_utc_offset get_utc_offset_chain tzStages
  by_cases hg : (icao = [] || icao.length < 2) = true
  · rw [if_pos hg, if_pos hg]
  · rw [if_neg hg, if_neg hg]
    dsimp only
    have hic : icao ≠ [] := by
      intro h
      exact hg (by simp [h])
    have hicU : pyUpper icao ≠ [] := by
      intro h
      exact hic (List.map_eq_nil.mp h)
    cases hapi : api (pyUpper icao) with
    | some r =>
      by_cases hr : nonDefaultTz r = true
      · have h2 : r ≠ [] ∧ r ≠ str "UTC+0" := by
          simpa [nonDefaultTz] using hr
        simp [nonDefaultTz, h2.1, h2.2, List.findSome?]
      · rw [Bool.not_eq_true] at hr
        have hrr : r = [] ∨ r = str "UTC+0" := by
          have := hr
          simp [nonDefaultTz] at this
          tauto
        have hite : (if ¬r = [] ∧ ¬r = str "UTC+0" then some r else (none : Option Str)) = none := by
          rcases hrr with h | h
          · simp [h]
          · simp [h]
        by_cases hf : get_timezone_by_fir_pattern dst (pyUpper icao) = str "UTC+0"
        · cases hcsv : csv.find? fun e => e.1 = pyUpper icao with
          | some e => simp [nonDefaultTz, hr, hrr, hite, hf, hcsv, List.findSome?]
          | none =>
            cases hshape : pyUpper icao with
            | nil => exact absurd hshape hicU
            | cons c rest =>
              rw [hshape] at hf hcsv
              cases hlet : icaoFirstLetterTable.find? fun e => e.1 = c with
              | some e => simp [nonDefaultTz, hr, hrr, hite, hf, hcsv, hshape, hlet, List.findSome?]
              | none => simp [nonDefaultTz, hr, hrr, hite, hf, hcsv, hshape, hlet, List.findSome?]
        · have hne := firPattern_ne_nil dst (pyUpper icao)
          simp [nonDefaultTz, hr, hrr, hite, hf, hne, List.findSome?]
    | none =>
      by_cases hf : get_timezone_by_fir_pattern dst (pyUpper icao) = str "UTC+0"
      · cases hcsv : csv.find? fun e => e.1 = pyUpper icao with
        | some e => simp [nonDefaultTz, hf, hcsv, List.findSome?]
        | none =>
          cases hshape : pyUpper icao with
          | nil => exact absurd hshape hicU
          | cons c rest =>
            rw [hshape] at hf hcsv
            cases hlet : icaoFirstLetterTable.find? fun e => e.1 = c with
            | some e => simp [nonDefaultTz, hf, hcsv, hshape, hlet, List.findSome?]
            | none => simp [nonDefaultTz, hf, hcsv, hshape, hlet, List.findSome?]
      · have hne := firPattern_ne_nil dst (pyUpper icao)
        simp [nonDefaultTz, hf, hne, List.findSome?]

/-- When every CSV entry carries a non-default value, the code agrees
with the claimed stop-at-first-non-default chain on every input: the
built-in first-letter table is all non-default, so the CSV table is the
only source that can surface a default-valued hit. -/
theorem c9_code_eq_claimed_of_csv (api : Str → Option Str) (csv : List (Str × Str))
    (dst : Bool) (icao : Str) (hcok : ∀ e ∈ csv, nonDefaultTz e.2 = true) :
    get_utc_offset api csv dst true icao = get_utc_offset_claimed api csv dst icao := by
  have hlcon : ∀ e ∈ icaoFirstLetterTable, nonDefaultTz e.2 = true := by decide
  unfold get_utc_offset get_utc_offset_claimed tzStages
  by_cases hg : (icao = [] || icao.length < 2) = true
  · rw [if_pos hg, if_pos hg]
  · rw [if_neg hg, if_neg hg]
    dsimp only
    have hic : icao ≠ [] := by
      intro h
      exact hg (by simp [h])
    have hicU : pyUpper icao ≠ [] := by
      intro h
      exact hic (List.map_eq_nil.mp h)
    cases hapi : api (pyUpper icao) with
    | some r =>
      by_cases hr : nonDefaultTz r = true
      · have h2 : r ≠ [] ∧ r ≠ str "UTC+0" := by
          simpa [nonDefaultTz] using hr
        simp [nonDefaultTz, h2.1, h2.2, List.findSome?]
      · rw [Bool.not_eq_true] at hr
        have hrr : r = [] ∨ r = str "UTC+0" := by
          have := hr
          simp [nonDefaultTz] at this
          tauto
        have hite : (if ¬r = [] ∧ ¬r = str "UTC+0" then some r else (none : Option Str)) = none := by
          rcases hrr with h | h
          · simp [h]
          · simp [h]
        by_cases hf : get_timezone_by_fir_pattern dst (pyUpper icao) = str "UTC+0"
        · cases hcsv : csv.find? fun e => e.1 = pyUpper icao with
          | some e =>
            have he2 : nonDefaultTz e.2 = true :=
              hcok e (List.mem_of_find?_eq_some hcsv)
            have he2' : e.2 ≠ [] ∧ e.2 ≠ str "UTC+0" := by
              simpa [nonDefaultTz] using he2
            simp [nonDefaultTz, hr, hrr, hite, hf, hcsv, he2'.1, he2'.2, List.findSome?]
          | none =>
            cases hshape : pyUpper icao with
            | nil => exact absurd hshape hicU
            | cons c rest =>
              rw [hshape] at hf hcsv
              cases hlet : icaoFirstLetterTable.find? fun e => e.1 = c with
              | some e =>
                have he2 : nonDefaultTz e.2 = true :=
                  hlcon e (List.mem_of_find?_eq_some hlet)
                have he2' : e.2 ≠ [] ∧ e.2 ≠ str "UTC+0" := by
                  simpa [nonDefaultTz] using he2
                simp [nonDefaultTz, hr, hrr, hite, hf, hcsv, hshape, hlet, he2'.1, he2'.2, List.findSome?]
              | none => simp [nonDefaultTz, hr, hrr, hite, hf, hcsv, hshape, hlet, List.findSome?]
        · have hne := firPattern_ne_nil dst (pyUpper icao)
          simp [nonDefaultTz, hr, hrr, hite, hf, hne, List.findSome?]
    | none =>
      by_cases hf : get_timezone_by_fir_pattern dst (pyUpper icao) = str "UTC+0"
      · cases hcsv : csv.find? fun e => e.1 = pyUpper icao with
        | some e =>
          have he2 : nonDefaultTz e.2 = true :=
            hcok e (List.mem_of_find?_eq_some hcsv)
          have he2' : e.2 ≠ [] ∧ e.2 ≠ str "UTC+0" := by
            simpa [nonDefaultTz] using he2
          simp [nonDefaultTz, hf, hcsv, he2'.1, he2'.2, List.findSome?]
        | none =>
          cases hshape : pyUpper icao with
          | nil => exact absurd hshape hicU
          | cons c rest =>
            rw [hshape] at hf hcsv
            cases hlet : icaoFirstLetterTable.find? fun e => e.1 = c with
            | some e =>
              have he2 : nonDefaultTz e.2 = true :=
                hlcon e (List.mem_of_find?_eq_some hlet)
              have he2' : e.2 ≠ [] ∧ e.2 ≠ str "UTC+0" := by
                simpa [nonDefaultTz] using he2
              simp [nonDefaultTz, hf, hcsv, hshape, hlet, he2'.1, he2'.2, List.findSome?]
            | none => simp [nonDefaultTz, hf, hcsv, hshape, hlet, List.findSome?]
      · have hne := firPattern_ne_nil dst (pyUpper icao)
        simp [nonDefaultTz, hf, hne, List.findSome?]

/-- C9 counterexample: with no API result and a CSV entry mapping AAAA
to the default "UTC+0", the code returns that default from the CSV stage,
whereas the claimed chain skips the default-valued hit and falls through
to the first-letter table, returning "UTC+2".  The fallback chain does
not in general stop only at the first *non-default* success. -/
theorem c9_counterexample :
    get_utc_offset (fun _ => none) [(str "AAAA", str "UTC+0")] false true (str "AAAA")
      = str "UTC+0" ∧
    get_utc_offset_claimed (fun _ => none) [(str "AAAA", str "UTC+0")] false (str "AAAA")
      = str "UTC+2" :=
  ⟨rfl, rfl⟩

/-- C9 amended: (1) on every input the `use_api = True` code equals the
chain that tries API, FIR-pattern, CSV, first-letter in order, where the
first two stages stop at a non-default value and the last two stop at any
present entry; (2) whenever every CSV entry carries a non-default value,
the code equals the claimed stop-at-first-non-default chain. -/
theorem c9_amended :
    (∀ (api : Str → Option Str) (csv : List (Str × Str)) (dst : Bool) (icao : Str),
      get_utc_offset api csv dst true icao = get_utc_offset_chain api csv dst icao) ∧
    (∀ (api : Str → Option Str) (csv : List (Str × Str)) (dst : Bool) (icao : Str),
      (∀ e ∈ csv, nonDefaultTz e.2 = true) →
      get_utc_offset api csv dst true icao = get_utc_offset_claimed api csv dst icao) :=
  ⟨c9_code_eq_chain, c9_code_eq_claimed_of_csv⟩

/-- C9 witness: both parts of the amended theorem applied at a concrete
input (YSSY, no API, empty CSV table). -/
theorem c9_witness :
    get_utc_offset (fun _ => none) [] false true (str "YSSY")
      = get_utc_offset_chain (fun _ => none) [] false (str "YSSY") ∧
    get_utc_offset (fun _ => none) [] false true (str "YSSY")
      = get_utc_offset_claimed (fun _ => none) [] false (str "YSSY") :=
  ⟨c9_amended.1 (fun _ => none) [] false (str "YSSY"),
   c9_amended.2 (fun _ => none) [] false (str "YSSY") (by simp)⟩

end SmartNotam
